import Mathlib

/-!
# Access-manager grant: request query and response decoder

A shallow embedding of `grant_request.go` (package `pubnub`): the query built by
`grantOpts.buildQuery` and the decoder `newGrantResponse` / `fetchChannel`, followed by
theorems about them.

Conventions of the embedding

* A decoded `interface{}` is a `JSON` tree.  Numbers are the finite `float64` values that
  `encoding/json` yields, kept as rationals.
* A Go `map[string]T` is an association list `GoMap T`; the order of the list is the order
  in which a `range` loop visits the entries, which Go leaves unspecified, so a statement
  quantified over every list covers every iteration order.  Keys of a Go map are distinct.
* A run-time panic (a failed unchecked type assertion) is `Except.error`; a normal return is
  `Except.ok`.
* Pointers to freshly allocated structs that are never shared are replaced by the struct
  they point to at the time the function returns.  Where the source shares one struct
  between several map entries (the map shape of `channel-groups`) the cells are explicit.
-/

namespace Pubnub

/-! ## Go values -/

/-- Go `map[string]T`, entries in iteration order. -/
abbrev GoMap (α : Type) := List (String × α)

/-- Decoded JSON, the dynamic value `encoding/json` stores in an `interface{}`:
`nil`, `bool`, `float64`, `string`, `[]interface{}`, `map[string]interface{}`. -/
inductive JSON where
  | null
  | bool (b : Bool)
  | num (x : ℚ)
  | str (s : String)
  | arr (xs : List JSON)
  | obj (kvs : List (String × JSON))

namespace GoMap

variable {α : Type}

/-- The comma-ok index expression `v, ok := m[k]`. -/
def get? : GoMap α → String → Option α
  | [], _ => none
  | (k', v) :: rest, k => if k' = k then some v else get? rest k

/-- The assignment `m[k] = v`. -/
def set : GoMap α → String → α → GoMap α
  | [], k, v => [(k, v)]
  | (k', v') :: rest, k, v => if k' = k then (k, v) :: rest else (k', v') :: set rest k v

/-- Key list of the map. -/
def keys (m : GoMap α) : List String := m.map Prod.fst

end GoMap

/-- The value of `x, _ := v.(map[string]interface{})`: the map, or the nil map. -/
def asMap : JSON → GoMap JSON
  | .obj kvs => kvs
  | _ => []

/-- The value of `x, _ := v.(float64)`: the number, or `0`. -/
def asFloat : JSON → ℚ
  | .num x => x
  | _ => 0

/-- The value of `x, _ := v.(string)`: the string, or `""`. -/
def asString : JSON → String
  | .str s => s
  | _ => ""

/-- The plain index expression `m[k]` on a `map[string]interface{}`: `nil` when absent. -/
def index (m : GoMap JSON) (k : String) : JSON := (m.get? k).getD .null

/-- The conversion `int(f)` of a `float64`: truncation toward zero.  Outside the range of a
64-bit `int` the Go specification leaves the result to the implementation; the value here is
the one amd64 produces. -/
def floatToInt (f : ℚ) : Int :=
  let t := Int.tdiv f.num f.den
  if -(2 : Int) ^ 63 ≤ t ∧ t < (2 : Int) ^ 63 then t else -(2 : Int) ^ 63

/-- The block repeated throughout the decoder,
`if val, ok := m[key]; ok { parsedValue, _ := val.(float64); flag = (parsedValue == 1) }`:
the new value of `flag`, whose current value is `cur`. -/
def readFlag (m : GoMap JSON) (key : String) (cur : Bool) : Bool :=
  match m.get? key with
  | some val => decide (asFloat val = 1)
  | none => cur

/-! ## Response structures -/

/-- PNAccessManagerKeyData. -/
structure PNAccessManagerKeyData where
  ReadEnabled : Bool := false
  WriteEnabled : Bool := false
  ManageEnabled : Bool := false
  TTL : Int := 0
  deriving DecidableEq, Repr

/-- PNPAMEntityData; `AuthKeys` holds the key data its pointers refer to. -/
structure PNPAMEntityData where
  Name : String := ""
  AuthKeys : GoMap PNAccessManagerKeyData := []
  ReadEnabled : Bool := false
  WriteEnabled : Bool := false
  ManageEnabled : Bool := false
  TTL : Int := 0
  deriving DecidableEq, Repr

/-- GrantResponse; the maps hold the entities their pointers refer to. -/
structure GrantResponse where
  Level : String := ""
  SubscribeKey : String := ""
  TTL : Int := 0
  Channels : GoMap PNPAMEntityData := []
  ChannelGroups : GoMap PNPAMEntityData := []
  ReadEnabled : Bool := false
  WriteEnabled : Bool := false
  ManageEnabled : Bool := false
  deriving DecidableEq, Repr

/-- The error built by `pnerr.NewResponseParsingError(message, body, origError)`. -/
structure ResponseParsingError (ε : Type) where
  message : String
  body : List UInt8
  origError : ε

/-- The three `r` / `w` / `m` blocks applied to a fresh `&PNAccessManagerKeyData{}`. -/
def keyDataOf (valueMap : GoMap JSON) : PNAccessManagerKeyData :=
  { ReadEnabled := readFlag valueMap "r" false
    WriteEnabled := readFlag valueMap "w" false
    ManageEnabled := readFlag valueMap "m" false }

/-- The three `r` / `w` / `m` blocks applied to an existing key-data struct. -/
def updateKeyData (valueMap : GoMap JSON) (keyData : PNAccessManagerKeyData) :
    PNAccessManagerKeyData :=
  { keyData with
    ReadEnabled := readFlag valueMap "r" keyData.ReadEnabled
    WriteEnabled := readFlag valueMap "w" keyData.WriteEnabled
    ManageEnabled := readFlag valueMap "m" keyData.ManageEnabled }

/-- Panic message of a failed unchecked type assertion. -/
def conversionPanic : String := "interface conversion"

/-- The loop `for key, value := range m { valueMap := value.(map[string]interface{}); ...;
auths[key] = keyData }` of `fetchChannel` (lines 543-575) and of the `channel` branch
(lines 301-333): the assertion is unchecked. -/
def authsLoop : GoMap JSON → GoMap PNAccessManagerKeyData →
    Except String (GoMap PNAccessManagerKeyData)
  | [], auths => .ok auths
  | (key, value) :: rest, auths =>
    match value with
    | .obj valueMap => authsLoop rest (auths.set key (keyDataOf valueMap))
    | _ => .error conversionPanic

/-- The value of `x, _ := v.(int)` on a decoded JSON value: `encoding/json` stores every
number as `float64`, so no decoded value has dynamic type `int` and the result is `0`. -/
def asInt : JSON → Int
  | _ => 0

/-- The payload-level `ttl` block `if val, ok := parsedPayload["ttl"]; ok { x = int(val) }`,
applied to a field whose current value is `cur`. -/
def readTTL (parsedPayload : GoMap JSON) (cur : Int) : Int :=
  match parsedPayload.get? "ttl" with
  | some val => floatToInt (asFloat val)
  | none => cur

/-- fetchChannel (lines 530-613). -/
def fetchChannel (channelName : String) (value : JSON) (parsedPayload : GoMap JSON) :
    Except String PNPAMEntityData := do
  let valueMap := asMap value
  let auths ←
    match valueMap.get? "auths" with
    | some val =>
      match val with
      | .obj parsedValue => authsLoop parsedValue []
      | _ => .error conversionPanic
    | none => .ok []
  return { Name := channelName
           AuthKeys := auths
           ReadEnabled := readFlag valueMap "r" false
           WriteEnabled := readFlag valueMap "w" false
           ManageEnabled := readFlag valueMap "m" false
           TTL := readTTL parsedPayload 0 }

/-- The `channel` branch of `newGrantResponse` (lines 293-338): the new value of
`constructedChannels`. -/
def channelBranch (parsedPayload : GoMap JSON) (constructedChannels : GoMap PNPAMEntityData) :
    Except String (GoMap PNPAMEntityData) :=
  let ttl := asFloat (index parsedPayload "ttl")
  match parsedPayload.get? "channel" with
  | some val =>
    match val with
    | .str channelName => do
      let channelMap := asMap (index parsedPayload "auths")
      let auths ← authsLoop channelMap []
      return constructedChannels.set channelName
        { Name := channelName, AuthKeys := auths, TTL := floatToInt ttl }
    | _ => .error conversionPanic
  | none => .ok constructedChannels

/-- The loop over `auths` in the string shape of `channel-groups` (lines 348-386); the state
is the local struct `entityData` and the map `constructedAuthKey`. -/
def stringGroupLoop : GoMap JSON → PNPAMEntityData → GoMap PNAccessManagerKeyData →
    PNPAMEntityData × GoMap PNAccessManagerKeyData
  | [], entityData, constructedAuthKey => (entityData, constructedAuthKey)
  | (authKeyName, value) :: rest, entityData, constructedAuthKey =>
    let auth := asMap value
    let managerKeyData := keyDataOf auth
    let entityData :=
      match auth.get? "ttl" with
      | some val => { entityData with TTL := asInt val }
      | none => entityData
    stringGroupLoop rest entityData (constructedAuthKey.set authKeyName managerKeyData)

/-- The local struct `entityData` of the map shape of `channel-groups` (line 395) while the
loop runs.  `AuthKeys` is `true` once the field refers to the map `constructedAuthKey`
(line 472), `false` while it is the nil map. -/
structure EntityCell where
  Name : String := ""
  AuthKeys : Bool := false
  ReadEnabled : Bool := false
  WriteEnabled : Bool := false
  ManageEnabled : Bool := false
  TTL : Int := 0
  deriving DecidableEq, Repr

/-- State of the loop over the groups (lines 399-474).  `cells` is the store of the
`PNAccessManagerKeyData` structs allocated at line 404, a pointer being an index into it;
`constructedAuthKey` maps auth-key names to such pointers; every entry of
`constructedGroups` is the one pointer `&entityData`. -/
structure GroupsState where
  entityData : EntityCell := {}
  constructedAuthKey : GoMap Nat := []
  cells : List PNAccessManagerKeyData := []
  constructedGroups : GoMap Unit := []
  deriving DecidableEq, Repr

/-- The inner loop over one group's `auths` (lines 406-437): every key is bound to the same
pointer `p`, whose struct `keyData` accumulates the flags. -/
def groupAuthsLoop (p : Nat) : GoMap JSON → PNAccessManagerKeyData → GoMap Nat →
    PNAccessManagerKeyData × GoMap Nat
  | [], keyData, constructedAuthKey => (keyData, constructedAuthKey)
  | (keyName, value) :: rest, keyData, constructedAuthKey =>
    groupAuthsLoop p rest (updateKeyData (asMap value) keyData) (constructedAuthKey.set keyName p)

/-- The loop over the groups (lines 399-474); the assertion on each group's value is
unchecked. -/
def groupsLoop (parsedPayload : GoMap JSON) : GoMap JSON → GroupsState →
    Except String GroupsState
  | [], s => .ok s
  | (groupName, value) :: rest, s =>
    match value with
    | .obj valueMap =>
      let alloc : List PNAccessManagerKeyData × GoMap Nat :=
        match GoMap.get? valueMap "auths" with
        | some keys =>
          let r := groupAuthsLoop s.cells.length (asMap keys) {} s.constructedAuthKey
          (s.cells ++ [r.1], r.2)
        | none => (s.cells, s.constructedAuthKey)
      let entityData : EntityCell :=
        { s.entityData with
          ReadEnabled := readFlag valueMap "r" s.entityData.ReadEnabled
          WriteEnabled := readFlag valueMap "w" s.entityData.WriteEnabled
          ManageEnabled := readFlag valueMap "m" s.entityData.ManageEnabled
          TTL := readTTL parsedPayload s.entityData.TTL
          AuthKeys := true }
      groupsLoop parsedPayload rest
        { entityData := entityData
          constructedAuthKey := alloc.2
          cells := alloc.1
          constructedGroups := s.constructedGroups.set groupName () }
    | _ => .error conversionPanic

/-- The entity every entry of `constructedGroups` points to, read when the function returns. -/
def GroupsState.entity (s : GroupsState) : PNPAMEntityData :=
  { Name := s.entityData.Name
    AuthKeys :=
      if s.entityData.AuthKeys then
        s.constructedAuthKey.map fun kp => (kp.1, s.cells.getD kp.2 {})
      else []
    ReadEnabled := s.entityData.ReadEnabled
    WriteEnabled := s.entityData.WriteEnabled
    ManageEnabled := s.entityData.ManageEnabled
    TTL := s.entityData.TTL }

/-- The map `constructedGroups` with its pointers followed. -/
def GroupsState.resolve (s : GroupsState) : GoMap PNPAMEntityData :=
  s.constructedGroups.map fun g => (g.1, s.entity)

/-- The `channel-groups` branch of `newGrantResponse` (lines 340-476): the value of
`constructedGroups`, which is empty before the branch. -/
def channelGroupsBranch (parsedPayload : GoMap JSON) : Except String (GoMap PNPAMEntityData) :=
  let auths := asMap (index parsedPayload "auths")
  match parsedPayload.get? "channel-groups" with
  | some val =>
    match val with
    | .str groupName =>
      let r := stringGroupLoop auths { Name := groupName } []
      .ok [(groupName, { r.1 with AuthKeys := r.2 })]
    | .obj groupMap => do
      let s ← groupsLoop parsedPayload groupMap { entityData := { Name := asString val } }
      return s.resolve
    | _ => .ok []
  | none => .ok []

/-- The loop of the `channels` branch (lines 481-484). -/
def channelsLoop (parsedPayload : GoMap JSON) : GoMap JSON → GoMap PNPAMEntityData →
    Except String (GoMap PNPAMEntityData)
  | [], constructedChannels => .ok constructedChannels
  | (channelName, value) :: rest, constructedChannels => do
    let entityData ← fetchChannel channelName value parsedPayload
    channelsLoop parsedPayload rest (constructedChannels.set channelName entityData)

/-- The `channels` branch of `newGrantResponse` (lines 478-485). -/
def channelsBranch (parsedPayload : GoMap JSON) (constructedChannels : GoMap PNPAMEntityData) :
    Except String (GoMap PNPAMEntityData) :=
  match parsedPayload.get? "channels" with
  | some val => channelsLoop parsedPayload (asMap val) constructedChannels
  | none => .ok constructedChannels

/-- The part of `newGrantResponse` after a successful `json.Unmarshal` (lines 284-527). -/
def decodeGrant (value : JSON) : Except String GrantResponse := do
  let grantData := asMap value
  let payload := index grantData "payload"
  match payload with
  | .obj parsedPayload =>
    let constructedChannels ← channelBranch parsedPayload []
    let constructedGroups ← channelGroupsBranch parsedPayload
    let constructedChannels ← channelsBranch parsedPayload constructedChannels
    return { Level := asString (index parsedPayload "level")
             SubscribeKey := asString (index parsedPayload "subscribe_key")
             Channels := constructedChannels
             ChannelGroups := constructedGroups
             ReadEnabled := readFlag parsedPayload "r" false
             WriteEnabled := readFlag parsedPayload "w" false
             ManageEnabled := readFlag parsedPayload "m" false
             TTL := readTTL parsedPayload 0 }
  | _ => .error conversionPanic

/-- newGrantResponse (lines 271-528).  `unmarshalled` is the outcome of
`json.Unmarshal(jsonBytes, &value)`: the decoded value, or the library's error.  The result
is the returned triple `(*GrantResponse, StatusResponse, error)`, or a panic. -/
def newGrantResponse {σ ε : Type} (unmarshalled : Except ε JSON) (jsonBytes : List UInt8)
    (status : σ) :
    Except String (Option GrantResponse × σ × Option (ResponseParsingError ε)) :=
  match unmarshalled with
  | .error err =>
    .ok (none, status,
      some { message := "Error unmarshalling response", body := jsonBytes, origError := err })
  | .ok value => do
    let resp ← decodeGrant value
    return (some resp, status, none)

/-! ## The grant shape -/

/-- Whether a decoded value is a JSON object. -/
def isObject : JSON → Bool
  | .obj _ => true
  | _ => false

/-- `payload.channel`, if present, is a string, and then every member of `payload.auths` (if
an object) is an object. -/
def channelShape (p : GoMap JSON) : Bool :=
  match p.get? "channel" with
  | some (.str _) => (asMap (index p "auths")).all fun kv => isObject kv.2
  | some _ => false
  | none => true

/-- Every member of `payload["channel-groups"]` (if an object) is an object. -/
def groupsShape (p : GoMap JSON) : Bool :=
  match p.get? "channel-groups" with
  | some (.obj gm) => gm.all fun kv => isObject kv.2
  | _ => true

/-- The member `auths` of a channel's value, if present, is an object whose members are all
objects. -/
def channelValueShape (v : JSON) : Bool :=
  match GoMap.get? (asMap v) "auths" with
  | some (.obj am) => am.all fun ka => isObject ka.2
  | some _ => false
  | none => true

/-- Every member of `payload.channels` has `channelValueShape`. -/
def channelsShape (p : GoMap JSON) : Bool :=
  match p.get? "channels" with
  | some cv => (asMap cv).all fun kv => channelValueShape kv.2
  | none => true

/-- The grant shape of a decoded body: a JSON object whose `payload` is an object with
`channelShape`, `groupsShape` and `channelsShape`. -/
def grantShape (value : JSON) : Bool :=
  match GoMap.get? (asMap value) "payload" with
  | some (.obj p) => channelShape p && groupsShape p && channelsShape p
  | _ => false

/-! ## The grant request -/

/-- Go `url.Values`, a `map[string][]string`. -/
abbrev Values := GoMap (List String)

/-- The method `url.Values.Set`: the key is bound to the one value, replacing what was there. -/
def Values.Set (q : Values) (key value : String) : Values := GoMap.set q key [value]

/-- The fields of `Config` the grant request reads. -/
structure Config where
  PublishKey : String := ""
  SubscribeKey : String := ""
  SecretKey : String := ""
  UUID : String := ""
  NonSubscribeRequestTimeout : Int := 0
  ConnectTimeout : Int := 0
  deriving DecidableEq, Repr

/-- The fields of `PubNub` the grant request reads; `τ` is the type of the telemetry manager. -/
structure PubNub (τ : Type) where
  Config : Config
  telemetryManager : τ

/-- The struct `grantOpts` (lines 109-131), without the context. -/
structure grantOpts (τ : Type) where
  pubnub : PubNub τ
  AuthKeys : List String := []
  Channels : List String := []
  ChannelGroups : List String := []
  Read : Bool := false
  Write : Bool := false
  Manage : Bool := false
  TTL : Int := 0
  setTTL : Bool := false

/-- The method `grantOpts.buildQuery` (lines 165-208).  `defaultQuery` is the helper of that
name, defined elsewhere in the package, and `now` is the value of `time.Now().Unix()`.  The
result is the pair `(*url.Values, error)`, the error being `none` for `nil`. -/
def grantOpts.buildQuery {τ : Type} (defaultQuery : String → τ → Values) (now : Int)
    (o : grantOpts τ) : Values × Option String :=
  let q := defaultQuery o.pubnub.Config.UUID o.pubnub.telemetryManager
  let q := if o.Read then q.Set "r" "1" else q.Set "r" "0"
  let q := if o.Write then q.Set "w" "1" else q.Set "w" "0"
  let q := if o.Manage then q.Set "m" "1" else q.Set "m" "0"
  let q := if o.AuthKeys.length > 0 then q.Set "auth" (String.intercalate "," o.AuthKeys) else q
  let q := if o.Channels.length > 0 then q.Set "channel" (String.intercalate "," o.Channels)
    else q
  let q := if o.ChannelGroups.length > 0 then
      q.Set "channel-group" (String.intercalate "," o.ChannelGroups)
    else q
  let q := if o.setTTL then (if o.TTL ≥ -1 then q.Set "ttl" (toString o.TTL) else q) else q
  let timestamp := now
  let q := q.Set "timestamp" (toString timestamp)
  (q, none)

/-- The query that `buildQuery` starts from, the value of `defaultQuery(...)` at line 166. -/
def grantOpts.baseQuery {τ : Type} (defaultQuery : String → τ → Values) (o : grantOpts τ) :
    Values :=
  defaultQuery o.pubnub.Config.UUID o.pubnub.telemetryManager

/-- The struct `grantBuilder` (lines 21-23); the pointer to the options is replaced by the
options, each setter returning the builder with the options it has written. -/
structure grantBuilder (τ : Type) where
  opts : grantOpts τ

/-- newGrantBuilder (lines 25-33). -/
def newGrantBuilder {τ : Type} (pubnub : PubNub τ) : grantBuilder τ :=
  { opts := { pubnub := pubnub } }

/-- The setter `Read` (lines 46-50). -/
def grantBuilder.Read {τ : Type} (b : grantBuilder τ) (read : Bool) : grantBuilder τ :=
  { opts := { b.opts with Read := read } }

/-- The setter `Write` (lines 52-56). -/
def grantBuilder.Write {τ : Type} (b : grantBuilder τ) (write : Bool) : grantBuilder τ :=
  { opts := { b.opts with Write := write } }

/-- The setter `Manage` (lines 58-62). -/
def grantBuilder.Manage {τ : Type} (b : grantBuilder τ) (manage : Bool) : grantBuilder τ :=
  { opts := { b.opts with Manage := manage } }

/-- The setter `TTL` (lines 71-76). -/
def grantBuilder.TTL {τ : Type} (b : grantBuilder τ) (ttl : Int) : grantBuilder τ :=
  { opts := { b.opts with TTL := ttl, setTTL := true } }

/-- The setter `AuthKeys` (lines 79-83). -/
def grantBuilder.AuthKeys {τ : Type} (b : grantBuilder τ) (authKeys : List String) :
    grantBuilder τ :=
  { opts := { b.opts with AuthKeys := authKeys } }

/-- The setter `Channels` (lines 86-90). -/
def grantBuilder.Channels {τ : Type} (b : grantBuilder τ) (channels : List String) :
    grantBuilder τ :=
  { opts := { b.opts with Channels := channels } }

/-- The setter `ChannelGroups` (lines 93-97). -/
def grantBuilder.ChannelGroups {τ : Type} (b : grantBuilder τ) (groups : List String) :
    grantBuilder τ :=
  { opts := { b.opts with ChannelGroups := groups } }

/-- The method `grantOpts.config` (lines 133-135). -/
def grantOpts.config {τ : Type} (o : grantOpts τ) : Config := o.pubnub.Config

/-- What `validate` uses from the rest of the package: the constructor `newValidationError`
and the three message constants, with `E` the type of the errors it builds. -/
structure ValidationKit (τ E : Type) where
  newValidationError : grantOpts τ → String → E
  StrMissingPubKey : String
  StrMissingSubKey : String
  StrMissingSecretKey : String

/-- The method `grantOpts.validate` (lines 145-159); `none` is the nil error. -/
def grantOpts.validate {τ E : Type} (kit : ValidationKit τ E) (o : grantOpts τ) : Option E :=
  if o.config.PublishKey = "" then
    some (kit.newValidationError o kit.StrMissingPubKey)
  else if o.config.SubscribeKey = "" then
    some (kit.newValidationError o kit.StrMissingSubKey)
  else if o.config.SecretKey = "" then
    some (kit.newValidationError o kit.StrMissingSecretKey)
  else
    none

/-- The constant `grantPath` (line 17) applied by `fmt.Sprintf` to one string: the verb `%s`
is replaced by the string. -/
def grantPath (subKey : String) : String := "/v1/auth/grant/sub-key/" ++ subKey

/-- The method `grantOpts.buildPath` (lines 161-163). -/
def grantOpts.buildPath {τ : Type} (o : grantOpts τ) : String × Option String :=
  (grantPath o.pubnub.Config.SubscribeKey, none)

/-- The method `grantOpts.buildBody` (lines 210-212). -/
def grantOpts.buildBody {τ : Type} (_o : grantOpts τ) : List UInt8 × Option String :=
  ([], none)

/-- The method `grantOpts.httpMethod` (lines 214-216). -/
def grantOpts.httpMethod {τ : Type} (_o : grantOpts τ) : String := "GET"

/-- The method `grantOpts.isAuthRequired` (lines 218-220). -/
def grantOpts.isAuthRequired {τ : Type} (_o : grantOpts τ) : Bool := true

/-- A Go `error` returned by `Execute`: the error of the request, of type `ρ`, or the
response-parsing error of the decoder. -/
inductive GrantError (ρ ε : Type) where
  | request (err : ρ)
  | parsing (err : ResponseParsingError ε)

/-- The triple returned by `newGrantResponse`, as a triple returned by `Execute`. -/
def asExecuteResult {σ ρ ε : Type}
    (r : Option GrantResponse × σ × Option (ResponseParsingError ε)) :
    Option GrantResponse × σ × Option (GrantError ρ ε) :=
  (r.1, r.2.1, r.2.2.map GrantError.parsing)

/-- The method `grantBuilder.Execute` (lines 100-107).  `executeRequest` is the helper of that
name, defined elsewhere in the package, returning `(rawJSON, status, err)`; `unmarshal` is
`json.Unmarshal` into an `interface{}`. -/
def grantBuilder.Execute {τ σ ρ ε : Type}
    (executeRequest : grantOpts τ → List UInt8 × σ × Option ρ)
    (unmarshal : List UInt8 → Except ε JSON) (b : grantBuilder τ) :
    Except String (Option GrantResponse × σ × Option (GrantError ρ ε)) :=
  let r := executeRequest b.opts
  let rawJSON := r.1
  let status := r.2.1
  match r.2.2 with
  | some err => .ok (none, status, some (.request err))
  | none => (newGrantResponse (unmarshal rawJSON) rawJSON status).map asExecuteResult

/-! ## The subscription set -/

/-- Modelled from the spec: the presence marker of §3, the fixed suffix that turns a base name
into the name of its presence sibling; the State Manager is not among the source files. -/
def presenceMarker : String := "-pnpres"

/-- Modelled from the spec: one member of the subscription set of §3, a base name paired with
whether the user requested its presence sibling; the State Manager is not among the source
files. -/
structure SubscriptionItem where
  name : String
  presence : Bool
  deriving DecidableEq, Repr

/-- Modelled from the spec: the State Manager of §4.5 holding the subscription set of §3, a
set of channels and a set of channel groups (no duplicates, kept in the order of arrival);
its code is not among the source files. -/
structure StateManager where
  channels : List SubscriptionItem := []
  groups : List SubscriptionItem := []
  deriving DecidableEq, Repr

/-- Modelled from the spec: putting one name into a set of §3 (membership is a set, so a name
already there is not added again; its sibling exists once presence was requested for it). -/
def addItem : List SubscriptionItem → String → Bool → List SubscriptionItem
  | [], name, withPresence => [{ name := name, presence := withPresence }]
  | it :: rest, name, withPresence =>
    if it.name = name then { it with presence := it.presence || withPresence } :: rest
    else it :: addItem rest name withPresence

/-- Modelled from the spec: putting a list of names into a set of §3. -/
def addItems (items : List SubscriptionItem) (names : List String) (withPresence : Bool) :
    List SubscriptionItem :=
  names.foldl (fun acc name => addItem acc name withPresence) items

/-- Modelled from the spec: taking a list of names out of a set of §3, each with its presence
sibling. -/
def removeItems (items : List SubscriptionItem) (names : List String) : List SubscriptionItem :=
  items.filter fun it => decide (it.name ∉ names)

/-- Modelled from the spec: the base names of a set of §3. -/
def baseNames (items : List SubscriptionItem) : List String := items.map fun it => it.name

/-- Modelled from the spec: the wire-level names of a set of §3, the base names followed by
the presence siblings of the names for which presence was requested. -/
def wireNames (items : List SubscriptionItem) : List String :=
  baseNames items ++ (baseNames (items.filter fun it => it.presence)).map (· ++ presenceMarker)

/-- Modelled from the spec: `add(channels, groups, with_presence)` of §4.5. -/
def StateManager.add (s : StateManager) (channels groups : List String) (withPresence : Bool) :
    StateManager :=
  { channels := addItems s.channels channels withPresence
    groups := addItems s.groups groups withPresence }

/-- Modelled from the spec: `remove(channels, groups)` of §4.5, which also removes the
matching presence siblings. -/
def StateManager.remove (s : StateManager) (channels groups : List String) : StateManager :=
  { channels := removeItems s.channels channels
    groups := removeItems s.groups groups }

/-- Modelled from the spec: `remove_all()` of §4.5. -/
def StateManager.removeAll (_s : StateManager) : StateManager := {}

/-- Modelled from the spec: `list_subscribed_channels()` of §4.5, the `GetSubscribedChannels`
of the public API, which excludes presence siblings. -/
def StateManager.GetSubscribedChannels (s : StateManager) : List String := baseNames s.channels

/-- Modelled from the spec: `list_subscribed_groups()` of §4.5, the `GetSubscribedGroups` of
the public API, which excludes presence siblings. -/
def StateManager.GetSubscribedGroups (s : StateManager) : List String := baseNames s.groups

/-- Modelled from the spec: what edits the subscription set: a call of the public API of
§4.11, or `AccessDenied`, the answer 403 of the server to the poll of the subscribe loop
(`access-denied`, a non-recoverable failure, §7).  The poll carries the whole subscription
set (§4.5 `snapshot`, §4.9), so the denial is of every name in it. -/
inductive SubscriptionCall where
  | Subscribe (channels groups : List String) (withPresence : Bool)
  | Unsubscribe (channels groups : List String)
  | UnsubscribeAll
  | AccessDenied
  deriving DecidableEq, Repr

/-- Modelled from the spec: the effect of one call, or of a denied poll, on the State Manager
(§4.5, §4.11).  `Subscribe` adds at the call, before the poll is issued (§2: the API surface
mutates the State Manager, which wakes the loop); after a denied poll both subscribed sets
are empty (§8 scenario 5, and `TestSubscribe403Error`, which subscribes to `ch`, waits for
the access-denied status and finds `GetSubscribedChannels` and `GetSubscribedGroups` empty
without unsubscribing). -/
def StateManager.apply (s : StateManager) : SubscriptionCall → StateManager
  | .Subscribe channels groups withPresence => s.add channels groups withPresence
  | .Unsubscribe channels groups => s.remove channels groups
  | .UnsubscribeAll => s.removeAll
  | .AccessDenied => s.removeAll

/-- Modelled from the spec: the State Manager after a sequence of calls and denied polls on a
new client. -/
def StateManager.run (calls : List SubscriptionCall) : StateManager :=
  calls.foldl StateManager.apply {}

/-- Modelled from the spec: whether a channel is currently subscribed (§8) after a history of
calls and denied polls given latest first: the latest of them that names it, unsubscribes
from everything or is a denied poll, is a `Subscribe`.  A name subscribed before the server
denied the poll is not subscribed any more (§8 scenario 5). -/
def channelSubscribed : List SubscriptionCall → String → Bool
  | [], _ => false
  | .Subscribe channels _ _ :: earlier, c => decide (c ∈ channels) || channelSubscribed earlier c
  | .Unsubscribe channels _ :: earlier, c => decide (c ∉ channels) && channelSubscribed earlier c
  | .UnsubscribeAll :: _, _ => false
  | .AccessDenied :: _, _ => false

/-- Modelled from the spec: whether a channel group is currently subscribed (§8) after a
history of calls and denied polls given latest first. -/
def groupSubscribed : List SubscriptionCall → String → Bool
  | [], _ => false
  | .Subscribe _ groups _ :: earlier, g => decide (g ∈ groups) || groupSubscribed earlier g
  | .Unsubscribe _ groups :: earlier, g => decide (g ∉ groups) && groupSubscribed earlier g
  | .UnsubscribeAll :: _, _ => false
  | .AccessDenied :: _, _ => false

/-! ## History -/

/-- Modelled from the spec: one decoded history message, its payload and its timetoken (0 when
the entry carries none); the history decoder is not among the source files, only its tests. -/
structure HistoryResponseItem where
  Message : JSON
  Timetoken : Int

/-- Modelled from the spec: the decoded history response `[[msgs], start_tt, end_tt]` of §4.4;
the history decoder is not among the source files, only its tests. -/
structure HistoryResponse where
  Messages : List HistoryResponseItem
  StartTimetoken : Int
  EndTimetoken : Int

/-- Modelled from the spec: the payload rules of §4.4; the decoder is not among the source
files.  `cipher` is `none` when no cipher key is configured, and then the payload is the
decoded JSON value as it is (rule 3); otherwise it is the payload decryption of rule 2 for
the configured key, which belongs to the external cipher. -/
def processPayload (cipher : Option (JSON → JSON)) (d : JSON) : JSON :=
  match cipher with
  | none => d
  | some decryptPayload => decryptPayload d

/-- Modelled from the spec: whether an entry of a history response is a `{timetoken, message}`
envelope (§4.4), an object with a numeric member `timetoken` and a member `message`; the
history decoder is not among the source files. -/
def isEnvelope : JSON → Bool
  | .obj kvs =>
    match GoMap.get? kvs "timetoken", GoMap.get? kvs "message" with
    | some (.num _), some _ => true
    | _, _ => false
  | _ => false

/-- Modelled from the spec: the decoding of one entry of a history response (§4.4): an
envelope gives its message and its timetoken, any other entry is a raw payload; the history
decoder is not among the source files. -/
def historyItem (cipher : Option (JSON → JSON)) : JSON → HistoryResponseItem
  | .obj kvs =>
    match GoMap.get? kvs "timetoken", GoMap.get? kvs "message" with
    | some (.num t), some m => { Message := processPayload cipher m, Timetoken := floatToInt t }
    | _, _ => { Message := processPayload cipher (.obj kvs), Timetoken := 0 }
  | d => { Message := processPayload cipher d, Timetoken := 0 }

/-- Modelled from the spec: the errors of the history decoder (§7): the `parsing` error of a
body that is not JSON, and the `decoding-error` of a body that has not the history shape;
the history decoder is not among the source files. -/
inductive HistoryError (ε : Type) where
  | parsing (err : ResponseParsingError ε)
  | decoding (body : List UInt8)

/-- Modelled from the spec: the history decoder `newHistoryResponse` of the tests, for the
response shape `[[msgs], start_tt, end_tt]` of §4.4 and §6; the decoder is not among the
source files.  `unmarshalled` is the outcome of `json.Unmarshal` on the body and `cipher` the
payload decryption of the configuration, if a cipher key is configured.  A body of another
shape gives the decoding error, never a panic (§4.4). -/
def newHistoryResponse {σ ε : Type} (unmarshalled : Except ε JSON) (jsonBytes : List UInt8)
    (cipher : Option (JSON → JSON)) (status : σ) :
    Option HistoryResponse × σ × Option (HistoryError ε) :=
  match unmarshalled with
  | .error err =>
    (none, status,
      some (.parsing { message := "Error unmarshalling response", body := jsonBytes,
                       origError := err }))
  | .ok (.arr [.arr msgs, .num startTT, .num endTT]) =>
    (some { Messages := msgs.map (historyItem cipher)
            StartTimetoken := floatToInt startTT
            EndTimetoken := floatToInt endTT },
      status, none)
  | .ok _ => (none, status, some (.decoding jsonBytes))

/-- Modelled from the spec: the options of a history request, as the tests build them; the
history request is not among the source files. -/
structure historyOpts (τ : Type) where
  pubnub : PubNub τ
  Channel : String := ""
  Start : Int := 0
  End : Int := 0
  setStart : Bool := false
  setEnd : Bool := false
  Reverse : Bool := false
  Count : Int := 0
  IncludeTimetoken : Bool := false

/-- Modelled from the spec: the greatest and default `count` of a history request (§8:
clamped to 100, the default, with max 100); the history request is not among the source
files. -/
def maxCount : Int := 100

/-- Modelled from the spec: the path of a history request,
`/v2/history/sub-key/{sub_key}/channel/{channel}` (§6), the channel being percent-encoded by
`urlEncode` (§4.1); the history request is not among the source files. -/
def historyOpts.buildPath {τ : Type} (urlEncode : String → String) (o : historyOpts τ) :
    String × Option String :=
  ("/v2/history/sub-key/" ++ o.pubnub.Config.SubscribeKey ++ "/channel/" ++ urlEncode o.Channel,
    none)

/-- Modelled from the spec: the `count` a history request sends (§6: `count=(1..100)`, §8:
clamped to 100, the default); the history request is not among the source files. -/
def historyOpts.count {τ : Type} (o : historyOpts τ) : Int :=
  if 1 ≤ o.Count ∧ o.Count ≤ maxCount then o.Count else maxCount

/-- Modelled from the spec: the spelling of a boolean query value, `true` or `false`. -/
def boolString (b : Bool) : String := if b then "true" else "false"

/-- Modelled from the spec: the query of a history request,
`start=&end=&count=(1..100)&reverse=&include_token=` (§6) on top of the common parameters of
`defaultQuery` (§4.1), `start` and `end` being sent only when set; the history request is not
among the source files. -/
def historyOpts.buildQuery {τ : Type} (defaultQuery : String → τ → Values)
    (o : historyOpts τ) : Values × Option String :=
  let q := defaultQuery o.pubnub.Config.UUID o.pubnub.telemetryManager
  let q := if o.setStart then q.Set "start" (toString o.Start) else q
  let q := if o.setEnd then q.Set "end" (toString o.End) else q
  let q := q.Set "count" (toString o.count)
  let q := q.Set "reverse" (boolString o.Reverse)
  let q := q.Set "include_token" (boolString o.IncludeTimetoken)
  (q, none)

/-- Modelled from the spec: the body of a history request, a `GET` (§6), is empty; the
history request is not among the source files. -/
def historyOpts.buildBody {τ : Type} (_o : historyOpts τ) : List UInt8 × Option String :=
  ([], none)

/-! ## Maps -/

namespace GoMap

variable {α : Type}

theorem get?_set_self (m : GoMap α) (k : String) (v : α) : (m.set k v).get? k = some v := by
  induction m with
  | nil => simp [set, get?]
  | cons e rest ih =>
    obtain ⟨k', v'⟩ := e
    by_cases h : k' = k <;> simp [set, get?, h, ih]

theorem get?_set_of_ne (m : GoMap α) {k k' : String} (h : k ≠ k') (v : α) :
    (m.set k v).get? k' = m.get? k' := by
  induction m with
  | nil => simp [set, get?, h]
  | cons e rest ih =>
    obtain ⟨k₀, v₀⟩ := e
    by_cases h₀ : k₀ = k
    · subst h₀
      simp [set, get?, h]
    · by_cases h₁ : k₀ = k'
      · subst h₁
        simp [set, get?, h₀]
      · simp [set, get?, h₀, h₁, ih]

theorem mem_keys_set (m : GoMap α) (k k' : String) (v : α) :
    k' ∈ (m.set k v).keys ↔ k' = k ∨ k' ∈ m.keys := by
  induction m with
  | nil => simp [set, keys]
  | cons e rest ih =>
    obtain ⟨k₀, v₀⟩ := e
    by_cases h₀ : k₀ = k
    · subst h₀
      simp [set, keys]
    · simp only [keys] at ih
      simp [set, keys, h₀, ih]
      tauto

theorem get?_eq_none_iff (m : GoMap α) (k : String) : m.get? k = none ↔ k ∉ m.keys := by
  induction m with
  | nil => simp [get?, keys]
  | cons e rest ih =>
    obtain ⟨k₀, v₀⟩ := e
    simp only [keys] at ih
    by_cases h₀ : k₀ = k
    · simp [get?, keys, h₀]
    · simp [get?, keys, h₀, ih, Ne.symm h₀]

theorem get?_of_mem {m : GoMap α} (hm : m.keys.Nodup) {k : String} {v : α} (h : (k, v) ∈ m) :
    m.get? k = some v := by
  induction m with
  | nil => simp at h
  | cons e rest ih =>
    obtain ⟨k₀, v₀⟩ := e
    simp only [keys, List.map_cons, List.nodup_cons, List.mem_map, not_exists, not_and] at hm
    rcases List.mem_cons.1 h with h | h
    · cases h
      simp [get?]
    · have hne : k₀ ≠ k := by
        intro hk
        exact hm.1 (k, v) h hk.symm
      simp only [get?, hne, if_false]
      exact ih hm.2 h

theorem mem_of_get? {m : GoMap α} {k : String} {v : α} (h : m.get? k = some v) : (k, v) ∈ m := by
  induction m with
  | nil => simp [get?] at h
  | cons e rest ih =>
    obtain ⟨k₀, v₀⟩ := e
    by_cases h₀ : k₀ = k
    · simp [get?, h₀] at h
      simp [h₀, h]
    · simp only [get?, h₀, if_false] at h
      exact List.mem_cons_of_mem _ (ih h)

theorem nodup_keys_set {m : GoMap α} (hm : m.keys.Nodup) (k : String) (v : α) :
    (m.set k v).keys.Nodup := by
  induction m with
  | nil => simp [set, keys]
  | cons e rest ih =>
    obtain ⟨k₀, v₀⟩ := e
    have hm' := hm
    simp only [keys, List.map_cons, List.nodup_cons] at hm'
    by_cases h₀ : k₀ = k
    · subst h₀
      simpa [set, keys] using hm
    · have hmem := mem_keys_set rest k k₀ v
      simp only [keys] at hmem ih
      simp only [set, h₀, if_false, keys, List.map_cons, List.nodup_cons]
      refine ⟨?_, ih hm'.2⟩
      rw [hmem]
      rintro (h | h)
      · exact h₀ h
      · exact hm'.1 h

end GoMap

/-! ## Queries -/

theorem Values.get?_Set_self (q : Values) (k v : String) : (q.Set k v).get? k = some [v] :=
  GoMap.get?_set_self q k [v]

theorem Values.get?_Set_of_ne (q : Values) {k k' : String} (h : k ≠ k') (v : String) :
    (q.Set k v).get? k' = q.get? k' :=
  GoMap.get?_set_of_ne q h [v]

/-- A two-way conditional `Set` of one key binds that key to the chosen value. -/
theorem Values.get?_ite_Set_self (q : Values) (c : Prop) [Decidable c] (k a b : String) :
    (if c then q.Set k a else q.Set k b).get? k = some [if c then a else b] := by
  split_ifs <;> exact Values.get?_Set_self q k _

/-- A two-way conditional `Set` of one key leaves the other keys alone. -/
theorem Values.get?_ite_Set_of_ne (q : Values) {k k' : String} (h : k ≠ k') (c : Prop)
    [Decidable c] (a b : String) :
    (if c then q.Set k a else q.Set k b).get? k' = q.get? k' := by
  split_ifs <;> exact Values.get?_Set_of_ne q h _

/-- A guarded `Set` of one key leaves the other keys alone. -/
theorem Values.get?_ite_of_ne (q : Values) {k k' : String} (h : k ≠ k') (c : Prop)
    [Decidable c] (a : String) :
    (if c then q.Set k a else q).get? k' = q.get? k' := by
  split_ifs
  · exact Values.get?_Set_of_ne q h _
  · rfl

/-- A doubly guarded `Set` of one key leaves the other keys alone. -/
theorem Values.get?_ite_ite_of_ne (q : Values) {k k' : String} (h : k ≠ k') (c d : Prop)
    [Decidable c] [Decidable d] (a : String) :
    (if c then (if d then q.Set k a else q) else q).get? k' = q.get? k' := by
  split_ifs
  · exact Values.get?_Set_of_ne q h _
  · rfl
  · rfl

/-- A guarded `Set` of one key binds that key when the guard holds. -/
theorem Values.get?_ite_self (q : Values) (c : Prop) [Decidable c] (k a : String) :
    (if c then q.Set k a else q).get? k = if c then some [a] else q.get? k := by
  split_ifs
  · exact Values.get?_Set_self q k a
  · rfl

/-- A doubly guarded `Set` of one key binds that key when both guards hold. -/
theorem Values.get?_ite_ite_self (q : Values) (c d : Prop) [Decidable c] [Decidable d]
    (k a : String) :
    (if c then (if d then q.Set k a else q) else q).get? k =
      if c then (if d then some [a] else q.get? k) else q.get? k := by
  split_ifs
  · exact Values.get?_Set_self q k a
  · rfl
  · rfl

/-! ## The query of a grant -/

theorem buildQuery_get?_auth {τ : Type} (defaultQuery : String → τ → Values) (now : Int)
    (o : grantOpts τ) :
    (o.buildQuery defaultQuery now).1.get? "auth" =
      if o.AuthKeys.length > 0 then some [String.intercalate "," o.AuthKeys]
      else (o.baseQuery defaultQuery).get? "auth" := by
  simp only [grantOpts.buildQuery, grantOpts.baseQuery]
  rw [Values.get?_Set_of_ne _ (by decide), Values.get?_ite_ite_of_ne _ (by decide),
    Values.get?_ite_of_ne _ (by decide), Values.get?_ite_of_ne _ (by decide),
    Values.get?_ite_self, Values.get?_ite_Set_of_ne _ (by decide),
    Values.get?_ite_Set_of_ne _ (by decide), Values.get?_ite_Set_of_ne _ (by decide)]

theorem buildQuery_get?_channel {τ : Type} (defaultQuery : String → τ → Values) (now : Int)
    (o : grantOpts τ) :
    (o.buildQuery defaultQuery now).1.get? "channel" =
      if o.Channels.length > 0 then some [String.intercalate "," o.Channels]
      else (o.baseQuery defaultQuery).get? "channel" := by
  simp only [grantOpts.buildQuery, grantOpts.baseQuery]
  rw [Values.get?_Set_of_ne _ (by decide), Values.get?_ite_ite_of_ne _ (by decide),
    Values.get?_ite_of_ne _ (by decide), Values.get?_ite_self,
    Values.get?_ite_of_ne _ (by decide), Values.get?_ite_Set_of_ne _ (by decide),
    Values.get?_ite_Set_of_ne _ (by decide), Values.get?_ite_Set_of_ne _ (by decide)]

theorem buildQuery_get?_channelGroup {τ : Type} (defaultQuery : String → τ → Values)
    (now : Int) (o : grantOpts τ) :
    (o.buildQuery defaultQuery now).1.get? "channel-group" =
      if o.ChannelGroups.length > 0 then some [String.intercalate "," o.ChannelGroups]
      else (o.baseQuery defaultQuery).get? "channel-group" := by
  simp only [grantOpts.buildQuery, grantOpts.baseQuery]
  rw [Values.get?_Set_of_ne _ (by decide), Values.get?_ite_ite_of_ne _ (by decide),
    Values.get?_ite_self, Values.get?_ite_of_ne _ (by decide),
    Values.get?_ite_of_ne _ (by decide), Values.get?_ite_Set_of_ne _ (by decide),
    Values.get?_ite_Set_of_ne _ (by decide), Values.get?_ite_Set_of_ne _ (by decide)]

theorem buildQuery_get?_ttl {τ : Type} (defaultQuery : String → τ → Values) (now : Int)
    (o : grantOpts τ) :
    (o.buildQuery defaultQuery now).1.get? "ttl" =
      if o.setTTL = true then
        (if o.TTL ≥ -1 then some [toString o.TTL] else (o.baseQuery defaultQuery).get? "ttl")
      else (o.baseQuery defaultQuery).get? "ttl" := by
  simp only [grantOpts.buildQuery, grantOpts.baseQuery]
  rw [Values.get?_Set_of_ne _ (by decide), Values.get?_ite_ite_self,
    Values.get?_ite_of_ne _ (by decide), Values.get?_ite_of_ne _ (by decide),
    Values.get?_ite_of_ne _ (by decide), Values.get?_ite_Set_of_ne _ (by decide),
    Values.get?_ite_Set_of_ne _ (by decide), Values.get?_ite_Set_of_ne _ (by decide)]

/-- `validate` returns nil exactly when the three keys are non-empty. -/
theorem validate_eq_none_iff {τ E : Type} (kit : ValidationKit τ E) (o : grantOpts τ) :
    o.validate kit = none ↔
      o.pubnub.Config.PublishKey ≠ "" ∧ o.pubnub.Config.SubscribeKey ≠ "" ∧
        o.pubnub.Config.SecretKey ≠ "" := by
  unfold grantOpts.validate grantOpts.config
  split_ifs <;> simp_all

/-! ## Flags and conversions -/

/-- A flag block run on a false flag sets it exactly when the member is the number 1. -/
theorem readFlag_false_iff (m : GoMap JSON) (key : String) :
    readFlag m key false = true ↔ m.get? key = some (.num 1) := by
  unfold readFlag
  cases h : m.get? key with
  | none => simp
  | some val => cases val <;> simp [asFloat]

/-- `int(f)` of an integer-valued `float64` within the range of `int` is that integer. -/
theorem floatToInt_intCast (t : Int) (hlo : -(2 : Int) ^ 63 ≤ t) (hhi : t < (2 : Int) ^ 63) :
    floatToInt (t : ℚ) = t := by
  have h : -(2 : Int) ^ 63 ≤ t ∧ t < (2 : Int) ^ 63 := ⟨hlo, hhi⟩
  simp only [floatToInt, Rat.intCast_num, Rat.intCast_den, Nat.cast_one, Int.tdiv_one]
  rw [if_pos h]

theorem floatToInt_zero : floatToInt 0 = 0 := by
  decide

/-- The `ttl` block on an integer-valued `ttl` within the range of `int`. -/
theorem readTTL_of_int (p : GoMap JSON) (cur t : Int) (hlo : -(2 : Int) ^ 63 ≤ t)
    (hhi : t < (2 : Int) ^ 63) (h : p.get? "ttl" = some (.num (t : ℚ))) :
    readTTL p cur = t := by
  simp [readTTL, h, asFloat, floatToInt_intCast t hlo hhi]

theorem readTTL_of_absent (p : GoMap JSON) (cur : Int) (h : p.get? "ttl" = none) :
    readTTL p cur = cur := by
  simp [readTTL, h]

/-- The `ttl` block on a `ttl` that is not a number. -/
theorem readTTL_of_not_num (p : GoMap JSON) (cur : Int) (v : JSON) (h : p.get? "ttl" = some v)
    (hv : ∀ x, v ≠ .num x) : readTTL p cur = 0 := by
  cases v <;> simp_all [readTTL, asFloat, floatToInt_zero]

/-- A string member read by `x, _ := m[key].(string)`. -/
theorem asString_index (p : GoMap JSON) (key : String) :
    (∀ s, p.get? key = some (.str s) → asString (index p key) = s) ∧
    ((∀ s, p.get? key ≠ some (.str s)) → asString (index p key) = "") := by
  unfold index
  cases h : GoMap.get? p key with
  | none => simp [asString]
  | some v => cases v <;> simp [asString]

/-! ## The decoder, step by step -/

theorem newGrantResponse_ok {σ ε : Type} {value : JSON} {jsonBytes : List UInt8} {status st : σ}
    {resp : GrantResponse} {e : Option (ResponseParsingError ε)}
    (h : newGrantResponse (.ok value) jsonBytes status = .ok (some resp, st, e)) :
    decodeGrant value = .ok resp := by
  unfold newGrantResponse at h
  cases hd : decodeGrant value with
  | error msg => simp [hd, bind, Except.bind] at h
  | ok r =>
    simp only [hd, bind, Except.bind, pure, Except.pure] at h
    cases h
    rfl

theorem newGrantResponse_of_decodeGrant {σ ε : Type} {value : JSON} (jsonBytes : List UInt8)
    (status : σ) {resp : GrantResponse} (h : decodeGrant value = .ok resp) :
    @newGrantResponse σ ε (.ok value) jsonBytes status = .ok (some resp, status, none) := by
  simp [newGrantResponse, h, bind, Except.bind, pure, Except.pure]

/-- What a successful run of the decoder went through. -/
theorem decodeGrant_ok {value : JSON} {resp : GrantResponse} (h : decodeGrant value = .ok resp) :
    ∃ p ch0 groups chans,
      GoMap.get? (asMap value) "payload" = some (.obj p) ∧
      channelBranch p [] = .ok ch0 ∧
      channelGroupsBranch p = .ok groups ∧
      channelsBranch p ch0 = .ok chans ∧
      resp = { Level := asString (index p "level")
               SubscribeKey := asString (index p "subscribe_key")
               Channels := chans
               ChannelGroups := groups
               ReadEnabled := readFlag p "r" false
               WriteEnabled := readFlag p "w" false
               ManageEnabled := readFlag p "m" false
               TTL := readTTL p 0 } := by
  unfold decodeGrant at h
  cases hpay : GoMap.get? (asMap value) "payload" with
  | none => simp [index, hpay, bind, Except.bind] at h
  | some pv =>
    cases pv with
    | obj p =>
      simp only [index, hpay, Option.getD_some] at h
      cases h0 : channelBranch p [] with
      | error msg => simp [h0, bind, Except.bind] at h
      | ok ch0 =>
        cases h1 : channelGroupsBranch p with
        | error msg => simp [h0, h1, bind, Except.bind] at h
        | ok groups =>
          cases h2 : channelsBranch p ch0 with
          | error msg => simp [h0, h1, h2, bind, Except.bind] at h
          | ok chans =>
            simp only [h0, h1, h2, bind, Except.bind, pure, Except.pure, Except.ok.injEq] at h
            exact ⟨p, ch0, groups, chans, rfl, h0, h1, h2, h.symm⟩
    | _ => simp [index, hpay, bind, Except.bind] at h

/-! ## The loop over auth keys -/

theorem authsLoop_get?_of_not_mem {am : GoMap JSON} {acc res : GoMap PNAccessManagerKeyData}
    (h : authsLoop am acc = .ok res) {k : String} (hk : k ∉ GoMap.keys am) :
    res.get? k = acc.get? k := by
  induction am generalizing acc with
  | nil =>
    simp only [authsLoop, Except.ok.injEq] at h
    rw [h]
  | cons e rest ih =>
    obtain ⟨k₀, v₀⟩ := e
    have hk' : k₀ ≠ k ∧ k ∉ GoMap.keys rest := by
      simp only [GoMap.keys, List.map_cons, List.mem_cons, not_or] at hk
      exact ⟨fun h => hk.1 h.symm, hk.2⟩
    cases v₀ with
    | obj vm =>
      simp only [authsLoop] at h
      rw [ih h hk'.2, GoMap.get?_set_of_ne _ hk'.1]
    | _ => simp [authsLoop] at h

/-- Each auth key is bound to the key data read from its own entry. -/
theorem authsLoop_get?_of_mem {am : GoMap JSON} {acc res : GoMap PNAccessManagerKeyData}
    (h : authsLoop am acc = .ok res) (hnd : (GoMap.keys am).Nodup) {k : String} {a : JSON}
    (hm : (k, a) ∈ am) : res.get? k = some (keyDataOf (asMap a)) := by
  induction am generalizing acc with
  | nil => simp at hm
  | cons e rest ih =>
    obtain ⟨k₀, v₀⟩ := e
    simp only [GoMap.keys, List.map_cons, List.nodup_cons] at hnd
    cases v₀ with
    | obj vm =>
      simp only [authsLoop] at h
      rcases List.mem_cons.1 hm with hm | hm
      · cases hm
        rw [authsLoop_get?_of_not_mem h hnd.1, GoMap.get?_set_self]
        rfl
      · exact ih h hnd.2 hm
    | _ => simp [authsLoop] at h

theorem authsLoop_mem_keys {am : GoMap JSON} {acc res : GoMap PNAccessManagerKeyData}
    (h : authsLoop am acc = .ok res) (k : String) :
    k ∈ GoMap.keys res ↔ k ∈ GoMap.keys acc ∨ k ∈ GoMap.keys am := by
  induction am generalizing acc with
  | nil =>
    simp only [authsLoop, Except.ok.injEq] at h
    simp [h, GoMap.keys]
  | cons e rest ih =>
    obtain ⟨k₀, v₀⟩ := e
    cases v₀ with
    | obj vm =>
      simp only [authsLoop] at h
      rw [ih h, GoMap.mem_keys_set]
      simp only [GoMap.keys, List.map_cons, List.mem_cons]
      tauto
    | _ => simp [authsLoop] at h

theorem authsLoop_nodup_keys {am : GoMap JSON} {acc res : GoMap PNAccessManagerKeyData}
    (h : authsLoop am acc = .ok res) (hacc : (GoMap.keys acc).Nodup) :
    (GoMap.keys res).Nodup := by
  induction am generalizing acc with
  | nil =>
    simp only [authsLoop, Except.ok.injEq] at h
    rw [← h]
    exact hacc
  | cons e rest ih =>
    obtain ⟨k₀, v₀⟩ := e
    cases v₀ with
    | obj vm =>
      simp only [authsLoop] at h
      exact ih h (GoMap.nodup_keys_set hacc _ _)
    | _ => simp [authsLoop] at h

/-- The loop returns when every auth entry is an object. -/
theorem authsLoop_ok {am : GoMap JSON} (hall : ∀ kv ∈ am, ∃ m, kv.2 = JSON.obj m)
    (acc : GoMap PNAccessManagerKeyData) : ∃ res, authsLoop am acc = .ok res := by
  induction am generalizing acc with
  | nil => exact ⟨acc, rfl⟩
  | cons e rest ih =>
    obtain ⟨k₀, v₀⟩ := e
    obtain ⟨m, hm⟩ := hall (k₀, v₀) (List.mem_cons_self _ _)
    simp only at hm
    subst hm
    simp only [authsLoop]
    exact ih (fun kv hkv => hall kv (List.mem_cons_of_mem _ hkv)) _

/-! ## Channels -/

/-- What `fetchChannel` returns, when it returns. -/
theorem fetchChannel_ok {c : String} {v : JSON} {p : GoMap JSON} {e : PNPAMEntityData}
    (h : fetchChannel c v p = .ok e) :
    e.Name = c ∧
    e.ReadEnabled = readFlag (asMap v) "r" false ∧
    e.WriteEnabled = readFlag (asMap v) "w" false ∧
    e.ManageEnabled = readFlag (asMap v) "m" false ∧
    e.TTL = readTTL p 0 ∧
    (∀ am, GoMap.get? (asMap v) "auths" = some (.obj am) → authsLoop am [] = .ok e.AuthKeys) ∧
    (GoMap.get? (asMap v) "auths" = none → e.AuthKeys = []) := by
  unfold fetchChannel at h
  cases hget : GoMap.get? (asMap v) "auths" with
  | none =>
    simp only [hget, bind, Except.bind, pure, Except.pure, Except.ok.injEq] at h
    subst h
    simp
  | some val =>
    cases val with
    | obj am =>
      cases hl : authsLoop am [] with
      | error msg => simp [hget, hl, bind, Except.bind] at h
      | ok auths =>
        simp only [hget, hl, bind, Except.bind, pure, Except.pure, Except.ok.injEq] at h
        subst h
        simp [hl]
    | _ => simp [hget, bind, Except.bind] at h

theorem channelsLoop_get?_of_not_mem {p cm : GoMap JSON} {acc res : GoMap PNPAMEntityData}
    (h : channelsLoop p cm acc = .ok res) {c : String} (hc : c ∉ GoMap.keys cm) :
    res.get? c = acc.get? c := by
  induction cm generalizing acc with
  | nil =>
    simp only [channelsLoop, Except.ok.injEq] at h
    rw [h]
  | cons e rest ih =>
    obtain ⟨c₀, v₀⟩ := e
    have hc' : c₀ ≠ c ∧ c ∉ GoMap.keys rest := by
      simp only [GoMap.keys, List.map_cons, List.mem_cons, not_or] at hc
      exact ⟨fun h => hc.1 h.symm, hc.2⟩
    simp only [channelsLoop] at h
    cases hf : fetchChannel c₀ v₀ p with
    | error msg => simp [hf, bind, Except.bind] at h
    | ok e₀ =>
      simp only [hf, bind, Except.bind] at h
      rw [ih h hc'.2, GoMap.get?_set_of_ne _ hc'.1]

/-- Each channel of `payload.channels` is bound to what `fetchChannel` built from its own
value. -/
theorem channelsLoop_get?_of_mem {p cm : GoMap JSON} {acc res : GoMap PNPAMEntityData}
    (h : channelsLoop p cm acc = .ok res) (hnd : (GoMap.keys cm).Nodup) {c : String} {v : JSON}
    (hm : (c, v) ∈ cm) : ∃ e, fetchChannel c v p = .ok e ∧ res.get? c = some e := by
  induction cm generalizing acc with
  | nil => simp at hm
  | cons e rest ih =>
    obtain ⟨c₀, v₀⟩ := e
    simp only [GoMap.keys, List.map_cons, List.nodup_cons] at hnd
    simp only [channelsLoop] at h
    cases hf : fetchChannel c₀ v₀ p with
    | error msg => simp [hf, bind, Except.bind] at h
    | ok e₀ =>
      simp only [hf, bind, Except.bind] at h
      rcases List.mem_cons.1 hm with hm | hm
      · cases hm
        refine ⟨e₀, hf, ?_⟩
        rw [channelsLoop_get?_of_not_mem h hnd.1, GoMap.get?_set_self]
      · exact ih h hnd.2 hm

theorem channelsLoop_mem_keys {p cm : GoMap JSON} {acc res : GoMap PNPAMEntityData}
    (h : channelsLoop p cm acc = .ok res) (c : String) :
    c ∈ GoMap.keys res ↔ c ∈ GoMap.keys acc ∨ c ∈ GoMap.keys cm := by
  induction cm generalizing acc with
  | nil =>
    simp only [channelsLoop, Except.ok.injEq] at h
    simp [h, GoMap.keys]
  | cons e rest ih =>
    obtain ⟨c₀, v₀⟩ := e
    simp only [channelsLoop] at h
    cases hf : fetchChannel c₀ v₀ p with
    | error msg => simp [hf, bind, Except.bind] at h
    | ok e₀ =>
      simp only [hf, bind, Except.bind] at h
      rw [ih h, GoMap.mem_keys_set]
      simp only [GoMap.keys, List.map_cons, List.mem_cons]
      tauto

/-- The loop keeps a property that holds of every entry already there and of every entity
`fetchChannel` builds. -/
theorem channelsLoop_forall {p cm : GoMap JSON} {acc res : GoMap PNPAMEntityData}
    (P : PNPAMEntityData → Prop) (h : channelsLoop p cm acc = .ok res)
    (hacc : ∀ c e, acc.get? c = some e → P e)
    (hnew : ∀ c v e, (c, v) ∈ cm → fetchChannel c v p = .ok e → P e) :
    ∀ c e, res.get? c = some e → P e := by
  induction cm generalizing acc with
  | nil =>
    simp only [channelsLoop, Except.ok.injEq] at h
    rw [← h]
    exact hacc
  | cons e rest ih =>
    obtain ⟨c₀, v₀⟩ := e
    simp only [channelsLoop] at h
    cases hf : fetchChannel c₀ v₀ p with
    | error msg => simp [hf, bind, Except.bind] at h
    | ok e₀ =>
      simp only [hf, bind, Except.bind] at h
      refine ih h ?_ (fun c v e hm => hnew c v e (List.mem_cons_of_mem _ hm))
      intro c e hget
      by_cases hc : c₀ = c
      · subst hc
        rw [GoMap.get?_set_self] at hget
        cases hget
        exact hnew c₀ v₀ e₀ (List.mem_cons_self _ _) hf
      · rw [GoMap.get?_set_of_ne _ hc] at hget
        exact hacc c e hget

/-- Every entry the `channel` branch adds carries the payload's `ttl`. -/
theorem channelBranch_get? {p : GoMap JSON} {ch0 : GoMap PNPAMEntityData}
    (h : channelBranch p [] = .ok ch0) {c : String} {e : PNPAMEntityData}
    (hget : ch0.get? c = some e) : e.TTL = floatToInt (asFloat (index p "ttl")) := by
  unfold channelBranch at h
  cases hch : GoMap.get? p "channel" with
  | none =>
    simp only [hch, Except.ok.injEq] at h
    subst h
    simp [GoMap.get?] at hget
  | some val =>
    cases val with
    | str channelName =>
      cases hl : authsLoop (asMap (index p "auths")) [] with
      | error msg => simp [hch, hl, bind, Except.bind] at h
      | ok auths =>
        simp only [hch, hl, bind, Except.bind, pure, Except.pure, Except.ok.injEq] at h
        subst h
        by_cases hc : channelName = c
        · subst hc
          rw [GoMap.get?_set_self] at hget
          cases hget
          rfl
        · rw [GoMap.get?_set_of_ne _ hc] at hget
          simp [GoMap.get?] at hget
    | _ => simp [hch] at h

/-- The value every `ttl` block of the decoder computes from the payload. -/
theorem floatToInt_index_ttl (p : GoMap JSON) :
    floatToInt (asFloat (index p "ttl")) = readTTL p 0 := by
  unfold readTTL index
  cases GoMap.get? p "ttl" with
  | none => simp [asFloat, floatToInt_zero]
  | some v => simp

/-- Every entry of `Channels` carries the payload's `ttl`. -/
theorem entry_ttl_eq_readTTL {value : JSON} {resp : GrantResponse} {p : GoMap JSON}
    (h : decodeGrant value = .ok resp)
    (hp : GoMap.get? (asMap value) "payload" = some (.obj p)) {c : String}
    {e : PNPAMEntityData} (hget : resp.Channels.get? c = some e) : e.TTL = readTTL p 0 := by
  obtain ⟨p', ch0, groups, chans, hp', h0, -, h2, hresp⟩ := decodeGrant_ok h
  rw [hp] at hp'
  cases hp'
  subst hresp
  simp only at hget
  have hch0 : ∀ c e, ch0.get? c = some e → e.TTL = readTTL p 0 := fun c e hg => by
    rw [channelBranch_get? h0 hg, floatToInt_index_ttl]
  unfold channelsBranch at h2
  cases hcs : GoMap.get? p "channels" with
  | none =>
    simp only [hcs, Except.ok.injEq] at h2
    subst h2
    exact hch0 c e hget
  | some val =>
    simp only [hcs] at h2
    exact channelsLoop_forall (fun e => e.TTL = readTTL p 0) h2 hch0
      (fun c v e _ hf => (fetchChannel_ok hf).2.2.2.2.1) c e hget

/-! ## Channel groups -/

theorem groupsLoop_mem_keys {p gm : GoMap JSON} {s s' : GroupsState}
    (h : groupsLoop p gm s = .ok s') (g : String) :
    g ∈ GoMap.keys s'.constructedGroups ↔
      g ∈ GoMap.keys s.constructedGroups ∨ g ∈ GoMap.keys gm := by
  induction gm generalizing s with
  | nil =>
    simp only [groupsLoop, Except.ok.injEq] at h
    simp [h, GoMap.keys]
  | cons e rest ih =>
    obtain ⟨g₀, v₀⟩ := e
    cases v₀ with
    | obj vm =>
      simp only [groupsLoop] at h
      rw [ih h, GoMap.mem_keys_set]
      simp only [GoMap.keys, List.map_cons, List.mem_cons]
      tauto
    | _ => simp [groupsLoop] at h

theorem GroupsState.keys_resolve (s : GroupsState) :
    GoMap.keys s.resolve = GoMap.keys s.constructedGroups := by
  simp [GroupsState.resolve, GoMap.keys, List.map_map, Function.comp_def]

/-- The keys of `constructedGroups` after the `channel-groups` branch. -/
theorem channelGroupsBranch_keys {p : GoMap JSON} {groups : GoMap PNPAMEntityData}
    (h : channelGroupsBranch p = .ok groups) :
    (∀ gm, p.get? "channel-groups" = some (.obj gm) →
      ∀ g, g ∈ GoMap.keys groups ↔ g ∈ GoMap.keys gm) ∧
    (∀ s, p.get? "channel-groups" = some (.str s) → GoMap.keys groups = [s]) ∧
    (p.get? "channel-groups" = none → GoMap.keys groups = []) ∧
    (∀ v, p.get? "channel-groups" = some v → (∀ gm, v ≠ .obj gm) → (∀ s, v ≠ .str s) →
      GoMap.keys groups = []) := by
  unfold channelGroupsBranch at h
  refine ⟨?_, ?_, ?_, ?_⟩
  · intro gm hg g
    simp only [hg] at h
    cases hl : groupsLoop p gm { entityData := { Name := asString (.obj gm) } } with
    | error msg => simp [hl, bind, Except.bind] at h
    | ok s =>
      simp only [hl, bind, Except.bind, pure, Except.pure, Except.ok.injEq] at h
      rw [← h, GroupsState.keys_resolve, groupsLoop_mem_keys hl]
      simp [GoMap.keys]
  · intro s hg
    simp only [hg, Except.ok.injEq] at h
    simp [← h, GoMap.keys]
  · intro hg
    simp only [hg, Except.ok.injEq] at h
    simp [← h, GoMap.keys]
  · intro v hg hobj hstr
    cases v with
    | obj gm => exact absurd rfl (hobj gm)
    | str s => exact absurd rfl (hstr s)
    | _ =>
      simp only [hg, Except.ok.injEq] at h
      simp [← h, GoMap.keys]

/-! ## Bodies of the grant shape are decoded -/

theorem isObject_iff (v : JSON) : isObject v = true ↔ ∃ m, v = JSON.obj m := by
  cases v <;> simp [isObject]

theorem all_isObject {am : GoMap JSON} (h : (am.all fun kv => isObject kv.2) = true) :
    ∀ kv ∈ am, ∃ m, kv.2 = JSON.obj m := by
  intro kv hkv
  exact (isObject_iff kv.2).1 (List.all_eq_true.1 h kv hkv)

theorem channelBranch_returns {p : GoMap JSON} (h : channelShape p = true)
    (acc : GoMap PNPAMEntityData) : ∃ r, channelBranch p acc = .ok r := by
  unfold channelShape at h
  unfold channelBranch
  cases hch : GoMap.get? p "channel" with
  | none => exact ⟨acc, rfl⟩
  | some val =>
    cases val with
    | str channelName =>
      simp only [hch] at h
      obtain ⟨auths, hl⟩ := authsLoop_ok (all_isObject h) []
      simp only [hl, bind, Except.bind, pure, Except.pure]
      exact ⟨_, rfl⟩
    | _ => simp [hch] at h

theorem groupsLoop_returns {p gm : GoMap JSON} (hall : ∀ kv ∈ gm, ∃ m, kv.2 = JSON.obj m)
    (s : GroupsState) : ∃ s', groupsLoop p gm s = .ok s' := by
  induction gm generalizing s with
  | nil => exact ⟨s, rfl⟩
  | cons e rest ih =>
    obtain ⟨g₀, v₀⟩ := e
    obtain ⟨m, hm⟩ := hall (g₀, v₀) (List.mem_cons_self _ _)
    simp only at hm
    subst hm
    simp only [groupsLoop]
    exact ih (fun kv hkv => hall kv (List.mem_cons_of_mem _ hkv)) _

theorem channelGroupsBranch_returns {p : GoMap JSON} (h : groupsShape p = true) :
    ∃ r, channelGroupsBranch p = .ok r := by
  unfold groupsShape at h
  unfold channelGroupsBranch
  cases hg : GoMap.get? p "channel-groups" with
  | none => exact ⟨[], rfl⟩
  | some val =>
    cases val with
    | obj gm =>
      simp only [hg] at h
      obtain ⟨s', hl⟩ := @groupsLoop_returns p gm (all_isObject h)
        { entityData := { Name := asString (.obj gm) } }
      simp only [hl, bind, Except.bind, pure, Except.pure]
      exact ⟨_, rfl⟩
    | str s => exact ⟨_, rfl⟩
    | _ => exact ⟨[], rfl⟩

theorem fetchChannel_returns {v : JSON} (h : channelValueShape v = true) (c : String)
    (p : GoMap JSON) : ∃ e, fetchChannel c v p = .ok e := by
  unfold channelValueShape at h
  unfold fetchChannel
  cases hget : GoMap.get? (asMap v) "auths" with
  | none =>
    simp only [hget, bind, Except.bind, pure, Except.pure]
    exact ⟨_, rfl⟩
  | some val =>
    cases val with
    | obj am =>
      simp only [hget] at h
      obtain ⟨auths, hl⟩ := authsLoop_ok (all_isObject h) []
      simp only [hget, hl, bind, Except.bind, pure, Except.pure]
      exact ⟨_, rfl⟩
    | _ => simp [hget] at h

theorem channelsLoop_returns {p cm : GoMap JSON}
    (hall : ∀ kv ∈ cm, channelValueShape kv.2 = true) (acc : GoMap PNPAMEntityData) :
    ∃ r, channelsLoop p cm acc = .ok r := by
  induction cm generalizing acc with
  | nil => exact ⟨acc, rfl⟩
  | cons e rest ih =>
    obtain ⟨c₀, v₀⟩ := e
    obtain ⟨e₀, hf⟩ := fetchChannel_returns (hall (c₀, v₀) (List.mem_cons_self _ _)) c₀ p
    simp only [channelsLoop, hf, bind, Except.bind]
    exact ih (fun kv hkv => hall kv (List.mem_cons_of_mem _ hkv)) _

theorem channelsBranch_returns {p : GoMap JSON} (h : channelsShape p = true)
    (acc : GoMap PNPAMEntityData) : ∃ r, channelsBranch p acc = .ok r := by
  unfold channelsShape at h
  unfold channelsBranch
  cases hc : GoMap.get? p "channels" with
  | none => exact ⟨acc, rfl⟩
  | some val =>
    simp only [hc] at h
    exact channelsLoop_returns (List.all_eq_true.1 h) acc

/-- A body of the grant shape is decoded without a panic. -/
theorem decodeGrant_returns {value : JSON} (h : grantShape value = true) :
    ∃ resp, decodeGrant value = .ok resp := by
  unfold grantShape at h
  unfold decodeGrant
  cases hpay : GoMap.get? (asMap value) "payload" with
  | none => simp [hpay] at h
  | some pv =>
    cases pv with
    | obj p =>
      simp only [hpay, Bool.and_eq_true] at h
      obtain ⟨ch0, h0⟩ := channelBranch_returns h.1.1 []
      obtain ⟨groups, h1⟩ := channelGroupsBranch_returns h.1.2
      obtain ⟨chans, h2⟩ := channelsBranch_returns h.2 ch0
      simp only [index, hpay, Option.getD_some, h0, h1, h2, bind, Except.bind, pure,
        Except.pure]
      exact ⟨_, rfl⟩
    | _ => simp [hpay] at h

theorem authsLoop_all_obj {am : GoMap JSON} {acc res : GoMap PNAccessManagerKeyData}
    (h : authsLoop am acc = .ok res) : ∀ kv ∈ am, ∃ m, kv.2 = JSON.obj m := by
  induction am generalizing acc with
  | nil => simp
  | cons e rest ih =>
    obtain ⟨k₀, v₀⟩ := e
    cases v₀ with
    | obj vm =>
      simp only [authsLoop] at h
      intro kv hkv
      rcases List.mem_cons.1 hkv with hkv | hkv
      · exact ⟨vm, by rw [hkv]⟩
      · exact ih h kv hkv
    | _ => simp [authsLoop] at h

/-- The entry of `Channels` for a member of `payload.channels`. -/
theorem channels_get? {value : JSON} {resp : GrantResponse} {p cm : GoMap JSON}
    (h : decodeGrant value = .ok resp)
    (hp : GoMap.get? (asMap value) "payload" = some (.obj p))
    (hcm : p.get? "channels" = some (.obj cm)) (hnd : (GoMap.keys cm).Nodup) {c : String}
    {v : JSON} (hc : (c, v) ∈ cm) :
    ∃ e, fetchChannel c v p = .ok e ∧ resp.Channels.get? c = some e := by
  obtain ⟨p', ch0, groups, chans, hp', -, -, h2, hresp⟩ := decodeGrant_ok h
  rw [hp] at hp'
  cases hp'
  subst hresp
  unfold channelsBranch at h2
  simp only [hcm] at h2
  exact channelsLoop_get?_of_mem h2 hnd hc

/-! ## Sets of subscription items -/

theorem baseNames_addItem (items : List SubscriptionItem) (name : String) (wp : Bool) :
    baseNames (addItem items name wp) =
      if name ∈ baseNames items then baseNames items else baseNames items ++ [name] := by
  induction items with
  | nil => simp [addItem, baseNames]
  | cons it rest ih =>
    simp only [baseNames] at ih
    by_cases h : it.name = name
    · simp [addItem, baseNames, h]
    · have h' : ¬ name = it.name := fun e => h e.symm
      by_cases hm : ∃ a ∈ rest, a.name = name
      · simp [addItem, baseNames, h, h', ih, hm]
      · simp [addItem, baseNames, h, h', ih, hm]

theorem mem_baseNames_addItem (items : List SubscriptionItem) (name : String) (wp : Bool)
    (c : String) : c ∈ baseNames (addItem items name wp) ↔ c ∈ baseNames items ∨ c = name := by
  rw [baseNames_addItem]
  split_ifs with h
  · constructor
    · exact Or.inl
    · rintro (hc | hc)
      · exact hc
      · rw [hc]
        exact h
  · simp

theorem mem_baseNames_addItems (items : List SubscriptionItem) (names : List String)
    (wp : Bool) (c : String) :
    c ∈ baseNames (addItems items names wp) ↔ c ∈ baseNames items ∨ c ∈ names := by
  induction names generalizing items with
  | nil => simp [addItems]
  | cons n rest ih =>
    simp only [addItems, List.foldl_cons] at ih ⊢
    rw [ih, mem_baseNames_addItem]
    simp only [List.mem_cons]
    tauto

theorem nodup_baseNames_addItem {items : List SubscriptionItem}
    (h : (baseNames items).Nodup) (name : String) (wp : Bool) :
    (baseNames (addItem items name wp)).Nodup := by
  rw [baseNames_addItem]
  split_ifs with hm
  · exact h
  · exact List.Nodup.append h (List.nodup_singleton name) (by simpa using hm)

theorem nodup_baseNames_addItems {items : List SubscriptionItem}
    (h : (baseNames items).Nodup) (names : List String) (wp : Bool) :
    (baseNames (addItems items names wp)).Nodup := by
  induction names generalizing items with
  | nil => simpa [addItems] using h
  | cons n rest ih =>
    simp only [addItems, List.foldl_cons] at ih ⊢
    exact ih (nodup_baseNames_addItem h n wp)

/-- Names that are new and distinct are appended in their order. -/
theorem baseNames_addItems_of_nodup (items : List SubscriptionItem) (names : List String)
    (wp : Bool) (h : (baseNames items ++ names).Nodup) :
    baseNames (addItems items names wp) = baseNames items ++ names := by
  induction names generalizing items with
  | nil => simp [addItems]
  | cons n rest ih =>
    simp only [addItems, List.foldl_cons] at ih ⊢
    have hn : n ∉ baseNames items := by
      intro hm
      have := List.nodup_append.1 h
      exact this.2.2 hm (List.mem_cons_self _ _) 
    have hstep : baseNames (addItem items n wp) = baseNames items ++ [n] := by
      rw [baseNames_addItem, if_neg hn]
    rw [ih (addItem items n wp) (by rw [hstep]; simpa using h), hstep]
    simp

theorem baseNames_removeItems (items : List SubscriptionItem) (names : List String) :
    baseNames (removeItems items names) =
      (baseNames items).filter fun c => decide (c ∉ names) := by
  unfold baseNames removeItems
  rw [List.filter_map]
  rfl

theorem presence_addItem {items : List SubscriptionItem}
    (h : ∀ it ∈ items, it.presence = true) (name : String) :
    ∀ it ∈ addItem items name true, it.presence = true := by
  induction items with
  | nil =>
    intro it hit
    simp only [addItem, List.mem_singleton] at hit
    rw [hit]
  | cons it₀ rest ih =>
    intro it hit
    by_cases hn : it₀.name = name
    · simp only [addItem, hn, if_true, List.mem_cons] at hit
      rcases hit with hit | hit
      · rw [hit]
        simp
      · exact h it (List.mem_cons_of_mem _ hit)
    · simp only [addItem, hn, if_false, List.mem_cons] at hit
      rcases hit with hit | hit
      · rw [hit]
        exact h it₀ (List.mem_cons_self _ _)
      · exact ih (fun it' h' => h it' (List.mem_cons_of_mem _ h')) it hit

theorem presence_addItems {items : List SubscriptionItem}
    (h : ∀ it ∈ items, it.presence = true) (names : List String) :
    ∀ it ∈ addItems items names true, it.presence = true := by
  induction names generalizing items with
  | nil => simpa [addItems] using h
  | cons n rest ih =>
    simp only [addItems, List.foldl_cons] at ih ⊢
    exact ih (presence_addItem h n)

/-- With presence requested for every member, the wire-level names are twice as many as the
base names. -/
theorem length_wireNames_of_presence {items : List SubscriptionItem}
    (h : ∀ it ∈ items, it.presence = true) :
    (wireNames items).length = 2 * (baseNames items).length := by
  have hf : items.filter (fun it => it.presence) = items := List.filter_eq_self.2 h
  simp only [wireNames, hf, List.length_append, List.length_map, baseNames]
  omega

theorem StateManager.run_append (calls : List SubscriptionCall) (call : SubscriptionCall) :
    StateManager.run (calls ++ [call]) = (StateManager.run calls).apply call := by
  simp [StateManager.run, List.foldl_append]

theorem nodup_baseNames_removeItems {items : List SubscriptionItem}
    (h : (baseNames items).Nodup) (names : List String) :
    (baseNames (removeItems items names)).Nodup := by
  rw [baseNames_removeItems]
  exact h.filter _

/-- The two sets of the State Manager have no repeated name. -/
theorem StateManager.nodup_run (calls : List SubscriptionCall) :
    (baseNames (StateManager.run calls).channels).Nodup ∧
    (baseNames (StateManager.run calls).groups).Nodup := by
  induction calls using List.reverseRecOn with
  | nil => simp [StateManager.run, baseNames]
  | append_singleton calls call ih =>
    rw [StateManager.run_append]
    cases call with
    | Subscribe channels groups wp =>
      exact ⟨nodup_baseNames_addItems ih.1 channels wp, nodup_baseNames_addItems ih.2 groups wp⟩
    | Unsubscribe channels groups =>
      exact ⟨nodup_baseNames_removeItems ih.1 channels, nodup_baseNames_removeItems ih.2 groups⟩
    | UnsubscribeAll => simp [StateManager.apply, StateManager.removeAll, baseNames]
    | AccessDenied => simp [StateManager.apply, StateManager.removeAll, baseNames]

/-- The channels of the State Manager are the channels currently subscribed, after every
sequence of calls and denied polls. -/
theorem StateManager.mem_channels_run (calls : List SubscriptionCall) (c : String) :
    c ∈ baseNames (StateManager.run calls).channels ↔
      channelSubscribed calls.reverse c = true := by
  induction calls using List.reverseRecOn with
  | nil => simp [StateManager.run, baseNames, channelSubscribed]
  | append_singleton calls call ih =>
    rw [StateManager.run_append, List.reverse_append, List.reverse_singleton,
      List.singleton_append]
    cases call with
    | Subscribe channels groups wp =>
      simp only [StateManager.apply, StateManager.add, channelSubscribed, Bool.or_eq_true,
        decide_eq_true_eq]
      rw [mem_baseNames_addItems, ih]
      tauto
    | Unsubscribe channels groups =>
      simp only [StateManager.apply, StateManager.remove, channelSubscribed, Bool.and_eq_true,
        decide_eq_true_eq]
      rw [baseNames_removeItems, List.mem_filter, ih]
      simp only [decide_eq_true_eq]
      tauto
    | UnsubscribeAll =>
      simp [StateManager.apply, StateManager.removeAll, channelSubscribed, baseNames]
    | AccessDenied =>
      simp [StateManager.apply, StateManager.removeAll, channelSubscribed, baseNames]

/-- The groups of the State Manager are the groups currently subscribed, after every sequence
of calls and denied polls. -/
theorem StateManager.mem_groups_run (calls : List SubscriptionCall) (g : String) :
    g ∈ baseNames (StateManager.run calls).groups ↔
      groupSubscribed calls.reverse g = true := by
  induction calls using List.reverseRecOn with
  | nil => simp [StateManager.run, baseNames, groupSubscribed]
  | append_singleton calls call ih =>
    rw [StateManager.run_append, List.reverse_append, List.reverse_singleton,
      List.singleton_append]
    cases call with
    | Subscribe channels groups wp =>
      simp only [StateManager.apply, StateManager.add, groupSubscribed, Bool.or_eq_true,
        decide_eq_true_eq]
      rw [mem_baseNames_addItems, ih]
      tauto
    | Unsubscribe channels groups =>
      simp only [StateManager.apply, StateManager.remove, groupSubscribed, Bool.and_eq_true,
        decide_eq_true_eq]
      rw [baseNames_removeItems, List.mem_filter, ih]
      simp only [decide_eq_true_eq]
      tauto
    | UnsubscribeAll =>
      simp [StateManager.apply, StateManager.removeAll, groupSubscribed, baseNames]
    | AccessDenied =>
      simp [StateManager.apply, StateManager.removeAll, groupSubscribed, baseNames]

/-! ## History entries -/

theorem Values.get?_Set (q : Values) (k k' v : String) :
    (q.Set k v).get? k' = if k = k' then some [v] else q.get? k' := by
  split_ifs with h
  · rw [← h]
    exact Values.get?_Set_self q k v
  · exact Values.get?_Set_of_ne q h v

theorem historyItem_of_raw (cipher : Option (JSON → JSON)) {m : JSON}
    (h : isEnvelope m = false) :
    historyItem cipher m = { Message := processPayload cipher m, Timetoken := 0 } := by
  cases m with
  | obj kvs =>
    cases ht : GoMap.get? kvs "timetoken" with
    | none => simp [historyItem, ht]
    | some tv =>
      cases tv with
      | num t =>
        cases hm : GoMap.get? kvs "message" with
        | none => simp [historyItem, ht, hm]
        | some mv => simp [isEnvelope, ht, hm] at h
      | _ => simp [historyItem, ht]
  | _ => rfl

theorem historyItem_of_envelope (cipher : Option (JSON → JSON)) {kvs : GoMap JSON} {t : ℚ}
    {m : JSON} (ht : GoMap.get? kvs "timetoken" = some (.num t))
    (hm : GoMap.get? kvs "message" = some m) :
    historyItem cipher (.obj kvs) =
      { Message := processPayload cipher m, Timetoken := floatToInt t } := by
  simp only [historyItem, ht, hm]

/-! ## The string shape of channel groups and the single channel -/

/-- The loop over `auths` in the string shape leaves the entity as it is, but for a `TTL`
that stays 0. -/
theorem stringGroupLoop_entity (auths : GoMap JSON) (e : PNPAMEntityData)
    (acc : GoMap PNAccessManagerKeyData) :
    (stringGroupLoop auths e acc).1.Name = e.Name ∧
    (stringGroupLoop auths e acc).1.ReadEnabled = e.ReadEnabled ∧
    (stringGroupLoop auths e acc).1.WriteEnabled = e.WriteEnabled ∧
    (stringGroupLoop auths e acc).1.ManageEnabled = e.ManageEnabled ∧
    (e.TTL = 0 → (stringGroupLoop auths e acc).1.TTL = 0) := by
  induction auths generalizing e acc with
  | nil => exact ⟨rfl, rfl, rfl, rfl, id⟩
  | cons kv rest ih =>
    obtain ⟨k₀, v₀⟩ := kv
    simp only [stringGroupLoop]
    cases hget : GoMap.get? (asMap v₀) "ttl" with
    | none => exact ih e _
    | some val =>
      obtain ⟨h1, h2, h3, h4, h5⟩ := ih { e with TTL := asInt val } (acc.set k₀ (keyDataOf (asMap v₀)))
      exact ⟨h1, h2, h3, h4, fun _ => h5 rfl⟩

theorem stringGroupLoop_get?_of_not_mem (auths : GoMap JSON) (e : PNPAMEntityData)
    (acc : GoMap PNAccessManagerKeyData) {k : String} (hk : k ∉ GoMap.keys auths) :
    (stringGroupLoop auths e acc).2.get? k = acc.get? k := by
  induction auths generalizing e acc with
  | nil => rfl
  | cons kv rest ih =>
    obtain ⟨k₀, v₀⟩ := kv
    have hk' : k₀ ≠ k ∧ k ∉ GoMap.keys rest := by
      simp only [GoMap.keys, List.map_cons, List.mem_cons, not_or] at hk
      exact ⟨fun h => hk.1 h.symm, hk.2⟩
    simp only [stringGroupLoop]
    rw [ih _ _ hk'.2, GoMap.get?_set_of_ne _ hk'.1]

/-- In the string shape each auth key is bound to the key data read from its own entry. -/
theorem stringGroupLoop_get?_of_mem (auths : GoMap JSON) (e : PNPAMEntityData)
    (acc : GoMap PNAccessManagerKeyData) (hnd : (GoMap.keys auths).Nodup) {k : String}
    {a : JSON} (hm : (k, a) ∈ auths) :
    (stringGroupLoop auths e acc).2.get? k = some (keyDataOf (asMap a)) := by
  induction auths generalizing e acc with
  | nil => simp at hm
  | cons kv rest ih =>
    obtain ⟨k₀, v₀⟩ := kv
    simp only [GoMap.keys, List.map_cons, List.nodup_cons] at hnd
    simp only [stringGroupLoop]
    rcases List.mem_cons.1 hm with hm | hm
    · cases hm
      rw [stringGroupLoop_get?_of_not_mem _ _ _ hnd.1, GoMap.get?_set_self]
    · exact ih _ _ hnd.2 hm

theorem stringGroupLoop_mem_keys (auths : GoMap JSON) (e : PNPAMEntityData)
    (acc : GoMap PNAccessManagerKeyData) (k : String) :
    k ∈ GoMap.keys (stringGroupLoop auths e acc).2 ↔
      k ∈ GoMap.keys acc ∨ k ∈ GoMap.keys auths := by
  induction auths generalizing e acc with
  | nil => simp [stringGroupLoop, GoMap.keys]
  | cons kv rest ih =>
    obtain ⟨k₀, v₀⟩ := kv
    simp only [stringGroupLoop]
    rw [ih, GoMap.mem_keys_set]
    simp only [GoMap.keys, List.map_cons, List.mem_cons]
    tauto

/-- The value of `constructedGroups` in the string shape. -/
theorem channelGroupsBranch_of_str {p : GoMap JSON} {groups : GoMap PNPAMEntityData}
    {s : String} (h : channelGroupsBranch p = .ok groups)
    (hcg : p.get? "channel-groups" = some (.str s)) :
    groups =
      [(s, { (stringGroupLoop (asMap (index p "auths")) { Name := s } []).1 with
             AuthKeys := (stringGroupLoop (asMap (index p "auths")) { Name := s } []).2 })] := by
  unfold channelGroupsBranch at h
  simp only [hcg, Except.ok.injEq] at h
  exact h.symm

/-- The value of `constructedChannels` after the `channel` branch, for a string. -/
theorem channelBranch_of_str {p : GoMap JSON} {ch0 : GoMap PNPAMEntityData} {n : String}
    (h : channelBranch p [] = .ok ch0) (hch : p.get? "channel" = some (.str n)) :
    ∃ auths, authsLoop (asMap (index p "auths")) [] = .ok auths ∧
      ch0 = [(n, { Name := n, AuthKeys := auths, TTL := floatToInt (asFloat (index p "ttl")) })] := by
  unfold channelBranch at h
  cases hl : authsLoop (asMap (index p "auths")) [] with
  | error msg => simp [hch, hl, bind, Except.bind] at h
  | ok auths =>
    simp only [hch, hl, bind, Except.bind, pure, Except.pure, Except.ok.injEq] at h
    exact ⟨auths, rfl, h.symm⟩

/-- The keys of `constructedChannels` after the `channel` branch. -/
theorem channelBranch_mem_keys {p : GoMap JSON} {ch0 : GoMap PNPAMEntityData}
    (h : channelBranch p [] = .ok ch0) (c : String) :
    c ∈ GoMap.keys ch0 ↔ p.get? "channel" = some (.str c) := by
  cases hch : GoMap.get? p "channel" with
  | none =>
    unfold channelBranch at h
    simp only [hch, Except.ok.injEq] at h
    simp [← h, GoMap.keys]
  | some val =>
    cases val with
    | str n =>
      obtain ⟨auths, -, hch0⟩ := channelBranch_of_str h hch
      simp [hch0, GoMap.keys, eq_comm]
    | _ =>
      unfold channelBranch at h
      simp [hch] at h

/-- When the `channel` branch returns, `payload.channel` is absent or a string. -/
theorem channelBranch_channel_str {p : GoMap JSON} {ch0 : GoMap PNPAMEntityData}
    (h : channelBranch p [] = .ok ch0) {v : JSON} (hch : p.get? "channel" = some v) :
    ∃ n, v = JSON.str n := by
  cases v with
  | str n => exact ⟨n, rfl⟩
  | _ =>
    unfold channelBranch at h
    simp [hch] at h

theorem asMap_index_of_obj {p : GoMap JSON} {key : String} {am : GoMap JSON}
    (h : p.get? key = some (.obj am)) : asMap (index p key) = am := by
  simp [index, h, asMap]

theorem asMap_index_of_absent {p : GoMap JSON} {key : String} (h : p.get? key = none) :
    asMap (index p key) = [] := by
  simp [index, h, asMap]

theorem asMap_index_of_not_obj {p : GoMap JSON} {key : String}
    (h : ∀ am, p.get? key ≠ some (.obj am)) : asMap (index p key) = [] := by
  unfold index
  cases hget : GoMap.get? p key with
  | none => rfl
  | some v =>
    cases v with
    | obj am => exact absurd hget (h am)
    | _ => rfl

/-- The flags of the key data read from one auth entry. -/
theorem keyDataOf_flags (m : GoMap JSON) :
    ((keyDataOf m).ReadEnabled = true ↔ m.get? "r" = some (.num 1)) ∧
    ((keyDataOf m).WriteEnabled = true ↔ m.get? "w" = some (.num 1)) ∧
    ((keyDataOf m).ManageEnabled = true ↔ m.get? "m" = some (.num 1)) :=
  ⟨readFlag_false_iff m "r", readFlag_false_iff m "w", readFlag_false_iff m "m"⟩

/-! ## The shared entity of the map shape -/

theorem groupAuthsLoop_mem_keys (ptr : Nat) (auths : GoMap JSON)
    (keyData : PNAccessManagerKeyData) (cak : GoMap Nat) (k : String) :
    k ∈ GoMap.keys (groupAuthsLoop ptr auths keyData cak).2 ↔
      k ∈ GoMap.keys cak ∨ k ∈ GoMap.keys auths := by
  induction auths generalizing keyData cak with
  | nil => simp [groupAuthsLoop, GoMap.keys]
  | cons kv rest ih =>
    obtain ⟨k₀, v₀⟩ := kv
    simp only [groupAuthsLoop]
    rw [ih, GoMap.mem_keys_set]
    simp only [GoMap.keys, List.map_cons, List.mem_cons]
    tauto

/-- The keys of the one map `constructedAuthKey` after the loop over the groups: those it had
and the auth keys of every group. -/
theorem groupsLoop_mem_authKeys {p gm : GoMap JSON} {s s' : GroupsState}
    (h : groupsLoop p gm s = .ok s') (k : String) :
    k ∈ GoMap.keys s'.constructedAuthKey ↔
      k ∈ GoMap.keys s.constructedAuthKey ∨
        ∃ g v, (g, v) ∈ gm ∧ k ∈ GoMap.keys (asMap (index (asMap v) "auths")) := by
  induction gm generalizing s with
  | nil =>
    simp only [groupsLoop, Except.ok.injEq] at h
    simp [h]
  | cons e rest ih =>
    obtain ⟨g₀, v₀⟩ := e
    cases v₀ with
    | obj vm =>
      simp only [groupsLoop] at h
      rw [ih h]
      have hhead : k ∈ GoMap.keys
          (match GoMap.get? vm "auths" with
            | some keys =>
              ((s.cells ++ [(groupAuthsLoop s.cells.length (asMap keys) {}
                  s.constructedAuthKey).1]),
                (groupAuthsLoop s.cells.length (asMap keys) {} s.constructedAuthKey).2)
            | none => (s.cells, s.constructedAuthKey)).2 ↔
          k ∈ GoMap.keys s.constructedAuthKey ∨
            k ∈ GoMap.keys (asMap (index (asMap (JSON.obj vm)) "auths")) := by
        cases hget : GoMap.get? vm "auths" with
        | none => simp [index, asMap, hget, GoMap.keys]
        | some keys =>
          simp only [groupAuthsLoop_mem_keys, index, asMap, hget, Option.getD_some]
      rw [hhead]
      constructor
      · rintro ((hk | hk) | ⟨g, v, hgv, hk⟩)
        · exact Or.inl hk
        · exact Or.inr ⟨g₀, .obj vm, List.mem_cons_self _ _, hk⟩
        · exact Or.inr ⟨g, v, List.mem_cons_of_mem _ hgv, hk⟩
      · rintro (hk | ⟨g, v, hgv, hk⟩)
        · exact Or.inl (Or.inl hk)
        · rcases List.mem_cons.1 hgv with hgv | hgv
          · cases hgv
            exact Or.inl (Or.inr hk)
          · exact Or.inr ⟨g, v, hgv, hk⟩
    | _ => simp [groupsLoop] at h

theorem groupsLoop_assigned_of_assigned {p gm : GoMap JSON} {s s' : GroupsState}
    (h : groupsLoop p gm s = .ok s') (hs : s.entityData.AuthKeys = true) :
    s'.entityData.AuthKeys = true := by
  induction gm generalizing s with
  | nil =>
    simp only [groupsLoop, Except.ok.injEq] at h
    rw [← h]
    exact hs
  | cons e rest ih =>
    obtain ⟨g₀, v₀⟩ := e
    cases v₀ with
    | obj vm =>
      simp only [groupsLoop] at h
      exact ih h rfl
    | _ => simp [groupsLoop] at h

/-- After a loop over at least one group the field `AuthKeys` of the shared entity refers to
`constructedAuthKey`. -/
theorem groupsLoop_assigned {p gm : GoMap JSON} {s s' : GroupsState}
    (h : groupsLoop p gm s = .ok s') (hgm : gm ≠ []) : s'.entityData.AuthKeys = true := by
  cases gm with
  | nil => exact absurd rfl hgm
  | cons e rest =>
    obtain ⟨g₀, v₀⟩ := e
    cases v₀ with
    | obj vm =>
      simp only [groupsLoop] at h
      exact groupsLoop_assigned_of_assigned h rfl
    | _ => simp [groupsLoop] at h

/-- Every entry of the resolved `constructedGroups` is the one shared entity. -/
theorem GroupsState.get?_resolve (s : GroupsState) (g : String) :
    s.resolve.get? g =
      if g ∈ GoMap.keys s.constructedGroups then some s.entity else none := by
  unfold GroupsState.resolve
  induction s.constructedGroups with
  | nil => simp [GoMap.get?, GoMap.keys]
  | cons kv rest ih =>
    obtain ⟨g₀, u⟩ := kv
    simp only [GoMap.keys] at ih
    by_cases hg : g₀ = g
    · simp [GoMap.get?, GoMap.keys, hg]
    · have hg' : ¬ g = g₀ := fun h => hg h.symm
      simp [GoMap.get?, GoMap.keys, hg, hg', ih]

theorem GroupsState.keys_entity_authKeys (s : GroupsState)
    (h : s.entityData.AuthKeys = true) :
    GoMap.keys s.entity.AuthKeys = GoMap.keys s.constructedAuthKey := by
  simp [GroupsState.entity, h, GoMap.keys, List.map_map, Function.comp_def]

/-- The value of `constructedGroups` in the map shape. -/
theorem channelGroupsBranch_of_obj {p gm : GoMap JSON} {groups : GoMap PNPAMEntityData}
    (h : channelGroupsBranch p = .ok groups)
    (hcg : p.get? "channel-groups" = some (.obj gm)) :
    ∃ s, groupsLoop p gm { entityData := { Name := "" } } = .ok s ∧ groups = s.resolve := by
  unfold channelGroupsBranch at h
  simp only [hcg] at h
  cases hl : groupsLoop p gm { entityData := { Name := asString (.obj gm) } } with
  | error msg => simp [hl, bind, Except.bind] at h
  | ok s =>
    simp only [hl, bind, Except.bind, pure, Except.pure, Except.ok.injEq] at h
    exact ⟨s, hl, h.symm⟩

/-! ## The grant shape, spelled out -/

theorem all_isObject_of_forall {am : GoMap JSON} (h : ∀ kv ∈ am, ∃ m, kv.2 = JSON.obj m) :
    (am.all fun kv => isObject kv.2) = true :=
  List.all_eq_true.2 fun kv hkv => (isObject_iff kv.2).2 (h kv hkv)

theorem channelShape_of {p : GoMap JSON}
    (hch : ∀ v, p.get? "channel" = some v → (∃ n, v = JSON.str n) ∧
      ∀ am, p.get? "auths" = some (.obj am) → ∀ kv ∈ am, ∃ m, kv.2 = JSON.obj m) :
    channelShape p = true := by
  unfold channelShape
  cases hget : GoMap.get? p "channel" with
  | none => rfl
  | some v =>
    obtain ⟨⟨n, hn⟩, hauths⟩ := hch v hget
    subst hn
    simp only
    by_cases ha : ∃ am, p.get? "auths" = some (.obj am)
    · obtain ⟨am, ham⟩ := ha
      rw [asMap_index_of_obj ham]
      exact all_isObject_of_forall (hauths am ham)
    · rw [asMap_index_of_not_obj (fun am h => ha ⟨am, h⟩)]
      rfl

theorem groupsShape_of {p : GoMap JSON}
    (hcg : ∀ gm, p.get? "channel-groups" = some (.obj gm) → ∀ kv ∈ gm, ∃ m, kv.2 = JSON.obj m) :
    groupsShape p = true := by
  unfold groupsShape
  cases hget : GoMap.get? p "channel-groups" with
  | none => rfl
  | some v =>
    cases v with
    | obj gm => exact all_isObject_of_forall (hcg gm hget)
    | _ => rfl

theorem channelsShape_of {p : GoMap JSON}
    (hcs : ∀ cm, p.get? "channels" = some (.obj cm) → ∀ c vm a, (c, JSON.obj vm) ∈ cm →
      GoMap.get? vm "auths" = some a →
      ∃ am, a = JSON.obj am ∧ ∀ kv ∈ am, ∃ m, kv.2 = JSON.obj m) :
    channelsShape p = true := by
  unfold channelsShape
  cases hget : GoMap.get? p "channels" with
  | none => rfl
  | some cv =>
    cases cv with
    | obj cm =>
      simp only [asMap]
      refine List.all_eq_true.2 fun kv hkv => ?_
      obtain ⟨c, v⟩ := kv
      cases v with
      | obj vm =>
        unfold channelValueShape
        cases ha : GoMap.get? (asMap (JSON.obj vm)) "auths" with
        | none => rfl
        | some a =>
          obtain ⟨am, ham, hall⟩ := hcs cm hget c vm a hkv ha
          subst ham
          exact all_isObject_of_forall hall
      | _ => rfl
    | _ => rfl

/-! ## The TTL of key data -/

theorem GoMap.mem_set {α : Type} (m : GoMap α) (k : String) (v : α) (x : String × α)
    (h : x ∈ m.set k v) : x ∈ m ∨ x = (k, v) := by
  induction m with
  | nil =>
    simp only [GoMap.set, List.mem_singleton] at h
    exact Or.inr h
  | cons e rest ih =>
    obtain ⟨k₀, v₀⟩ := e
    by_cases h₀ : k₀ = k
    · simp only [GoMap.set, h₀, if_true, List.mem_cons] at h
      rcases h with h | h
      · exact Or.inr h
      · exact Or.inl (List.mem_cons_of_mem _ h)
    · simp only [GoMap.set, h₀, if_false, List.mem_cons] at h
      rcases h with h | h
      · exact Or.inl (by rw [h]; exact List.mem_cons_self _ _)
      · rcases ih h with h | h
        · exact Or.inl (List.mem_cons_of_mem _ h)
        · exact Or.inr h

/-- Every key data of a map has `TTL = 0`. -/
def KeyTTLZero (m : GoMap PNAccessManagerKeyData) : Prop := ∀ kv ∈ m, kv.2.TTL = 0

theorem KeyTTLZero.set {m : GoMap PNAccessManagerKeyData} (h : KeyTTLZero m) (k : String)
    (valueMap : GoMap JSON) : KeyTTLZero (m.set k (keyDataOf valueMap)) := by
  intro kv hkv
  rcases GoMap.mem_set m k _ kv hkv with hkv | hkv
  · exact h kv hkv
  · rw [hkv]
    rfl

theorem KeyTTLZero.get? {m : GoMap PNAccessManagerKeyData} (h : KeyTTLZero m) {k : String}
    {kd : PNAccessManagerKeyData} (hget : m.get? k = some kd) : kd.TTL = 0 :=
  h (k, kd) (GoMap.mem_of_get? hget)

theorem authsLoop_ttl {am : GoMap JSON} {acc res : GoMap PNAccessManagerKeyData}
    (h : authsLoop am acc = .ok res) (hacc : KeyTTLZero acc) : KeyTTLZero res := by
  induction am generalizing acc with
  | nil =>
    simp only [authsLoop, Except.ok.injEq] at h
    rw [← h]
    exact hacc
  | cons e rest ih =>
    obtain ⟨k₀, v₀⟩ := e
    cases v₀ with
    | obj vm =>
      simp only [authsLoop] at h
      exact ih h (hacc.set k₀ vm)
    | _ => simp [authsLoop] at h

theorem fetchChannel_ttl {c : String} {v : JSON} {p : GoMap JSON} {e : PNPAMEntityData}
    (h : fetchChannel c v p = .ok e) : KeyTTLZero e.AuthKeys := by
  unfold fetchChannel at h
  cases hget : GoMap.get? (asMap v) "auths" with
  | none =>
    simp only [hget, bind, Except.bind, pure, Except.pure, Except.ok.injEq] at h
    subst h
    intro kv hkv
    simp at hkv
  | some val =>
    cases val with
    | obj am =>
      cases hl : authsLoop am [] with
      | error msg => simp [hget, hl, bind, Except.bind] at h
      | ok auths =>
        simp only [hget, hl, bind, Except.bind, pure, Except.pure, Except.ok.injEq] at h
        subst h
        exact authsLoop_ttl hl (fun kv hkv => by simp at hkv)
    | _ => simp [hget, bind, Except.bind] at h

theorem channelBranch_ttl {p : GoMap JSON} {ch0 : GoMap PNPAMEntityData}
    (h : channelBranch p [] = .ok ch0) {c : String} {e : PNPAMEntityData}
    (hget : ch0.get? c = some e) : KeyTTLZero e.AuthKeys := by
  cases hch : GoMap.get? p "channel" with
  | none =>
    unfold channelBranch at h
    simp only [hch, Except.ok.injEq] at h
    subst h
    simp [GoMap.get?] at hget
  | some val =>
    obtain ⟨n, hn⟩ := channelBranch_channel_str h hch
    subst hn
    obtain ⟨auths, hl, hch0⟩ := channelBranch_of_str h hch
    subst hch0
    by_cases hc : n = c
    · simp only [GoMap.get?, hc, if_true, Option.some.injEq] at hget
      subst hget
      exact authsLoop_ttl hl (fun kv hkv => by simp at hkv)
    · simp [GoMap.get?, hc] at hget

theorem stringGroupLoop_ttl (auths : GoMap JSON) (e : PNPAMEntityData)
    {acc : GoMap PNAccessManagerKeyData} (hacc : KeyTTLZero acc) :
    KeyTTLZero (stringGroupLoop auths e acc).2 := by
  induction auths generalizing e acc with
  | nil => exact hacc
  | cons kv rest ih =>
    obtain ⟨k₀, v₀⟩ := kv
    simp only [stringGroupLoop]
    exact ih _ (hacc.set k₀ (asMap v₀))

theorem groupAuthsLoop_ttl (ptr : Nat) (auths : GoMap JSON) (keyData : PNAccessManagerKeyData)
    (cak : GoMap Nat) : (groupAuthsLoop ptr auths keyData cak).1.TTL = keyData.TTL := by
  induction auths generalizing keyData cak with
  | nil => rfl
  | cons kv rest ih =>
    obtain ⟨k₀, v₀⟩ := kv
    simp only [groupAuthsLoop]
    rw [ih]
    rfl

/-- Every key-data struct allocated in the loop over the groups has `TTL = 0`. -/
theorem groupsLoop_cells_ttl {p gm : GoMap JSON} {s s' : GroupsState}
    (h : groupsLoop p gm s = .ok s') (hs : ∀ kd ∈ s.cells, kd.TTL = 0) :
    ∀ kd ∈ s'.cells, kd.TTL = 0 := by
  induction gm generalizing s with
  | nil =>
    simp only [groupsLoop, Except.ok.injEq] at h
    rw [← h]
    exact hs
  | cons e rest ih =>
    obtain ⟨g₀, v₀⟩ := e
    cases v₀ with
    | obj vm =>
      simp only [groupsLoop] at h
      refine ih h ?_
      cases hget : GoMap.get? vm "auths" with
      | none => exact hs
      | some keys =>
        intro kd hkd
        simp only [List.mem_append, List.mem_singleton] at hkd
        rcases hkd with hkd | hkd
        · exact hs kd hkd
        · rw [hkd, groupAuthsLoop_ttl]
    | _ => simp [groupsLoop] at h

theorem GroupsState.entity_ttl (s : GroupsState) (hs : ∀ kd ∈ s.cells, kd.TTL = 0) :
    KeyTTLZero s.entity.AuthKeys := by
  intro kv hkv
  unfold GroupsState.entity at hkv
  by_cases ha : s.entityData.AuthKeys = true
  · simp only [ha, if_true, List.mem_map] at hkv
    obtain ⟨kp, -, hkp⟩ := hkv
    rw [← hkp]
    simp only
    rw [List.getD_eq_getElem?_getD]
    cases hx : s.cells[kp.2]? with
    | none => rfl
    | some x => exact hs x (List.getElem?_mem hx)
  · simp [ha] at hkv

/-- Every key data of every entry of `constructedGroups` has `TTL = 0`. -/
theorem channelGroupsBranch_ttl {p : GoMap JSON} {groups : GoMap PNPAMEntityData}
    (h : channelGroupsBranch p = .ok groups) {g : String} {e : PNPAMEntityData}
    (hget : groups.get? g = some e) : KeyTTLZero e.AuthKeys := by
  cases hcg : GoMap.get? p "channel-groups" with
  | none =>
    unfold channelGroupsBranch at h
    simp only [hcg, Except.ok.injEq] at h
    subst h
    simp [GoMap.get?] at hget
  | some val =>
    cases val with
    | str s =>
      have hg := channelGroupsBranch_of_str h hcg
      subst hg
      by_cases hs : s = g
      · simp only [GoMap.get?, hs, if_true, Option.some.injEq] at hget
        subst hget
        exact stringGroupLoop_ttl _ _ (fun kv hkv => by simp at hkv)
      · simp [GoMap.get?, hs] at hget
    | obj gm =>
      obtain ⟨s, hl, hg⟩ := channelGroupsBranch_of_obj h hcg
      subst hg
      rw [GroupsState.get?_resolve] at hget
      split_ifs at hget
      cases hget
      exact s.entity_ttl (groupsLoop_cells_ttl hl (fun kd hkd => by simp at hkd))
    | _ =>
      unfold channelGroupsBranch at h
      simp only [hcg, Except.ok.injEq] at h
      subst h
      simp [GoMap.get?] at hget

/-- The decoder reads the body through its member `payload` only. -/
theorem decodeGrant_congr {v₁ v₂ : JSON}
    (h : index (asMap v₁) "payload" = index (asMap v₂) "payload") :
    decodeGrant v₁ = decodeGrant v₂ := by
  unfold decodeGrant
  simp only [h]

/-! ## Sample bodies -/

/-- The decoded body `{"payload":{"channel-groups":{"g1":{"r":1},"g2":{"r":0}}}}`, the loop
visiting `g1` first. -/
def twoGroupsBody : JSON :=
  .obj [("payload", .obj [("channel-groups",
    .obj [("g1", .obj [("r", .num 1)]), ("g2", .obj [("r", .num 0)])])])]

/-- The same body, the loop visiting `g2` first. -/
def twoGroupsBodyRev : JSON :=
  .obj [("payload", .obj [("channel-groups",
    .obj [("g2", .obj [("r", .num 0)]), ("g1", .obj [("r", .num 1)])])])]

/-- The decoded body
`{"payload":{"channel-groups":{"g1":{"auths":{"k1":{"r":1}}},"g2":{"auths":{"k2":{"w":1}}}}}}`,
the loop visiting `g1` first. -/
def twoGroupAuthsBody : JSON :=
  .obj [("payload", .obj [("channel-groups",
    .obj [("g1", .obj [("auths", .obj [("k1", .obj [("r", .num 1)])])]),
          ("g2", .obj [("auths", .obj [("k2", .obj [("w", .num 1)])])])])])]

/-- The same body, the loop visiting `g2` first. -/
def twoGroupAuthsBodyRev : JSON :=
  .obj [("payload", .obj [("channel-groups",
    .obj [("g2", .obj [("auths", .obj [("k2", .obj [("w", .num 1)])])]),
          ("g1", .obj [("auths", .obj [("k1", .obj [("r", .num 1)])])])])])]

/-- The member `channels` of `samplePayload`. -/
def sampleChannels : GoMap JSON :=
  [("ch1", .obj [("r", .num 1), ("w", .num 1),
      ("auths", .obj [("key1", .obj [("r", .num 1)]),
                      ("key2", .obj [("w", .num 1), ("m", .num 1)])])]),
   ("ch2", .obj [("m", .num 1)])]

/-- The payload of `sampleBody`. -/
def samplePayload : GoMap JSON :=
  [("level", .str "channel"), ("subscribe_key", .str "sub-key"), ("ttl", .num 1440),
   ("r", .num 1), ("w", .num 0), ("channels", .obj sampleChannels),
   ("channel-groups", .obj [("cg1", .obj [("r", .num 1)])])]

/-- The decoded body `{"status":200,"payload":{"level":"channel","subscribe_key":"sub-key",
"ttl":1440,"r":1,"w":0,"channels":{"ch1":{"r":1,"w":1,"auths":{"key1":{"r":1},
"key2":{"w":1,"m":1}}},"ch2":{"m":1}},"channel-groups":{"cg1":{"r":1}}}}`. -/
def sampleBody : JSON := .obj [("status", .num 200), ("payload", .obj samplePayload)]

/-- The entry the decoder builds for `ch1` of `sampleBody`. -/
def sampleCh1 : PNPAMEntityData :=
  { Name := "ch1"
    AuthKeys := [("key1", { ReadEnabled := true }),
                 ("key2", { WriteEnabled := true, ManageEnabled := true })]
    ReadEnabled := true
    WriteEnabled := true
    TTL := 1440 }

/-- The response the decoder returns for `sampleBody`. -/
def sampleResponse : GrantResponse :=
  { Level := "channel"
    SubscribeKey := "sub-key"
    TTL := 1440
    Channels := [("ch1", sampleCh1), ("ch2", { Name := "ch2", ManageEnabled := true, TTL := 1440 })]
    ChannelGroups := [("cg1", { Name := "", ReadEnabled := true, TTL := 1440 })]
    ReadEnabled := true }

/-- The decoded body `{"payload":{"channels":{"c":{"r":1,"auths":[]}}}}`. -/
def arrayAuthsBody : JSON :=
  .obj [("payload", .obj [("channels", .obj [("c", .obj [("r", .num 1), ("auths", .arr [])])])])]

/-- A client with the three keys configured. -/
def samplePubNub : PubNub Unit :=
  { Config := { PublishKey := "pub-key", SubscribeKey := "sub-key", SecretKey := "sec-key",
                UUID := "uuid" }
    telemetryManager := () }

/-- A client without a secret key. -/
def noSecretPubNub : PubNub Unit :=
  { Config := { PublishKey := "pub-key", SubscribeKey := "sub-key", UUID := "uuid" }
    telemetryManager := () }

/-- A validation kit whose errors are their messages. -/
def sampleKit : ValidationKit Unit String :=
  { newValidationError := fun _ msg => msg
    StrMissingPubKey := "Missing Publish Key"
    StrMissingSubKey := "Missing Subscribe Key"
    StrMissingSecretKey := "Missing Secret Key" }

/-- A `defaultQuery` that sets `uuid` only. -/
def sampleDefaultQuery (uuid : String) (_t : Unit) : Values := [("uuid", [uuid])]

/-- The options of `Grant().Read(false).Write(false).Manage(false).AuthKeys(["pam-key"])
.Channels(["ch"])`, as in `TestSubscribe403Error`. -/
def pamKeyOpts : grantOpts Unit :=
  (((((newGrantBuilder samplePubNub).Read false).Write false).Manage false).AuthKeys
    ["pam-key"]).Channels ["ch"] |>.opts

/-- The decoded body `[["hey-1","hey-two"],14991775432719844,14991868111600528]` of the second
scenario of the spec. -/
def stringHistoryBody : JSON :=
  .arr [.arr [.str "hey-1", .str "hey-two"], .num 14991775432719844, .num 14991868111600528]

/-- The decoded body `[[{"timetoken":15232761410327866,"message":"hey-1"},
{"message":[1,["one"]],"timetoken":1111}],15232761410327866,15232761410327866]`. -/
def envelopeHistoryBody : JSON :=
  .arr [.arr [.obj [("timetoken", .num 15232761410327866), ("message", .str "hey-1")],
              .obj [("message", .arr [.num 1, .arr [.str "one"]]), ("timetoken", .num 1111)]],
        .num 15232761410327866, .num 15232761410327866]

/-- The options of `initHistoryOpts` in the tests. -/
def initHistoryOpts : historyOpts Unit :=
  { pubnub := samplePubNub, Channel := "ch", Start := 100000, End := 200000, setStart := true,
    setEnd := true, Reverse := false, Count := 3, IncludeTimetoken := true }

/-- History options with only `Channel` set, as in `TestHistoryRequestBasic`. -/
def basicHistoryOpts {τ : Type} (pubnub : PubNub τ) (channel : String) : historyOpts τ :=
  { pubnub := pubnub, Channel := channel }

/-- The decoded body `{"payload":{"channel-groups":{"g1":{"r":1}}}}`. -/
def oneGroupBody : JSON :=
  .obj [("payload", .obj [("channel-groups", .obj [("g1", .obj [("r", .num 1)])])])]

/-- The payload of `stringGroupBody`. -/
def stringGroupPayload : GoMap JSON :=
  [("channel-groups", .str "cg"), ("ttl", .num 5), ("r", .num 1),
   ("auths", .obj [("k1", .obj [("r", .num 1)]), ("k2", .obj [("w", .num 1)])])]

/-- The decoded body
`{"payload":{"channel-groups":"cg","ttl":5,"r":1,"auths":{"k1":{"r":1},"k2":{"w":1}}}}`. -/
def stringGroupBody : JSON := .obj [("payload", .obj stringGroupPayload)]

/-- The response the decoder returns for `stringGroupBody`. -/
def stringGroupResponse : GrantResponse :=
  { TTL := 5
    ReadEnabled := true
    ChannelGroups :=
      [("cg", { Name := "cg"
                AuthKeys := [("k1", { ReadEnabled := true }), ("k2", { WriteEnabled := true })] })] }

/-- The payload of `singleChannelBody`. -/
def singleChannelPayload : GoMap JSON :=
  [("channel", .str "ch"), ("ttl", .num 5), ("r", .num 1),
   ("auths", .obj [("k1", .obj [("r", .num 1)]), ("k2", .obj [("w", .num 1)])])]

/-- The decoded body
`{"payload":{"channel":"ch","ttl":5,"r":1,"auths":{"k1":{"r":1},"k2":{"w":1}}}}`. -/
def singleChannelBody : JSON := .obj [("payload", .obj singleChannelPayload)]

/-- The response the decoder returns for `singleChannelBody`. -/
def singleChannelResponse : GrantResponse :=
  { TTL := 5
    ReadEnabled := true
    Channels :=
      [("ch", { Name := "ch"
                AuthKeys := [("k1", { ReadEnabled := true }), ("k2", { WriteEnabled := true })]
                TTL := 5 })] }

/-- The payload of `overlapBody`. -/
def overlapPayload : GoMap JSON :=
  [("channel", .str "ch"), ("ttl", .num 5), ("auths", .obj [("k1", .obj [("r", .num 1)])]),
   ("channels", .obj [("ch", .obj [("r", .num 1)]), ("c2", .obj [("w", .num 1)])])]

/-- The decoded body `{"payload":{"channel":"ch","ttl":5,"auths":{"k1":{"r":1}},
"channels":{"ch":{"r":1},"c2":{"w":1}}}}`, where `ch` occurs in both members. -/
def overlapBody : JSON := .obj [("payload", .obj overlapPayload)]

/-- The response the decoder returns for `overlapBody`. -/
def overlapResponse : GrantResponse :=
  { TTL := 5
    Channels := [("ch", { Name := "ch", ReadEnabled := true, TTL := 5 }),
                 ("c2", { Name := "c2", WriteEnabled := true, TTL := 5 })] }

/-- The member `channel-groups` of `twoGroupAuthsBody`. -/
def twoGroupAuthsMap : GoMap JSON :=
  [("g1", .obj [("auths", .obj [("k1", .obj [("r", .num 1)])])]),
   ("g2", .obj [("auths", .obj [("k2", .obj [("w", .num 1)])])])]

/-- The entity both groups of `twoGroupAuthsBody` are bound to. -/
def twoGroupAuthsEntity : PNPAMEntityData :=
  { Name := ""
    AuthKeys := [("k1", { ReadEnabled := true }), ("k2", { WriteEnabled := true })] }

/-- The response the decoder returns for `twoGroupAuthsBody`. -/
def twoGroupAuthsResponse : GrantResponse :=
  { ChannelGroups := [("g1", twoGroupAuthsEntity), ("g2", twoGroupAuthsEntity)] }

/-- The payload of `ttlBody`. -/
def ttlPayload : GoMap JSON :=
  [("channel-groups", .str "cg"), ("channel", .str "ch"), ("ttl", .num 5),
   ("auths", .obj [("k1", .obj [("r", .num 1), ("ttl", .num 7)])])]

/-- The decoded body `{"status":403,"error":true,"payload":{"channel-groups":"cg",
"channel":"ch","ttl":5,"auths":{"k1":{"r":1,"ttl":7}}}}`. -/
def ttlBody : JSON :=
  .obj [("status", .num 403), ("error", .bool true), ("payload", .obj ttlPayload)]

/-- The response the decoder returns for `ttlBody`. -/
def ttlResponse : GrantResponse :=
  { TTL := 5
    Channels := [("ch", { Name := "ch", AuthKeys := [("k1", { ReadEnabled := true })], TTL := 5 })]
    ChannelGroups := [("cg", { Name := "cg", AuthKeys := [("k1", { ReadEnabled := true })] })] }

/-- The decoded body `{"status":403,"payload":{"channel":5}}`. -/
def deniedBody : JSON := .obj [("status", .num 403), ("payload", .obj [("channel", .num 5)])]

/-- The decoded body `{"payload":{"channel":5}}`. -/
def bareBody : JSON := .obj [("payload", .obj [("channel", .num 5)])]

/-- The bytes of the text
`{"payload":{"channel":"ch","ttl":5,"r":1,"auths":{"k1":{"r":1},"k2":{"w":1}}}}`, which
decodes to `singleChannelBody`. -/
def singleChannelBytes : List UInt8 :=
  [123, 34, 112, 97, 121, 108, 111, 97, 100, 34, 58, 123, 34, 99, 104, 97, 110, 110, 101, 108,
   34, 58, 34, 99, 104, 34, 44, 34, 116, 116, 108, 34, 58, 53, 44, 34, 114, 34, 58, 49, 44, 34,
   97, 117, 116, 104, 115, 34, 58, 123, 34, 107, 49, 34, 58, 123, 34, 114, 34, 58, 49, 125, 44,
   34, 107, 50, 34, 58, 123, 34, 119, 34, 58, 49, 125, 125, 125, 125]

/-- An `executeRequest` that fails with a request error and the status 500. -/
def failingRequest (_o : grantOpts Unit) : List UInt8 × Nat × Option String :=
  ([], 500, some "request failed")

/-- An `executeRequest` that returns the body `singleChannelBytes` and the status 200. -/
def grantedRequest (_o : grantOpts Unit) : List UInt8 × Nat × Option String :=
  (singleChannelBytes, 200, none)

/-- An `executeRequest` that returns the body `{` and the status 200. -/
def garbledRequest (_o : grantOpts Unit) : List UInt8 × Nat × Option String :=
  ([123], 200, none)

/-- An `executeRequest` that returns the body `{}` and the status 200. -/
def answeringRequest (_o : grantOpts Unit) : List UInt8 × Nat × Option String :=
  ([123, 125], 200, none)

/-- A `json.Unmarshal` on the three bodies above: `singleChannelBytes` and `{}` decode,
`{` does not. -/
def sampleUnmarshal (body : List UInt8) : Except String JSON :=
  if body = singleChannelBytes then .ok singleChannelBody
  else if body = [123, 125] then .ok (.obj [])
  else .error "unexpected end of JSON input"

/-- The response returned by a call, when it returned one. -/
def returnedResponse {σ ε : Type}
    (r : Except String (Option GrantResponse × σ × Option (ResponseParsingError ε))) :
    Option GrantResponse :=
  match r with
  | .ok (resp, _, _) => resp
  | .error _ => none

/-! ## Theorems -/

/-- C1, the defect: on `{"payload":{"channels":{"c":{"r":1,"auths":[]}}}}`, where
`payload.channels` is an object and the value of `c` is an object with `r` equal to 1, the
decoder does not succeed with the flags of `c`: the unchecked type assertion on `auths` at
line 541 panics and no response is returned.  The assertions next to it (lines 403 and 538)
use the comma-ok form. -/
theorem channels_flags_panics :
    GoMap.get? (asMap arrayAuthsBody) "payload"
      = some (.obj [("channels", .obj [("c", .obj [("r", .num 1), ("auths", .arr [])])])]) ∧
    @newGrantResponse Unit String (.ok arrayAuthsBody) [] () = .error conversionPanic ∧
    ¬ ∃ resp st err, @newGrantResponse Unit String (.ok arrayAuthsBody) [] ()
        = .ok (some resp, st, err) := by
  refine ⟨rfl, rfl, ?_⟩
  rintro ⟨resp, st, err, h⟩
  have hpanic : @newGrantResponse Unit String (.ok arrayAuthsBody) [] ()
      = .error conversionPanic := rfl
  rw [hpanic] at h
  cases h

/-- The channel flags on the bodies the unchecked assertions spare: let the payload of the
body be the object `p`, `p.channels` the object `cm` (a Go map, so with distinct keys) and
`c` a channel of `cm` whose value is the object `vm`.
If the body has the grant shape the decoder returns a response; and whenever it returns a
response `resp`, `resp.Channels[c]` exists with `Name = c` and with `ReadEnabled` /
`WriteEnabled` / `ManageEnabled` true exactly when `vm` has the member `r` / `w` / `m` equal
to the number 1. -/
theorem channels_flags {σ ε : Type} (value : JSON) (jsonBytes : List UInt8) (status : σ)
    (p cm : GoMap JSON) (c : String) (vm : GoMap JSON)
    (hp : GoMap.get? (asMap value) "payload" = some (.obj p))
    (hcm : p.get? "channels" = some (.obj cm)) (hnd : (GoMap.keys cm).Nodup)
    (hc : (c, JSON.obj vm) ∈ cm) :
    (grantShape value = true →
      ∃ resp, @newGrantResponse σ ε (.ok value) jsonBytes status
        = .ok (some resp, status, none)) ∧
    ∀ resp, @newGrantResponse σ ε (.ok value) jsonBytes status = .ok (some resp, status, none) →
      ∃ e, resp.Channels.get? c = some e ∧ e.Name = c ∧
        (e.ReadEnabled = true ↔ GoMap.get? vm "r" = some (.num 1)) ∧
        (e.WriteEnabled = true ↔ GoMap.get? vm "w" = some (.num 1)) ∧
        (e.ManageEnabled = true ↔ GoMap.get? vm "m" = some (.num 1)) := by
  constructor
  · intro hshape
    obtain ⟨resp, hd⟩ := decodeGrant_returns hshape
    exact ⟨resp, newGrantResponse_of_decodeGrant jsonBytes status hd⟩
  · intro resp hret
    obtain ⟨e, hf, hget⟩ := channels_get? (newGrantResponse_ok hret) hp hcm hnd hc
    obtain ⟨hname, hr, hw, hm, -⟩ := fetchChannel_ok hf
    refine ⟨e, hget, hname, ?_, ?_, ?_⟩
    · rw [hr]
      exact readFlag_false_iff vm "r"
    · rw [hw]
      exact readFlag_false_iff vm "w"
    · rw [hm]
      exact readFlag_false_iff vm "m"

/-- The channel flags of `sampleBody` and its channel `ch1`, which has `r = 1`, `w = 1` and
no `m`: the body has the grant shape, the call returns `sampleResponse`, and the entry of
`ch1` has the name `ch1` and the flags of its own value. -/
theorem channels_flags_witness :
    GoMap.get? (asMap sampleBody) "payload" = some (.obj samplePayload) ∧
    GoMap.get? samplePayload "channels" = some (.obj sampleChannels) ∧
    (GoMap.keys sampleChannels).Nodup ∧
    grantShape sampleBody = true ∧
    @newGrantResponse Unit String (.ok sampleBody) [] () = .ok (some sampleResponse, (), none) ∧
    ∃ e, GoMap.get? sampleResponse.Channels "ch1" = some e ∧ e.Name = "ch1" ∧
      (e.ReadEnabled = true ↔
        GoMap.get? [("r", JSON.num 1), ("w", .num 1),
          ("auths", .obj [("key1", .obj [("r", .num 1)]),
                          ("key2", .obj [("w", .num 1), ("m", .num 1)])])] "r"
          = some (.num 1)) ∧
      (e.WriteEnabled = true ↔
        GoMap.get? [("r", JSON.num 1), ("w", .num 1),
          ("auths", .obj [("key1", .obj [("r", .num 1)]),
                          ("key2", .obj [("w", .num 1), ("m", .num 1)])])] "w"
          = some (.num 1)) ∧
      (e.ManageEnabled = true ↔
        GoMap.get? [("r", JSON.num 1), ("w", .num 1),
          ("auths", .obj [("key1", .obj [("r", .num 1)]),
                          ("key2", .obj [("w", .num 1), ("m", .num 1)])])] "m"
          = some (.num 1)) :=
  ⟨rfl, rfl, by decide, by decide, rfl,
    (@channels_flags Unit String sampleBody [] () samplePayload sampleChannels "ch1" _ rfl rfl
      (by decide) (List.mem_cons_self _ _)).2 sampleResponse rfl⟩

/-- C2: when the decoder returns a response for a body whose payload is the object `p`, for
every channel `c` of the object `p.channels` whose member `auths` is the object `am` (Go
maps, so with distinct keys), the keys of `resp.Channels[c].AuthKeys` are exactly the member
names of `am`, and for each auth key `k` of `am` its entry is an object and
`AuthKeys[k].ReadEnabled` / `WriteEnabled` / `ManageEnabled` is true exactly when that entry
has `r` / `w` / `m` equal to the number 1. -/
theorem channel_authKeys {σ ε : Type} (value : JSON) (jsonBytes : List UInt8) (status : σ)
    (resp : GrantResponse) (p cm : GoMap JSON) (c : String) (v : JSON) (am : GoMap JSON)
    (hret : @newGrantResponse σ ε (.ok value) jsonBytes status = .ok (some resp, status, none))
    (hp : GoMap.get? (asMap value) "payload" = some (.obj p))
    (hcm : p.get? "channels" = some (.obj cm)) (hnd : (GoMap.keys cm).Nodup)
    (hc : (c, v) ∈ cm) (hauths : GoMap.get? (asMap v) "auths" = some (.obj am))
    (hand : (GoMap.keys am).Nodup) :
    ∃ e, resp.Channels.get? c = some e ∧
      (∀ k, k ∈ GoMap.keys e.AuthKeys ↔ k ∈ GoMap.keys am) ∧
      (GoMap.keys e.AuthKeys).Nodup ∧
      ∀ k a, (k, a) ∈ am → ∃ m kd, a = JSON.obj m ∧ e.AuthKeys.get? k = some kd ∧
        (kd.ReadEnabled = true ↔ GoMap.get? m "r" = some (.num 1)) ∧
        (kd.WriteEnabled = true ↔ GoMap.get? m "w" = some (.num 1)) ∧
        (kd.ManageEnabled = true ↔ GoMap.get? m "m" = some (.num 1)) := by
  obtain ⟨e, hf, hget⟩ := channels_get? (newGrantResponse_ok hret) hp hcm hnd hc
  have hl := (fetchChannel_ok hf).2.2.2.2.2.1 am hauths
  refine ⟨e, hget, ?_, ?_, ?_⟩
  · intro k
    rw [authsLoop_mem_keys hl k]
    simp [GoMap.keys]
  · exact authsLoop_nodup_keys hl (by simp [GoMap.keys])
  · intro k a hka
    obtain ⟨m, hm⟩ := authsLoop_all_obj hl (k, a) hka
    simp only at hm
    subst hm
    refine ⟨m, keyDataOf m, rfl, authsLoop_get?_of_mem hl hand hka, ?_, ?_, ?_⟩
    · exact readFlag_false_iff m "r"
    · exact readFlag_false_iff m "w"
    · exact readFlag_false_iff m "m"

/-- C2 on `sampleBody` and its channel `ch1`, whose `auths` lists `key1` (with `r = 1`) and
`key2` (with `w = 1`, `m = 1`): the entry of `ch1` has exactly these two auth keys. -/
theorem channel_authKeys_witness :
    @newGrantResponse Unit String (.ok sampleBody) [] () = .ok (some sampleResponse, (), none) ∧
    GoMap.get? (asMap sampleBody) "payload" = some (.obj samplePayload) ∧
    GoMap.get? samplePayload "channels" = some (.obj sampleChannels) ∧
    (GoMap.keys sampleChannels).Nodup ∧
    (GoMap.keys [("key1", JSON.obj [("r", .num 1)]),
      ("key2", .obj [("w", .num 1), ("m", .num 1)])]).Nodup ∧
    ∃ e, GoMap.get? sampleResponse.Channels "ch1" = some e ∧
      (∀ k, k ∈ GoMap.keys e.AuthKeys ↔
        k ∈ GoMap.keys [("key1", JSON.obj [("r", .num 1)]),
          ("key2", .obj [("w", .num 1), ("m", .num 1)])]) ∧
      (GoMap.keys e.AuthKeys).Nodup ∧
      ∀ k a, (k, a) ∈ [("key1", JSON.obj [("r", .num 1)]),
          ("key2", .obj [("w", .num 1), ("m", .num 1)])] →
        ∃ m kd, a = JSON.obj m ∧ GoMap.get? e.AuthKeys k = some kd ∧
          (kd.ReadEnabled = true ↔ GoMap.get? m "r" = some (.num 1)) ∧
          (kd.WriteEnabled = true ↔ GoMap.get? m "w" = some (.num 1)) ∧
          (kd.ManageEnabled = true ↔ GoMap.get? m "m" = some (.num 1)) :=
  ⟨rfl, rfl, rfl, by decide, by decide,
    @channel_authKeys Unit String sampleBody [] () sampleResponse samplePayload sampleChannels
      "ch1" _ _ rfl rfl rfl (by decide) (List.mem_cons_self _ _) rfl (by decide)⟩

/-- C3: when the decoder returns a response for a body whose payload is the object `p`,
every entry of `resp.Channels` has `TTL = t` if `p.ttl` is the integer-valued number `t`
(within the range of a Go `int`), and `TTL = 0` if `p.ttl` is absent or is not a number. -/
theorem channels_ttl {σ ε : Type} (value : JSON) (jsonBytes : List UInt8) (status : σ)
    (resp : GrantResponse) (p : GoMap JSON)
    (hret : @newGrantResponse σ ε (.ok value) jsonBytes status = .ok (some resp, status, none))
    (hp : GoMap.get? (asMap value) "payload" = some (.obj p)) :
    (∀ t : Int, -(2 : Int) ^ 63 ≤ t → t < (2 : Int) ^ 63 → p.get? "ttl" = some (.num (t : ℚ)) →
      ∀ c e, resp.Channels.get? c = some e → e.TTL = t) ∧
    (p.get? "ttl" = none → ∀ c e, resp.Channels.get? c = some e → e.TTL = 0) ∧
    (∀ v, p.get? "ttl" = some v → (∀ x, v ≠ .num x) →
      ∀ c e, resp.Channels.get? c = some e → e.TTL = 0) := by
  have hd := newGrantResponse_ok hret
  refine ⟨?_, ?_, ?_⟩
  · intro t hlo hhi ht c e hget
    rw [entry_ttl_eq_readTTL hd hp hget, readTTL_of_int p 0 t hlo hhi ht]
  · intro ht c e hget
    rw [entry_ttl_eq_readTTL hd hp hget, readTTL_of_absent p 0 ht]
  · intro v ht hv c e hget
    rw [entry_ttl_eq_readTTL hd hp hget, readTTL_of_not_num p 0 v ht hv]

/-- C3 on `sampleBody`, whose `ttl` is 1440: the call returns `sampleResponse`, and every
entry of its `Channels` has `TTL = 1440`. -/
theorem channels_ttl_witness :
    @newGrantResponse Unit String (.ok sampleBody) [] () = .ok (some sampleResponse, (), none) ∧
    GoMap.get? (asMap sampleBody) "payload" = some (.obj samplePayload) ∧
    GoMap.get? sampleResponse.Channels "ch2"
      = some { Name := "ch2", ManageEnabled := true, TTL := 1440 } ∧
    ∀ c e, GoMap.get? sampleResponse.Channels c = some e → e.TTL = 1440 :=
  ⟨rfl, rfl, rfl,
    (@channels_ttl Unit String sampleBody [] () sampleResponse samplePayload rfl rfl).1 1440
      (by decide) (by decide) rfl⟩

/-- C4: when the decoder returns a response for a body whose payload is the object `p`, the
keys of `resp.ChannelGroups` are the member names of `p["channel-groups"]` if that is an
object, the one string `s` if it is the string `s`, and there is no key if the member is
absent or has another JSON type. -/
theorem channelGroups_keys {σ ε : Type} (value : JSON) (jsonBytes : List UInt8) (status : σ)
    (resp : GrantResponse) (p : GoMap JSON)
    (hret : @newGrantResponse σ ε (.ok value) jsonBytes status = .ok (some resp, status, none))
    (hp : GoMap.get? (asMap value) "payload" = some (.obj p)) :
    (∀ gm, p.get? "channel-groups" = some (.obj gm) →
      ∀ g, g ∈ GoMap.keys resp.ChannelGroups ↔ g ∈ GoMap.keys gm) ∧
    (∀ s, p.get? "channel-groups" = some (.str s) → GoMap.keys resp.ChannelGroups = [s]) ∧
    (p.get? "channel-groups" = none → GoMap.keys resp.ChannelGroups = []) ∧
    (∀ v, p.get? "channel-groups" = some v → (∀ gm, v ≠ .obj gm) → (∀ s, v ≠ .str s) →
      GoMap.keys resp.ChannelGroups = []) := by
  obtain ⟨p', ch0, groups, chans, hp', -, h1, -, hresp⟩ := decodeGrant_ok (newGrantResponse_ok hret)
  rw [hp] at hp'
  cases hp'
  subst hresp
  exact channelGroupsBranch_keys h1

/-- C4 on `sampleBody`, whose `channel-groups` is an object with the one member `cg1`. -/
theorem channelGroups_keys_witness :
    @newGrantResponse Unit String (.ok sampleBody) [] () = .ok (some sampleResponse, (), none) ∧
    GoMap.get? (asMap sampleBody) "payload" = some (.obj samplePayload) ∧
    ∀ g, g ∈ GoMap.keys sampleResponse.ChannelGroups ↔
      g ∈ GoMap.keys [("cg1", JSON.obj [("r", .num 1)])] :=
  ⟨rfl, rfl,
    (@channelGroups_keys Unit String sampleBody [] () sampleResponse samplePayload rfl rfl).1
      _ rfl⟩

/-- C7: when the decoder returns a response for a body whose payload is the object `p`,
`resp.Level` and `resp.SubscribeKey` are `p.level` and `p.subscribe_key` if those are strings
and `""` otherwise; `resp.ReadEnabled` / `WriteEnabled` / `ManageEnabled` are true exactly
when `p.r` / `p.w` / `p.m` is the number 1; and `resp.TTL` is `p.ttl` for an integer-valued
`ttl` (within the range of a Go `int`) and 0 when `ttl` is absent. -/
theorem response_top_level {σ ε : Type} (value : JSON) (jsonBytes : List UInt8) (status : σ)
    (resp : GrantResponse) (p : GoMap JSON)
    (hret : @newGrantResponse σ ε (.ok value) jsonBytes status = .ok (some resp, status, none))
    (hp : GoMap.get? (asMap value) "payload" = some (.obj p)) :
    (∀ s, p.get? "level" = some (.str s) → resp.Level = s) ∧
    ((∀ s, p.get? "level" ≠ some (.str s)) → resp.Level = "") ∧
    (∀ s, p.get? "subscribe_key" = some (.str s) → resp.SubscribeKey = s) ∧
    ((∀ s, p.get? "subscribe_key" ≠ some (.str s)) → resp.SubscribeKey = "") ∧
    (resp.ReadEnabled = true ↔ p.get? "r" = some (.num 1)) ∧
    (resp.WriteEnabled = true ↔ p.get? "w" = some (.num 1)) ∧
    (resp.ManageEnabled = true ↔ p.get? "m" = some (.num 1)) ∧
    (∀ t : Int, -(2 : Int) ^ 63 ≤ t → t < (2 : Int) ^ 63 → p.get? "ttl" = some (.num (t : ℚ)) →
      resp.TTL = t) ∧
    (p.get? "ttl" = none → resp.TTL = 0) := by
  obtain ⟨p', ch0, groups, chans, hp', -, -, -, hresp⟩ := decodeGrant_ok (newGrantResponse_ok hret)
  rw [hp] at hp'
  cases hp'
  subst hresp
  exact ⟨(asString_index p "level").1, (asString_index p "level").2,
    (asString_index p "subscribe_key").1, (asString_index p "subscribe_key").2,
    readFlag_false_iff p "r", readFlag_false_iff p "w", readFlag_false_iff p "m",
    fun t hlo hhi ht => readTTL_of_int p 0 t hlo hhi ht, fun ht => readTTL_of_absent p 0 ht⟩

/-- C7 on `sampleBody`: level `channel`, `r = 1`, `w = 0`, no `m`, `ttl = 1440`. -/
theorem response_top_level_witness :
    @newGrantResponse Unit String (.ok sampleBody) [] () = .ok (some sampleResponse, (), none) ∧
    GoMap.get? (asMap sampleBody) "payload" = some (.obj samplePayload) ∧
    sampleResponse.Level = "channel" ∧
    (sampleResponse.ReadEnabled = true ↔ GoMap.get? samplePayload "r" = some (.num 1)) ∧
    (sampleResponse.WriteEnabled = true ↔ GoMap.get? samplePayload "w" = some (.num 1)) ∧
    sampleResponse.TTL = 1440 :=
  have h := @response_top_level Unit String sampleBody [] () sampleResponse samplePayload rfl rfl
  ⟨rfl, rfl, h.1 "channel" rfl, h.2.2.2.2.1, h.2.2.2.2.2.1,
    h.2.2.2.2.2.2.2.1 1440 (by decide) (by decide) rfl⟩

/-- C5 (defect of the code): with the groups `g1` carrying `r = 1` and `g2` carrying `r = 0`,
the decoder returns the same flags for both groups, in either iteration order: visiting `g1`
first leaves `ChannelGroups["g1"].ReadEnabled` false although its own `r` is 1, and visiting
`g2` first leaves `ChannelGroups["g2"].ReadEnabled` true although its own `r` is 0. -/
theorem channelGroups_flags_shared :
    ((returnedResponse (@newGrantResponse Unit String (.ok twoGroupsBody) [] ())).bind
        fun resp => (resp.ChannelGroups.get? "g1").map fun e => e.ReadEnabled) = some false ∧
    ((returnedResponse (@newGrantResponse Unit String (.ok twoGroupsBody) [] ())).bind
        fun resp => (resp.ChannelGroups.get? "g2").map fun e => e.ReadEnabled) = some false ∧
    ((returnedResponse (@newGrantResponse Unit String (.ok twoGroupsBodyRev) [] ())).bind
        fun resp => (resp.ChannelGroups.get? "g1").map fun e => e.ReadEnabled) = some true ∧
    ((returnedResponse (@newGrantResponse Unit String (.ok twoGroupsBodyRev) [] ())).bind
        fun resp => (resp.ChannelGroups.get? "g2").map fun e => e.ReadEnabled) = some true := by
  refine ⟨?_, ?_, ?_, ?_⟩ <;> rfl

/-- C6 (defect of the code): with group `g1` listing the auth key `k1` and group `g2` listing
`k2`, both entries of `ChannelGroups` carry both auth keys, in either iteration order. -/
theorem channelGroups_authKeys_shared :
    ((returnedResponse (@newGrantResponse Unit String (.ok twoGroupAuthsBody) [] ())).bind
        fun resp => (resp.ChannelGroups.get? "g1").map fun e => e.AuthKeys.keys)
      = some ["k1", "k2"] ∧
    ((returnedResponse (@newGrantResponse Unit String (.ok twoGroupAuthsBody) [] ())).bind
        fun resp => (resp.ChannelGroups.get? "g2").map fun e => e.AuthKeys.keys)
      = some ["k1", "k2"] ∧
    ((returnedResponse (@newGrantResponse Unit String (.ok twoGroupAuthsBodyRev) [] ())).bind
        fun resp => (resp.ChannelGroups.get? "g1").map fun e => e.AuthKeys.keys)
      = some ["k2", "k1"] ∧
    ((returnedResponse (@newGrantResponse Unit String (.ok twoGroupAuthsBodyRev) [] ())).bind
        fun resp => (resp.ChannelGroups.get? "g2").map fun e => e.AuthKeys.keys)
      = some ["k2", "k1"] := by
  refine ⟨?_, ?_, ?_, ?_⟩ <;> rfl

/-- C8 (defect of the code): the decoder panics on valid JSON bodies that do not have the
grant shape: `[]`, `{}`, `{"payload":1}`, `{"payload":{"channel":1}}`,
`{"payload":{"channel":"c","auths":{"k":1}}}`, `{"payload":{"channel-groups":{"g":1}}}`,
`{"payload":{"channels":{"c":{"auths":1}}}}` and
`{"payload":{"channels":{"c":{"auths":{"k":1}}}}}`. -/
theorem newGrantResponse_panics :
    @newGrantResponse Unit String (.ok (.arr [])) [] () = .error conversionPanic ∧
    @newGrantResponse Unit String (.ok (.obj [])) [] () = .error conversionPanic ∧
    @newGrantResponse Unit String (.ok (.obj [("payload", .num 1)])) [] ()
      = .error conversionPanic ∧
    @newGrantResponse Unit String (.ok (.obj [("payload", .obj [("channel", .num 1)])])) [] ()
      = .error conversionPanic ∧
    @newGrantResponse Unit String (.ok (.obj [("payload",
        .obj [("channel", .str "c"), ("auths", .obj [("k", .num 1)])])])) [] ()
      = .error conversionPanic ∧
    @newGrantResponse Unit String (.ok (.obj [("payload",
        .obj [("channel-groups", .obj [("g", .num 1)])])])) [] ()
      = .error conversionPanic ∧
    @newGrantResponse Unit String (.ok (.obj [("payload",
        .obj [("channels", .obj [("c", .obj [("auths", .num 1)])])])])) [] ()
      = .error conversionPanic ∧
    @newGrantResponse Unit String (.ok (.obj [("payload",
        .obj [("channels", .obj [("c", .obj [("auths", .obj [("k", .num 1)])])])])])) [] ()
      = .error conversionPanic := by
  refine ⟨?_, ?_, ?_, ?_, ?_, ?_, ?_, ?_⟩ <;> rfl

/-- C9: when `json.Unmarshal` fails on the body, the decoder returns the nil response, the
status it was given, and a response-parsing error that carries the body and the library's
error; no response is built. -/
theorem newGrantResponse_invalid_json {σ ε : Type} (err : ε) (jsonBytes : List UInt8)
    (status : σ) :
    newGrantResponse (.error err) jsonBytes status =
      .ok (none, status,
        some { message := "Error unmarshalling response", body := jsonBytes,
               origError := err }) := by
  rfl

/-- C10: `buildQuery` returns a nil error, and in its query each of `r`, `w`, `m` is bound to
exactly one value, `"1"` when the option is true and `"0"` when it is false. -/
theorem buildQuery_flags {τ : Type} (defaultQuery : String → τ → Values) (now : Int)
    (o : grantOpts τ) :
    (o.buildQuery defaultQuery now).2 = none ∧
    (o.buildQuery defaultQuery now).1.get? "r" = some [if o.Read then "1" else "0"] ∧
    (o.buildQuery defaultQuery now).1.get? "w" = some [if o.Write then "1" else "0"] ∧
    (o.buildQuery defaultQuery now).1.get? "m" = some [if o.Manage then "1" else "0"] := by
  refine ⟨rfl, ?_, ?_, ?_⟩
  · simp only [grantOpts.buildQuery]
    rw [Values.get?_Set_of_ne _ (by decide), Values.get?_ite_ite_of_ne _ (by decide),
      Values.get?_ite_of_ne _ (by decide), Values.get?_ite_of_ne _ (by decide),
      Values.get?_ite_of_ne _ (by decide), Values.get?_ite_Set_of_ne _ (by decide), Values.get?_ite_Set_of_ne _ (by decide),
      Values.get?_ite_Set_self]
  · simp only [grantOpts.buildQuery]
    rw [Values.get?_Set_of_ne _ (by decide), Values.get?_ite_ite_of_ne _ (by decide),
      Values.get?_ite_of_ne _ (by decide), Values.get?_ite_of_ne _ (by decide),
      Values.get?_ite_of_ne _ (by decide), Values.get?_ite_Set_of_ne _ (by decide),
      Values.get?_ite_Set_self]
  · simp only [grantOpts.buildQuery]
    rw [Values.get?_Set_of_ne _ (by decide), Values.get?_ite_ite_of_ne _ (by decide),
      Values.get?_ite_of_ne _ (by decide), Values.get?_ite_of_ne _ (by decide),
      Values.get?_ite_of_ne _ (by decide), Values.get?_ite_Set_self]

/-- C11: `buildQuery` binds `auth` (resp. `channel`, `channel-group`) to the elements of
`AuthKeys` (resp. `Channels`, `ChannelGroups`) joined by `","` in their order when the list is
non-empty, and leaves the key as `defaultQuery` made it when the list is empty; with
`AuthKeys ["pam-key"]` and `Channels ["ch"]` the query has `auth=pam-key`, `channel=ch` and no
`channel-group`. -/
theorem buildQuery_lists {τ : Type} (defaultQuery : String → τ → Values) (now : Int)
    (o : grantOpts τ) :
    ((o.buildQuery defaultQuery now).1.get? "auth" =
      if o.AuthKeys.length > 0 then some [String.intercalate "," o.AuthKeys]
      else (o.baseQuery defaultQuery).get? "auth") ∧
    ((o.buildQuery defaultQuery now).1.get? "channel" =
      if o.Channels.length > 0 then some [String.intercalate "," o.Channels]
      else (o.baseQuery defaultQuery).get? "channel") ∧
    ((o.buildQuery defaultQuery now).1.get? "channel-group" =
      if o.ChannelGroups.length > 0 then some [String.intercalate "," o.ChannelGroups]
      else (o.baseQuery defaultQuery).get? "channel-group") ∧
    String.intercalate "," ["a", "b", "c"] = "a,b,c" ∧
    (pamKeyOpts.buildQuery sampleDefaultQuery 0).1.get? "auth" = some ["pam-key"] ∧
    (pamKeyOpts.buildQuery sampleDefaultQuery 0).1.get? "channel" = some ["ch"] ∧
    (pamKeyOpts.buildQuery sampleDefaultQuery 0).1.get? "channel-group" = none :=
  ⟨buildQuery_get?_auth defaultQuery now o, buildQuery_get?_channel defaultQuery now o,
    buildQuery_get?_channelGroup defaultQuery now o, by decide, by decide, by decide,
    by decide⟩

/-- C12: after `TTL(0)` the options have `setTTL` and `TTL = 0`; `validate` returns nil
exactly when the three keys are non-empty, whatever the TTL; and `buildQuery` returns a nil
error and a query with `ttl` bound to `"0"`. -/
theorem ttl_zero_is_sent {τ E : Type} (kit : ValidationKit τ E)
    (defaultQuery : String → τ → Values) (now : Int) (b : grantBuilder τ) :
    (b.TTL 0).opts.setTTL = true ∧ (b.TTL 0).opts.TTL = 0 ∧
    ((b.TTL 0).opts.validate kit = none ↔ b.opts.validate kit = none) ∧
    ((b.TTL 0).opts.validate kit = none ↔
      b.opts.pubnub.Config.PublishKey ≠ "" ∧ b.opts.pubnub.Config.SubscribeKey ≠ "" ∧
        b.opts.pubnub.Config.SecretKey ≠ "") ∧
    ((b.TTL 0).opts.buildQuery defaultQuery now).2 = none ∧
    ((b.TTL 0).opts.buildQuery defaultQuery now).1.get? "ttl" = some ["0"] := by
  refine ⟨rfl, rfl, ?_, ?_, rfl, ?_⟩
  · rw [validate_eq_none_iff, validate_eq_none_iff]
    rfl
  · rw [validate_eq_none_iff]
    rfl
  · rw [buildQuery_get?_ttl]
    simp [grantBuilder.TTL]
    rfl

/-- C13 as stated fails: with the three keys configured and `TTL(-1)`, `validate` returns nil,
`buildQuery` returns a nil error, and the query carries `ttl=-1`. -/
theorem ttl_minus_one_counterexample :
    ((newGrantBuilder samplePubNub).TTL (-1)).opts.setTTL = true ∧
    ((newGrantBuilder samplePubNub).TTL (-1)).opts.TTL = -1 ∧
    ((newGrantBuilder samplePubNub).TTL (-1)).opts.validate sampleKit = none ∧
    (((newGrantBuilder samplePubNub).TTL (-1)).opts.buildQuery sampleDefaultQuery 0).2 = none ∧
    (((newGrantBuilder samplePubNub).TTL (-1)).opts.buildQuery sampleDefaultQuery 0).1.get? "ttl"
      = some ["-1"] := by
  refine ⟨rfl, rfl, ?_, rfl, ?_⟩ <;> decide

/-- C13, amended: for every `grantOpts` with `setTTL` true and `TTL = -1`, `validate` returns
nil exactly when the three keys are non-empty (it does not read the TTL), `buildQuery`
returns a nil error, and the query carries `ttl=-1`. -/
theorem ttl_minus_one_is_sent {τ E : Type} (kit : ValidationKit τ E)
    (defaultQuery : String → τ → Values) (now : Int) (o : grantOpts τ)
    (hset : o.setTTL = true) (httl : o.TTL = -1) :
    (o.validate kit = none ↔
      o.pubnub.Config.PublishKey ≠ "" ∧ o.pubnub.Config.SubscribeKey ≠ "" ∧
        o.pubnub.Config.SecretKey ≠ "") ∧
    (o.buildQuery defaultQuery now).2 = none ∧
    (o.buildQuery defaultQuery now).1.get? "ttl" = some ["-1"] := by
  refine ⟨validate_eq_none_iff kit o, rfl, ?_⟩
  rw [buildQuery_get?_ttl, hset, httl]
  simp
  rfl

/-- C13, amended, on the options of `TTL(-1)` with the three keys configured. -/
theorem ttl_minus_one_is_sent_witness :
    ((newGrantBuilder samplePubNub).TTL (-1)).opts.setTTL = true ∧
    ((newGrantBuilder samplePubNub).TTL (-1)).opts.TTL = -1 ∧
    (((newGrantBuilder samplePubNub).TTL (-1)).opts.validate sampleKit = none ↔
      samplePubNub.Config.PublishKey ≠ "" ∧ samplePubNub.Config.SubscribeKey ≠ "" ∧
        samplePubNub.Config.SecretKey ≠ "") ∧
    (((newGrantBuilder samplePubNub).TTL (-1)).opts.buildQuery sampleDefaultQuery 7).2 = none ∧
    (((newGrantBuilder samplePubNub).TTL (-1)).opts.buildQuery sampleDefaultQuery 7).1.get? "ttl"
      = some ["-1"] :=
  ⟨rfl, rfl,
    ttl_minus_one_is_sent sampleKit sampleDefaultQuery 7
      ((newGrantBuilder samplePubNub).TTL (-1)).opts rfl rfl⟩

/-- C14 as stated fails: with the three keys configured and `TTL(525601)`, `validate` returns
nil, `buildQuery` returns a nil error, and the query carries `ttl=525601`. -/
theorem ttl_above_max_counterexample :
    ((newGrantBuilder samplePubNub).TTL 525601).opts.setTTL = true ∧
    ((newGrantBuilder samplePubNub).TTL 525601).opts.TTL > 525600 ∧
    ((newGrantBuilder samplePubNub).TTL 525601).opts.validate sampleKit = none ∧
    (((newGrantBuilder samplePubNub).TTL 525601).opts.buildQuery sampleDefaultQuery 0).2 = none ∧
    (((newGrantBuilder samplePubNub).TTL 525601).opts.buildQuery sampleDefaultQuery 0).1.get?
      "ttl" = some ["525601"] := by
  refine ⟨rfl, ?_, ?_, rfl, ?_⟩ <;> decide

/-- C14, amended: for every `grantOpts` with `setTTL` true and `TTL > 525600`, `validate`
returns nil exactly when the three keys are non-empty (it does not read the TTL),
`buildQuery` returns a nil error, and the query carries that TTL in decimal. -/
theorem ttl_above_max_is_sent {τ E : Type} (kit : ValidationKit τ E)
    (defaultQuery : String → τ → Values) (now : Int) (o : grantOpts τ)
    (hset : o.setTTL = true) (httl : o.TTL > 525600) :
    (o.validate kit = none ↔
      o.pubnub.Config.PublishKey ≠ "" ∧ o.pubnub.Config.SubscribeKey ≠ "" ∧
        o.pubnub.Config.SecretKey ≠ "") ∧
    (o.buildQuery defaultQuery now).2 = none ∧
    (o.buildQuery defaultQuery now).1.get? "ttl" = some [toString o.TTL] := by
  refine ⟨validate_eq_none_iff kit o, rfl, ?_⟩
  have hge : o.TTL ≥ -1 := by omega
  rw [buildQuery_get?_ttl, if_pos hset, if_pos hge]

/-- C14, amended, on the options of `TTL(525601)` with the three keys configured. -/
theorem ttl_above_max_is_sent_witness :
    ((newGrantBuilder samplePubNub).TTL 525601).opts.setTTL = true ∧
    ((newGrantBuilder samplePubNub).TTL 525601).opts.TTL > 525600 ∧
    (((newGrantBuilder samplePubNub).TTL 525601).opts.validate sampleKit = none ↔
      samplePubNub.Config.PublishKey ≠ "" ∧ samplePubNub.Config.SubscribeKey ≠ "" ∧
        samplePubNub.Config.SecretKey ≠ "") ∧
    (((newGrantBuilder samplePubNub).TTL 525601).opts.buildQuery sampleDefaultQuery 7).2
      = none ∧
    (((newGrantBuilder samplePubNub).TTL 525601).opts.buildQuery sampleDefaultQuery 7).1.get?
      "ttl" = some [toString (525601 : Int)] :=
  ⟨rfl, by decide,
    ttl_above_max_is_sent sampleKit sampleDefaultQuery 7
      ((newGrantBuilder samplePubNub).TTL 525601).opts rfl (by decide)⟩

/-- C15: `validate` returns nil if and only if `PublishKey`, `SubscribeKey` and `SecretKey`
are all non-empty; otherwise it returns a validation error built by `newValidationError`;
and whether it returns nil is the same for any two options with the same configuration,
whatever their channels, auth keys, flags and TTL. -/
theorem validate_keys {τ E : Type} (kit : ValidationKit τ E) (o : grantOpts τ) :
    (o.validate kit = none ↔
      o.pubnub.Config.PublishKey ≠ "" ∧ o.pubnub.Config.SubscribeKey ≠ "" ∧
        o.pubnub.Config.SecretKey ≠ "") ∧
    (o.validate kit ≠ none → ∃ msg, o.validate kit = some (kit.newValidationError o msg)) ∧
    (∀ o' : grantOpts τ, o'.pubnub.Config = o.pubnub.Config →
      (o'.validate kit = none ↔ o.validate kit = none)) := by
  refine ⟨validate_eq_none_iff kit o, ?_, ?_⟩
  · intro hne
    have hkeys := mt (validate_eq_none_iff kit o).2 hne
    unfold grantOpts.validate
    split_ifs with h1 h2 h3
    · exact ⟨_, rfl⟩
    · exact ⟨_, rfl⟩
    · exact ⟨_, rfl⟩
    · exact absurd ⟨h1, h2, h3⟩ hkeys
  · intro o' hcfg
    rw [validate_eq_none_iff, validate_eq_none_iff, hcfg]

/-- C15 on a client without a secret key: `validate` returns an error, and returns an error
as well after `TTL(0)` and `Channels(["ch"])`, which leave the configuration as it is. -/
theorem validate_keys_witness :
    (newGrantBuilder noSecretPubNub).opts.validate sampleKit ≠ none ∧
    (∃ msg, (newGrantBuilder noSecretPubNub).opts.validate sampleKit
      = some (sampleKit.newValidationError (newGrantBuilder noSecretPubNub).opts msg)) ∧
    (((newGrantBuilder noSecretPubNub).TTL 0).Channels ["ch"]).opts.pubnub.Config
      = (newGrantBuilder noSecretPubNub).opts.pubnub.Config ∧
    ((((newGrantBuilder noSecretPubNub).TTL 0).Channels ["ch"]).opts.validate sampleKit = none ↔
      (newGrantBuilder noSecretPubNub).opts.validate sampleKit = none) :=
  ⟨by decide,
    (validate_keys sampleKit (newGrantBuilder noSecretPubNub).opts).2.1 (by decide),
    rfl,
    (validate_keys sampleKit (newGrantBuilder noSecretPubNub).opts).2.2
      (((newGrantBuilder noSecretPubNub).TTL 0).Channels ["ch"]).opts rfl⟩

/-- C16: `buildPath` returns `"/v1/auth/grant/sub-key/"` followed by the configured
`SubscribeKey` with a nil error, `httpMethod` is `"GET"`, `buildBody` is the empty byte string
with a nil error, and `isAuthRequired` is true, whatever the options are. -/
theorem request_constants {τ : Type} (o : grantOpts τ) :
    o.buildPath = ("/v1/auth/grant/sub-key/" ++ o.pubnub.Config.SubscribeKey, none) ∧
    o.httpMethod = "GET" ∧
    o.buildBody = ([], none) ∧
    o.isAuthRequired = true ∧
    pamKeyOpts.buildPath = ("/v1/auth/grant/sub-key/sub-key", none) :=
  ⟨rfl, rfl, rfl, rfl, by decide⟩

/-- C17: when `executeRequest` returns an error, `Execute` returns the nil response, the
status of the request and that error, whatever `json.Unmarshal` would do with the body; when
it returns no error, `Execute` returns exactly the triple `newGrantResponse` returns for the
raw body and the status: the same response and status with a nil error, or the same response
and status with the same parsing error, and it panics where `newGrantResponse` panics. -/
theorem execute_result {τ σ ρ ε : Type}
    (executeRequest : grantOpts τ → List UInt8 × σ × Option ρ)
    (unmarshal : List UInt8 → Except ε JSON) (b : grantBuilder τ) :
    (∀ err, (executeRequest b.opts).2.2 = some err →
      ∀ unmarshal' : List UInt8 → Except ε JSON,
        b.Execute executeRequest unmarshal'
          = .ok (none, (executeRequest b.opts).2.1, some (.request err))) ∧
    ((executeRequest b.opts).2.2 = none →
      (∀ resp status,
        newGrantResponse (unmarshal (executeRequest b.opts).1) (executeRequest b.opts).1
            (executeRequest b.opts).2.1 = .ok (resp, status, none) →
          b.Execute executeRequest unmarshal = .ok (resp, status, none)) ∧
      (∀ resp status err,
        newGrantResponse (unmarshal (executeRequest b.opts).1) (executeRequest b.opts).1
            (executeRequest b.opts).2.1 = .ok (resp, status, some err) →
          b.Execute executeRequest unmarshal = .ok (resp, status, some (.parsing err))) ∧
      (∀ msg,
        newGrantResponse (unmarshal (executeRequest b.opts).1) (executeRequest b.opts).1
            (executeRequest b.opts).2.1 = .error msg →
          b.Execute executeRequest unmarshal = .error msg)) := by
  constructor
  · intro err herr unmarshal'
    simp only [grantBuilder.Execute, herr]
  · intro hnone
    refine ⟨?_, ?_, ?_⟩
    · intro resp status h
      simp only [grantBuilder.Execute, hnone, h]
      rfl
    · intro resp status err h
      simp only [grantBuilder.Execute, hnone, h]
      rfl
    · intro msg h
      simp only [grantBuilder.Execute, hnone, h]
      rfl

/-- C17 on four requests: one that fails gives the request error and its status 500 without
decoding; one that answers `singleChannelBytes` gives `singleChannelResponse`, the status 200
and a nil error, the triple of `newGrantResponse`; one that answers `{` gives the nil
response, the status 200 and the parsing error of `newGrantResponse`; one that answers `{}`
panics as `newGrantResponse` does on a body without payload. -/
theorem execute_result_witness :
    (failingRequest (newGrantBuilder samplePubNub).opts).2.2 = some "request failed" ∧
    (newGrantBuilder samplePubNub).Execute failingRequest sampleUnmarshal
      = .ok (none, 500, some (.request "request failed")) ∧
    (grantedRequest (newGrantBuilder samplePubNub).opts).2.2 = none ∧
    newGrantResponse (sampleUnmarshal singleChannelBytes) singleChannelBytes 200
      = .ok (some singleChannelResponse, 200, none) ∧
    (newGrantBuilder samplePubNub).Execute grantedRequest sampleUnmarshal
      = .ok (some singleChannelResponse, 200, none) ∧
    (garbledRequest (newGrantBuilder samplePubNub).opts).2.2 = none ∧
    newGrantResponse (sampleUnmarshal [123]) [123] 200
      = .ok (none, 200, some { message := "Error unmarshalling response", body := [123],
                               origError := "unexpected end of JSON input" }) ∧
    (newGrantBuilder samplePubNub).Execute garbledRequest sampleUnmarshal
      = .ok (none, 200,
          some (.parsing { message := "Error unmarshalling response", body := [123],
                           origError := "unexpected end of JSON input" })) ∧
    (answeringRequest (newGrantBuilder samplePubNub).opts).2.2 = none ∧
    newGrantResponse (sampleUnmarshal [123, 125]) [123, 125] 200 = .error conversionPanic ∧
    (newGrantBuilder samplePubNub).Execute answeringRequest sampleUnmarshal
      = .error conversionPanic :=
  ⟨rfl,
    (execute_result failingRequest sampleUnmarshal (newGrantBuilder samplePubNub)).1
      "request failed" rfl sampleUnmarshal,
    rfl, rfl,
    ((execute_result grantedRequest sampleUnmarshal (newGrantBuilder samplePubNub)).2 rfl).1
      (some singleChannelResponse) 200 rfl,
    rfl, rfl,
    ((execute_result garbledRequest sampleUnmarshal (newGrantBuilder samplePubNub)).2 rfl).2.1
      none 200 _ rfl,
    rfl, rfl,
    ((execute_result answeringRequest sampleUnmarshal (newGrantBuilder samplePubNub)).2 rfl).2.2
      conversionPanic rfl⟩

/-- C18: after every sequence of subscribe and unsubscribe calls, with the polls the server
denied in between, `GetSubscribedChannels` (resp. `GetSubscribedGroups`) holds exactly the
base channel (resp. group) names currently subscribed, each once; subscribing to distinct
channels and distinct groups with presence gives exactly those channels and those groups,
while the wire-level sets, which hold the presence siblings too, are twice as long; and after
a denied poll both lists are empty, whatever was subscribed before. -/
theorem subscribed_lists (calls : List SubscriptionCall) :
    (∀ c, c ∈ (StateManager.run calls).GetSubscribedChannels ↔
      channelSubscribed calls.reverse c = true) ∧
    (∀ g, g ∈ (StateManager.run calls).GetSubscribedGroups ↔
      groupSubscribed calls.reverse g = true) ∧
    (StateManager.run calls).GetSubscribedChannels.Nodup ∧
    (StateManager.run calls).GetSubscribedGroups.Nodup ∧
    (∀ channels groups : List String, channels.Nodup → groups.Nodup →
      (StateManager.run [.Subscribe channels groups true]).GetSubscribedChannels = channels ∧
      (StateManager.run [.Subscribe channels groups true]).GetSubscribedGroups = groups ∧
      (wireNames (StateManager.run [.Subscribe channels groups true]).channels).length
        = 2 * channels.length ∧
      (wireNames (StateManager.run [.Subscribe channels groups true]).groups).length
        = 2 * groups.length) ∧
    (StateManager.run (calls ++ [.AccessDenied])).GetSubscribedChannels = [] ∧
    (StateManager.run (calls ++ [.AccessDenied])).GetSubscribedGroups = [] := by
  refine ⟨StateManager.mem_channels_run calls, StateManager.mem_groups_run calls,
    (StateManager.nodup_run calls).1, (StateManager.nodup_run calls).2, ?_, ?_⟩
  · intro channels groups hc hg
    have hcs : baseNames (addItems [] channels true) = channels := by
      rw [baseNames_addItems_of_nodup [] channels true (by simpa [baseNames] using hc)]
      simp [baseNames]
    have hgs : baseNames (addItems [] groups true) = groups := by
      rw [baseNames_addItems_of_nodup [] groups true (by simpa [baseNames] using hg)]
      simp [baseNames]
    have hpc := @presence_addItems [] (by simp) channels
    have hpg := @presence_addItems [] (by simp) groups
    refine ⟨hcs, hgs, ?_, ?_⟩
    · show (wireNames (addItems [] channels true)).length = 2 * channels.length
      rw [length_wireNames_of_presence hpc, hcs]
    · show (wireNames (addItems [] groups true)).length = 2 * groups.length
      rw [length_wireNames_of_presence hpg, hgs]
  · rw [StateManager.run_append]
    exact ⟨rfl, rfl⟩

/-- C18 on three channels and three groups subscribed with presence, as in
`TestUnsubscribeAll`: the two lists have length 3 and 3, the wire-level sets 6 and 6; and on
the subscription to `ch` whose poll the server denies, as in `TestSubscribe403Error`: `ch` is
not subscribed any more and both lists are empty, until `ch2` is subscribed. -/
theorem subscribed_lists_witness :
    ["ch1", "ch2", "ch3"].Nodup ∧ ["cg1", "cg2", "cg3"].Nodup ∧
    (StateManager.run [.Subscribe ["ch1", "ch2", "ch3"] ["cg1", "cg2", "cg3"] true]
      ).GetSubscribedChannels.length = 3 ∧
    (StateManager.run [.Subscribe ["ch1", "ch2", "ch3"] ["cg1", "cg2", "cg3"] true]
      ).GetSubscribedGroups.length = 3 ∧
    (wireNames (StateManager.run [.Subscribe ["ch1", "ch2", "ch3"] ["cg1", "cg2", "cg3"] true]
      ).channels).length = 6 ∧
    (wireNames (StateManager.run [.Subscribe ["ch1", "ch2", "ch3"] ["cg1", "cg2", "cg3"] true]
      ).groups).length = 6 ∧
    (StateManager.run [.Subscribe ["ch"] [] false]).GetSubscribedChannels = ["ch"] ∧
    (StateManager.run [.Subscribe ["ch"] [] false, .AccessDenied]).GetSubscribedChannels = [] ∧
    (StateManager.run [.Subscribe ["ch"] [] false, .AccessDenied]).GetSubscribedGroups = [] ∧
    channelSubscribed [.AccessDenied, .Subscribe ["ch"] [] false] "ch" = false ∧
    ("ch2" ∈ (StateManager.run [.Subscribe ["ch"] [] false, .AccessDenied,
        .Subscribe ["ch2"] [] false]).GetSubscribedChannels ↔
      channelSubscribed [.Subscribe ["ch2"] [] false, .AccessDenied,
        .Subscribe ["ch"] [] false] "ch2" = true) ∧
    (StateManager.run [.Subscribe ["ch"] [] false, .AccessDenied,
      .Subscribe ["ch2"] [] false]).GetSubscribedChannels = ["ch2"] :=
  have h := (subscribed_lists []).2.2.2.2.1 ["ch1", "ch2", "ch3"] ["cg1", "cg2", "cg3"]
    (by decide) (by decide)
  ⟨by decide, by decide, by rw [h.1]; rfl, by rw [h.2.1]; rfl, h.2.2.1, h.2.2.2,
    by decide,
    (subscribed_lists [.Subscribe ["ch"] [] false]).2.2.2.2.2.1,
    (subscribed_lists [.Subscribe ["ch"] [] false]).2.2.2.2.2.2,
    by decide,
    (subscribed_lists [.Subscribe ["ch"] [] false, .AccessDenied,
      .Subscribe ["ch2"] [] false]).1 "ch2",
    by decide⟩

/-- C19: after `UnsubscribeAll`, whatever calls came before, `GetSubscribedChannels` and
`GetSubscribedGroups` are empty, and so are the wire-level sets with the presence siblings. -/
theorem unsubscribeAll_empties (calls : List SubscriptionCall) :
    (StateManager.run (calls ++ [.UnsubscribeAll])).GetSubscribedChannels = [] ∧
    (StateManager.run (calls ++ [.UnsubscribeAll])).GetSubscribedGroups = [] ∧
    wireNames (StateManager.run (calls ++ [.UnsubscribeAll])).channels = [] ∧
    wireNames (StateManager.run (calls ++ [.UnsubscribeAll])).groups = [] ∧
    (StateManager.run [.Subscribe ["ch1", "ch2", "ch3"] ["cg1", "cg2", "cg3"] true,
      .UnsubscribeAll]).GetSubscribedChannels.length = 0 ∧
    (StateManager.run [.Subscribe ["ch1", "ch2", "ch3"] ["cg1", "cg2", "cg3"] true,
      .UnsubscribeAll]).GetSubscribedGroups.length = 0 := by
  rw [StateManager.run_append]
  exact ⟨rfl, rfl, rfl, rfl, by decide, by decide⟩

/-- C20: `Unsubscribe` removes exactly the named channels and groups and leaves every other
member of the two sets in place, in its order and with its presence sibling; after
subscribing to `[c1, c2]` and unsubscribing `[c2]` the subscribed channels are `[c1]`, and
after subscribing to the groups `[cg1, cg2]` and unsubscribing `[cg2]` the one group `cg1`
remains. -/
theorem unsubscribe_subset (calls : List SubscriptionCall) (channels groups : List String) :
    (StateManager.run (calls ++ [.Unsubscribe channels groups])).channels =
      (StateManager.run calls).channels.filter (fun it => decide (it.name ∉ channels)) ∧
    (StateManager.run (calls ++ [.Unsubscribe channels groups])).groups =
      (StateManager.run calls).groups.filter (fun it => decide (it.name ∉ groups)) ∧
    (∀ c, c ∈ (StateManager.run (calls ++ [.Unsubscribe channels groups])).GetSubscribedChannels
      ↔ c ∈ (StateManager.run calls).GetSubscribedChannels ∧ c ∉ channels) ∧
    (∀ g, g ∈ (StateManager.run (calls ++ [.Unsubscribe channels groups])).GetSubscribedGroups
      ↔ g ∈ (StateManager.run calls).GetSubscribedGroups ∧ g ∉ groups) ∧
    (∀ c1 c2 : String, c1 ≠ c2 →
      (StateManager.run [.Subscribe [c1, c2] [] false, .Unsubscribe [c2] []]
        ).GetSubscribedChannels = [c1]) ∧
    (∀ cg1 cg2 : String, cg1 ≠ cg2 →
      (StateManager.run [.Subscribe [] [cg1, cg2] false, .Unsubscribe [] [cg2]]
        ).GetSubscribedGroups = [cg1]) := by
  rw [StateManager.run_append]
  refine ⟨rfl, rfl, ?_, ?_, ?_, ?_⟩
  · intro c
    simp only [StateManager.GetSubscribedChannels, StateManager.apply, StateManager.remove]
    rw [baseNames_removeItems, List.mem_filter]
    simp
  · intro g
    simp only [StateManager.GetSubscribedGroups, StateManager.apply, StateManager.remove]
    rw [baseNames_removeItems, List.mem_filter]
    simp
  · intro c1 c2 h
    simp [StateManager.run, StateManager.apply, StateManager.add, StateManager.remove,
      StateManager.GetSubscribedChannels, addItems, addItem, removeItems, baseNames, h,
      List.filter_cons]
  · intro cg1 cg2 h
    simp [StateManager.run, StateManager.apply, StateManager.add, StateManager.remove,
      StateManager.GetSubscribedGroups, addItems, addItem, removeItems, baseNames, h,
      List.filter_cons]

/-- C20 on the channels `ch1`, `ch2` and the groups `cg1`, `cg2`. -/
theorem unsubscribe_subset_witness :
    "ch1" ≠ "ch2" ∧ "cg1" ≠ "cg2" ∧
    (StateManager.run [.Subscribe ["ch1", "ch2"] [] false, .Unsubscribe ["ch2"] []]
      ).GetSubscribedChannels = ["ch1"] ∧
    (StateManager.run [.Subscribe [] ["cg1", "cg2"] false, .Unsubscribe [] ["cg2"]]
      ).GetSubscribedGroups = ["cg1"] :=
  ⟨by decide, by decide,
    (unsubscribe_subset [] [] []).2.2.2.2.1 "ch1" "ch2" (by decide),
    (unsubscribe_subset [] [] []).2.2.2.2.2 "cg1" "cg2" (by decide)⟩

/-- C21: for a history response `[[m0,...,mn], start, end]` with `start` and `end` integers
(within the range of a 64-bit timetoken) and no cipher key configured, the decoder returns a
nil error, `StartTimetoken = start`, `EndTimetoken = end`, and as many messages as entries;
every entry that is not a `{timetoken, message}` envelope is delivered as the message at its
own position, so a response of raw payloads gives exactly its entries, in order. -/
theorem history_raw_payloads {σ ε : Type} (msgs : List JSON) (startTT endTT : Int)
    (jsonBytes : List UInt8) (status : σ)
    (hslo : -(2 : Int) ^ 63 ≤ startTT) (hshi : startTT < (2 : Int) ^ 63)
    (helo : -(2 : Int) ^ 63 ≤ endTT) (hehi : endTT < (2 : Int) ^ 63) :
    ∃ resp,
      @newHistoryResponse σ ε (.ok (.arr [.arr msgs, .num startTT, .num endTT])) jsonBytes none
        status = (some resp, status, none) ∧
      resp.StartTimetoken = startTT ∧ resp.EndTimetoken = endTT ∧
      resp.Messages.length = msgs.length ∧
      (∀ (i : Nat) (m : JSON), msgs[i]? = some m → isEnvelope m = false →
        (resp.Messages[i]?).map HistoryResponseItem.Message = some m) ∧
      ((∀ m ∈ msgs, isEnvelope m = false) →
        resp.Messages.map HistoryResponseItem.Message = msgs) := by
  refine ⟨_, rfl, floatToInt_intCast startTT hslo hshi, floatToInt_intCast endTT helo hehi,
    by simp, ?_, ?_⟩
  · intro i m hi hm
    simp only [List.getElem?_map, hi, Option.map_some', historyItem_of_raw none hm]
    rfl
  · intro hall
    simp only [List.map_map]
    conv_rhs => rw [← List.map_id msgs]
    apply List.map_congr_left
    intro m hm
    simp only [Function.comp_apply, historyItem_of_raw none (hall m hm)]
    rfl

/-- C21 on the second scenario of the spec,
`[["hey-1","hey-two"],14991775432719844,14991868111600528]`. -/
theorem history_raw_payloads_witness :
    ∃ resp,
      @newHistoryResponse Unit String (.ok stringHistoryBody) [] none () = (some resp, (), none) ∧
      resp.StartTimetoken = 14991775432719844 ∧ resp.EndTimetoken = 14991868111600528 ∧
      resp.Messages.length = [JSON.str "hey-1", JSON.str "hey-two"].length ∧
      (∀ (i : Nat) (m : JSON), [JSON.str "hey-1", JSON.str "hey-two"][i]? = some m →
        isEnvelope m = false →
        (resp.Messages[i]?).map HistoryResponseItem.Message = some m) ∧
      ((∀ m ∈ [JSON.str "hey-1", JSON.str "hey-two"], isEnvelope m = false) →
        resp.Messages.map HistoryResponseItem.Message = [JSON.str "hey-1", JSON.str "hey-two"]) :=
  @history_raw_payloads Unit String [.str "hey-1", .str "hey-two"] 14991775432719844
    14991868111600528 [] () (by decide) (by decide) (by decide) (by decide)

/-- C22: for a history response whose entry at position `i` is an envelope with the numeric
`timetoken` `t` (an integer within the range of a 64-bit timetoken) and the `message` `m`,
the decoder returns a nil error and `Messages[i]` has `Timetoken = t` and, as `Message`, the
payload `m` (of any JSON shape) after the payload rules of the configuration, which is `m`
itself when no cipher key is configured; the envelope is not delivered as the message. -/
theorem history_envelopes {σ ε : Type} (cipher : Option (JSON → JSON)) (msgs : List JSON)
    (startTT endTT : ℚ) (jsonBytes : List UInt8) (status : σ) :
    ∃ resp,
      @newHistoryResponse σ ε (.ok (.arr [.arr msgs, .num startTT, .num endTT])) jsonBytes
        cipher status = (some resp, status, none) ∧
      resp.Messages.length = msgs.length ∧
      ∀ (i : Nat) (kvs : GoMap JSON) (t : Int) (m : JSON), msgs[i]? = some (.obj kvs) →
        GoMap.get? kvs "timetoken" = some (.num (t : ℚ)) → GoMap.get? kvs "message" = some m →
        -(2 : Int) ^ 63 ≤ t → t < (2 : Int) ^ 63 →
        ∃ item, resp.Messages[i]? = some item ∧ item.Timetoken = t ∧
          item.Message = processPayload cipher m ∧ (cipher = none → item.Message = m) := by
  refine ⟨_, rfl, by simp, ?_⟩
  intro i kvs t m hi ht hm hlo hhi
  refine ⟨historyItem cipher (.obj kvs), ?_, ?_, ?_, ?_⟩
  · simp only [List.getElem?_map, hi, Option.map_some']
  · rw [historyItem_of_envelope cipher ht hm]
    exact floatToInt_intCast t hlo hhi
  · rw [historyItem_of_envelope cipher ht hm]
  · intro hc
    rw [historyItem_of_envelope cipher ht hm, hc]
    rfl

/-- C22 on the envelopes `{"timetoken":15232761410327866,"message":"hey-1"}` and
`{"message":[1,["one"]],"timetoken":1111}`, with no cipher key configured. -/
theorem history_envelopes_witness :
    ∃ resp,
      @newHistoryResponse Unit String (.ok envelopeHistoryBody) [] none ()
        = (some resp, (), none) ∧
      (∃ item, resp.Messages[0]? = some item ∧ item.Timetoken = 15232761410327866 ∧
        item.Message = JSON.str "hey-1") ∧
      (∃ item, resp.Messages[1]? = some item ∧ item.Timetoken = 1111 ∧
        item.Message = JSON.arr [.num 1, .arr [.str "one"]]) := by
  obtain ⟨resp, hresp, -, h⟩ := @history_envelopes Unit String none
    [.obj [("timetoken", .num 15232761410327866), ("message", .str "hey-1")],
     .obj [("message", .arr [.num 1, .arr [.str "one"]]), ("timetoken", .num 1111)]]
    15232761410327866 15232761410327866 [] ()
  refine ⟨resp, hresp, ?_, ?_⟩
  · obtain ⟨item, h1, h2, -, h4⟩ := h 0 _ 15232761410327866 (.str "hey-1") rfl rfl rfl
      (by decide) (by decide)
    exact ⟨item, h1, h2, h4 rfl⟩
  · obtain ⟨item, h1, h2, -, h4⟩ := h 1 _ 1111 (.arr [.num 1, .arr [.str "one"]]) rfl rfl rfl
      (by decide) (by decide)
    exact ⟨item, h1, h2, h4 rfl⟩

/-- C23: for history options with only `Channel` set, `buildPath` gives
`/v2/history/sub-key/{sub_key}/channel/{channel}`, `buildBody` is the empty byte string, and
`buildQuery` returns a nil error and a query that binds `count` to `100`, `reverse` to
`false`, `include_token` to `false`, and leaves every other key, `start` and `end` among
them, as the common parameters have it. -/
theorem history_request_basic {τ : Type} (defaultQuery : String → τ → Values)
    (urlEncode : String → String) (pn : PubNub τ) (channel : String) :
    (basicHistoryOpts pn channel).buildPath urlEncode =
      ("/v2/history/sub-key/" ++ pn.Config.SubscribeKey ++ "/channel/" ++ urlEncode channel,
        none) ∧
    (basicHistoryOpts pn channel).buildBody = ([], none) ∧
    ((basicHistoryOpts pn channel).buildQuery defaultQuery).2 = none ∧
    (∀ k, ((basicHistoryOpts pn channel).buildQuery defaultQuery).1.get? k =
      if "include_token" = k then some ["false"]
      else if "reverse" = k then some ["false"]
      else if "count" = k then some ["100"]
      else (defaultQuery pn.Config.UUID pn.telemetryManager).get? k) ∧
    (basicHistoryOpts samplePubNub "ch").buildPath id
      = ("/v2/history/sub-key/sub-key/channel/ch", none) ∧
    ((basicHistoryOpts samplePubNub "ch").buildQuery sampleDefaultQuery).1.get? "start" = none ∧
    ((basicHistoryOpts samplePubNub "ch").buildQuery sampleDefaultQuery).1.get? "end" = none ∧
    GoMap.keys ((basicHistoryOpts samplePubNub "ch").buildQuery sampleDefaultQuery).1
      = ["uuid", "count", "reverse", "include_token"] := by
  refine ⟨rfl, rfl, rfl, ?_, by decide, by decide, by decide, by decide⟩
  intro k
  simp only [historyOpts.buildQuery, Values.get?_Set, basicHistoryOpts]
  rfl

/-- C24: the `count` of a history query lies in 1..100; it is `Count` when
`1 <= Count <= 100` and 100 for every other `Count`; `buildQuery` binds `count` to its
decimal rendering; and the options of `initHistoryOpts` give `count=3`, `start=100000`,
`end=200000`, `include_token=true`, `reverse=false`. -/
theorem history_count {τ : Type} (defaultQuery : String → τ → Values) (o : historyOpts τ) :
    1 ≤ o.count ∧ o.count ≤ 100 ∧
    (1 ≤ o.Count → o.Count ≤ 100 → o.count = o.Count) ∧
    (o.Count < 1 ∨ 100 < o.Count → o.count = 100) ∧
    (o.buildQuery defaultQuery).2 = none ∧
    (o.buildQuery defaultQuery).1.get? "count" = some [toString o.count] ∧
    (initHistoryOpts.buildQuery sampleDefaultQuery).1.get? "count" = some ["3"] ∧
    (initHistoryOpts.buildQuery sampleDefaultQuery).1.get? "start" = some ["100000"] ∧
    (initHistoryOpts.buildQuery sampleDefaultQuery).1.get? "end" = some ["200000"] ∧
    (initHistoryOpts.buildQuery sampleDefaultQuery).1.get? "include_token" = some ["true"] ∧
    (initHistoryOpts.buildQuery sampleDefaultQuery).1.get? "reverse" = some ["false"] := by
  have hcount : o.count = if 1 ≤ o.Count ∧ o.Count ≤ 100 then o.Count else 100 := rfl
  refine ⟨?_, ?_, ?_, ?_, rfl, ?_, by decide, by decide, by decide, by decide, by decide⟩
  · rw [hcount]
    split_ifs with h
    · exact h.1
    · decide
  · rw [hcount]
    split_ifs with h
    · exact h.2
    · decide
  · intro h1 h2
    rw [hcount, if_pos ⟨h1, h2⟩]
  · intro h
    rw [hcount, if_neg (by omega)]
  · simp only [historyOpts.buildQuery, Values.get?_Set]
    rfl

/-- C24 on `Count` 3, 0 and 101: the counts sent are 3, 100 and 100. -/
theorem history_count_witness :
    (1 : Int) ≤ initHistoryOpts.Count ∧ initHistoryOpts.Count ≤ 100 ∧
    initHistoryOpts.count = 3 ∧
    (basicHistoryOpts samplePubNub "ch").Count < 1 ∧
    (basicHistoryOpts samplePubNub "ch").count = 100 ∧
    ({ initHistoryOpts with Count := 101 } : historyOpts Unit).count = 100 :=
  ⟨by decide, by decide,
    (history_count sampleDefaultQuery initHistoryOpts).2.2.1 (by decide) (by decide),
    by decide,
    (history_count sampleDefaultQuery (basicHistoryOpts samplePubNub "ch")).2.2.2.1
      (Or.inl (by decide)),
    by decide⟩

/-- C25: `buildQuery` returns a nil error; it binds `ttl` to the decimal rendering of `TTL`
if `setTTL` is true and `TTL >= -1`, and otherwise leaves `ttl` as the common parameters have
it: a `TTL` field of 1440 that was never set through the setter and a set `TTL` of -2 add no
`ttl` key, while `TTL(1440)` and `TTL(-1)` add `ttl=1440` and `ttl=-1`. -/
theorem buildQuery_ttl {τ : Type} (defaultQuery : String → τ → Values) (now : Int)
    (o : grantOpts τ) :
    (o.buildQuery defaultQuery now).2 = none ∧
    ((o.buildQuery defaultQuery now).1.get? "ttl" =
      if o.setTTL = true ∧ o.TTL ≥ -1 then some [toString o.TTL]
      else (o.baseQuery defaultQuery).get? "ttl") ∧
    (({ pubnub := samplePubNub, TTL := 1440 } : grantOpts Unit).buildQuery sampleDefaultQuery
      0).1.get? "ttl" = none ∧
    (((newGrantBuilder samplePubNub).TTL (-2)).opts.buildQuery sampleDefaultQuery 0).1.get? "ttl"
      = none ∧
    (((newGrantBuilder samplePubNub).TTL 1440).opts.buildQuery sampleDefaultQuery 0).1.get? "ttl"
      = some ["1440"] ∧
    (((newGrantBuilder samplePubNub).TTL (-1)).opts.buildQuery sampleDefaultQuery 0).1.get? "ttl"
      = some ["-1"] := by
  refine ⟨rfl, ?_, by decide, by decide, by decide, by decide⟩
  rw [buildQuery_get?_ttl]
  by_cases h1 : o.setTTL = true <;> by_cases h2 : o.TTL ≥ -1 <;> simp [h1, h2]

/-- C30 (defect of the code): for the body `{"payload":{"channel-groups":{"g1":{"r":1}}}}` the
entry of `ChannelGroups` under the key `g1` has the empty string as its `Name`, not `g1`. -/
theorem channelGroups_name_empty :
    ((returnedResponse (@newGrantResponse Unit String (.ok oneGroupBody) [] ())).bind
        fun resp => (resp.ChannelGroups.get? "g1").map fun e => e.Name) = some "" ∧
    ((returnedResponse (@newGrantResponse Unit String (.ok twoGroupsBody) [] ())).bind
        fun resp => (resp.ChannelGroups.get? "g2").map fun e => e.Name) = some "" := by
  constructor <;> rfl

/-- C26: when the decoder returns a response for a body whose payload is the object `p` with
`p["channel-groups"]` the string `s`, `resp.ChannelGroups` has the single entry `s`, with
`Name = s` and the three entity-level flags false; if `p.auths` is the object `am` (a Go map,
so with distinct keys) the keys of the entry's `AuthKeys` are exactly the member names of
`am`, each with `ReadEnabled` / `WriteEnabled` / `ManageEnabled` true exactly when that auth
entry has `r` / `w` / `m` equal to the number 1; and if `p.auths` is not an object `AuthKeys`
is empty. -/
theorem channelGroups_string_shape {σ ε : Type} (value : JSON) (jsonBytes : List UInt8)
    (status : σ) (resp : GrantResponse) (p : GoMap JSON) (s : String)
    (hret : @newGrantResponse σ ε (.ok value) jsonBytes status = .ok (some resp, status, none))
    (hp : GoMap.get? (asMap value) "payload" = some (.obj p))
    (hcg : p.get? "channel-groups" = some (.str s)) :
    ∃ e, resp.ChannelGroups = [(s, e)] ∧ e.Name = s ∧ e.ReadEnabled = false ∧
      e.WriteEnabled = false ∧ e.ManageEnabled = false ∧
      (∀ am, p.get? "auths" = some (.obj am) → (GoMap.keys am).Nodup →
        (∀ k, k ∈ GoMap.keys e.AuthKeys ↔ k ∈ GoMap.keys am) ∧
        ∀ k a, (k, a) ∈ am → ∃ kd, e.AuthKeys.get? k = some kd ∧
          (kd.ReadEnabled = true ↔ GoMap.get? (asMap a) "r" = some (.num 1)) ∧
          (kd.WriteEnabled = true ↔ GoMap.get? (asMap a) "w" = some (.num 1)) ∧
          (kd.ManageEnabled = true ↔ GoMap.get? (asMap a) "m" = some (.num 1))) ∧
      ((∀ am, p.get? "auths" ≠ some (.obj am)) → e.AuthKeys = []) := by
  obtain ⟨p', ch0, groups, chans, hp', -, h1, -, hresp⟩ := decodeGrant_ok (newGrantResponse_ok hret)
  rw [hp] at hp'
  cases hp'
  subst hresp
  have hg := channelGroupsBranch_of_str h1 hcg
  obtain ⟨hn, hr, hw, hm, -⟩ :=
    stringGroupLoop_entity (asMap (index p "auths")) { Name := s } []
  refine ⟨_, hg, hn, hr, hw, hm, ?_, ?_⟩
  · intro am ham hnd
    rw [asMap_index_of_obj ham]
    refine ⟨fun k => ?_, fun k a hka => ?_⟩
    · rw [stringGroupLoop_mem_keys]
      simp [GoMap.keys]
    · exact ⟨_, stringGroupLoop_get?_of_mem am _ _ hnd hka, keyDataOf_flags (asMap a)⟩
  · intro hno
    rw [asMap_index_of_not_obj hno]
    rfl

/-- C26 on `{"payload":{"channel-groups":"cg","ttl":5,"r":1,"auths":{"k1":{"r":1},
"k2":{"w":1}}}}`: the one group `cg` with the auth keys `k1` and `k2`. -/
theorem channelGroups_string_shape_witness :
    @newGrantResponse Unit String (.ok stringGroupBody) [] ()
      = .ok (some stringGroupResponse, (), none) ∧
    GoMap.get? (asMap stringGroupBody) "payload" = some (.obj stringGroupPayload) ∧
    GoMap.get? stringGroupPayload "channel-groups" = some (.str "cg") ∧
    ∃ e, stringGroupResponse.ChannelGroups = [("cg", e)] ∧ e.Name = "cg" ∧
      e.ReadEnabled = false ∧ e.WriteEnabled = false ∧ e.ManageEnabled = false ∧
      (∀ k, k ∈ GoMap.keys e.AuthKeys ↔
        k ∈ GoMap.keys [("k1", JSON.obj [("r", .num 1)]), ("k2", .obj [("w", .num 1)])]) := by
  refine ⟨rfl, rfl, rfl, ?_⟩
  obtain ⟨e, h1, h2, h3, h4, h5, h6, -⟩ :=
    @channelGroups_string_shape Unit String stringGroupBody [] () stringGroupResponse
      stringGroupPayload "cg" rfl rfl rfl
  exact ⟨e, h1, h2, h3, h4, h5, (h6 _ rfl (by decide)).1⟩

/-- C27: when the decoder returns a response for a body whose payload is the object `p` with
`p.channel` the string `n`, and `p.channels` has no member `n`, `resp.Channels[n]` exists
with `Name = n`, the three entity-level flags false, `TTL` equal to an integer-valued `p.ttl`
(within the range of a Go `int`; 0 if absent), and `AuthKeys` keyed by exactly the member
names of the object `p.auths` (a Go map, so with distinct keys; no key if `p.auths` is
absent), each auth entry being an object and its key's flags true exactly when the entry has
`r` / `w` / `m` equal to the number 1. -/
theorem single_channel_shape {σ ε : Type} (value : JSON) (jsonBytes : List UInt8)
    (status : σ) (resp : GrantResponse) (p : GoMap JSON) (n : String)
    (hret : @newGrantResponse σ ε (.ok value) jsonBytes status = .ok (some resp, status, none))
    (hp : GoMap.get? (asMap value) "payload" = some (.obj p))
    (hch : p.get? "channel" = some (.str n))
    (hn : ∀ cm, p.get? "channels" = some (.obj cm) → n ∉ GoMap.keys cm) :
    ∃ e, resp.Channels.get? n = some e ∧ e.Name = n ∧ e.ReadEnabled = false ∧
      e.WriteEnabled = false ∧ e.ManageEnabled = false ∧
      (∀ t : Int, -(2 : Int) ^ 63 ≤ t → t < (2 : Int) ^ 63 →
        p.get? "ttl" = some (.num (t : ℚ)) → e.TTL = t) ∧
      (p.get? "ttl" = none → e.TTL = 0) ∧
      (∀ am, p.get? "auths" = some (.obj am) → (GoMap.keys am).Nodup →
        (∀ k, k ∈ GoMap.keys e.AuthKeys ↔ k ∈ GoMap.keys am) ∧
        ∀ k a, (k, a) ∈ am → ∃ m kd, a = JSON.obj m ∧ e.AuthKeys.get? k = some kd ∧
          (kd.ReadEnabled = true ↔ GoMap.get? m "r" = some (.num 1)) ∧
          (kd.WriteEnabled = true ↔ GoMap.get? m "w" = some (.num 1)) ∧
          (kd.ManageEnabled = true ↔ GoMap.get? m "m" = some (.num 1))) ∧
      (p.get? "auths" = none → e.AuthKeys = []) := by
  obtain ⟨p', ch0, groups, chans, hp', h0, -, h2, hresp⟩ := decodeGrant_ok (newGrantResponse_ok hret)
  rw [hp] at hp'
  cases hp'
  subst hresp
  obtain ⟨auths, hl, hch0⟩ := channelBranch_of_str h0 hch
  have hget0 : ch0.get? n =
      some { Name := n, AuthKeys := auths, TTL := floatToInt (asFloat (index p "ttl")) } := by
    rw [hch0]
    simp [GoMap.get?]
  have hget : chans.get? n = ch0.get? n := by
    unfold channelsBranch at h2
    cases hcs : GoMap.get? p "channels" with
    | none =>
      simp only [hcs, Except.ok.injEq] at h2
      rw [h2]
    | some val =>
      simp only [hcs] at h2
      refine channelsLoop_get?_of_not_mem h2 ?_
      cases val with
      | obj cm => exact hn cm hcs
      | _ => simp [asMap, GoMap.keys]
  refine ⟨_, hget.trans hget0, rfl, rfl, rfl, rfl, ?_, ?_, ?_, ?_⟩
  · intro t hlo hhi ht
    show floatToInt (asFloat (index p "ttl")) = t
    rw [floatToInt_index_ttl, readTTL_of_int p 0 t hlo hhi ht]
  · intro ht
    show floatToInt (asFloat (index p "ttl")) = 0
    rw [floatToInt_index_ttl, readTTL_of_absent p 0 ht]
  · intro am ham hnd
    rw [asMap_index_of_obj ham] at hl
    refine ⟨fun k => ?_, fun k a hka => ?_⟩
    · show k ∈ GoMap.keys auths ↔ k ∈ GoMap.keys am
      rw [authsLoop_mem_keys hl k]
      simp [GoMap.keys]
    · obtain ⟨m, hm⟩ := authsLoop_all_obj hl (k, a) hka
      simp only at hm
      subst hm
      exact ⟨m, keyDataOf m, rfl, authsLoop_get?_of_mem hl hnd hka, keyDataOf_flags m⟩
  · intro ha
    rw [asMap_index_of_absent ha] at hl
    simp only [authsLoop, Except.ok.injEq] at hl
    exact hl.symm

/-- C27 on `{"payload":{"channel":"ch","ttl":5,"r":1,"auths":{"k1":{"r":1},"k2":{"w":1}}}}`:
the entry of `ch` has `TTL = 5` and the auth keys `k1` and `k2`. -/
theorem single_channel_shape_witness :
    @newGrantResponse Unit String (.ok singleChannelBody) [] ()
      = .ok (some singleChannelResponse, (), none) ∧
    GoMap.get? (asMap singleChannelBody) "payload" = some (.obj singleChannelPayload) ∧
    GoMap.get? singleChannelPayload "channel" = some (.str "ch") ∧
    (∀ cm, GoMap.get? singleChannelPayload "channels" = some (.obj cm) →
      "ch" ∉ GoMap.keys cm) ∧
    ∃ e, GoMap.get? singleChannelResponse.Channels "ch" = some e ∧ e.Name = "ch" ∧
      e.ReadEnabled = false ∧ e.WriteEnabled = false ∧ e.ManageEnabled = false ∧ e.TTL = 5 ∧
      (∀ k, k ∈ GoMap.keys e.AuthKeys ↔
        k ∈ GoMap.keys [("k1", JSON.obj [("r", .num 1)]), ("k2", .obj [("w", .num 1)])]) := by
  have hnone : ∀ cm, GoMap.get? singleChannelPayload "channels" = some (.obj cm) →
      "ch" ∉ GoMap.keys cm := by
    intro cm h
    have hq : GoMap.get? singleChannelPayload "channels" = none := rfl
    rw [hq] at h
    exact absurd h (by simp)
  refine ⟨rfl, rfl, rfl, hnone, ?_⟩
  obtain ⟨e, h1, h2, h3, h4, h5, h6, -, h8, -⟩ :=
    @single_channel_shape Unit String singleChannelBody [] () singleChannelResponse
      singleChannelPayload "ch" rfl rfl rfl hnone
  exact ⟨e, h1, h2, h3, h4, h5, h6 5 (by decide) (by decide) rfl, (h8 _ rfl (by decide)).1⟩

/-- C28: when the decoder returns a response for a body whose payload is the object `p`, the
keys of `resp.Channels` are exactly the member names of `p.channels` (when it is an object)
together with `p.channel` (which is then a string when present); every member of `p.channels`
(a Go map, so with distinct keys) is bound to the entry `fetchChannel` builds from it, also
when `p.channel` names the same channel; and when neither member is present `resp.Channels`
is the empty map made at line 284. -/
theorem channels_keys {σ ε : Type} (value : JSON) (jsonBytes : List UInt8) (status : σ)
    (resp : GrantResponse) (p : GoMap JSON)
    (hret : @newGrantResponse σ ε (.ok value) jsonBytes status = .ok (some resp, status, none))
    (hp : GoMap.get? (asMap value) "payload" = some (.obj p)) :
    (∀ c, c ∈ GoMap.keys resp.Channels ↔
      p.get? "channel" = some (.str c) ∨
        ∃ cm, p.get? "channels" = some (.obj cm) ∧ c ∈ GoMap.keys cm) ∧
    (∀ v, p.get? "channel" = some v → ∃ n, v = JSON.str n) ∧
    (∀ cm c v, p.get? "channels" = some (.obj cm) → (GoMap.keys cm).Nodup → (c, v) ∈ cm →
      ∃ e, fetchChannel c v p = .ok e ∧ resp.Channels.get? c = some e) ∧
    (p.get? "channel" = none → p.get? "channels" = none → resp.Channels = []) := by
  have hd := newGrantResponse_ok hret
  obtain ⟨p', ch0, groups, chans, hp', h0, -, h2, hresp⟩ := decodeGrant_ok hd
  rw [hp] at hp'
  cases hp'
  refine ⟨?_, fun v hv => channelBranch_channel_str h0 hv,
    fun cm c v hcm hnd hc => channels_get? hd hp hcm hnd hc, ?_⟩
  · intro c
    subst hresp
    show c ∈ GoMap.keys chans ↔ _
    unfold channelsBranch at h2
    cases hcs : GoMap.get? p "channels" with
    | none =>
      simp only [hcs, Except.ok.injEq] at h2
      rw [← h2, channelBranch_mem_keys h0]
      simp
    | some val =>
      simp only [hcs] at h2
      rw [channelsLoop_mem_keys h2, channelBranch_mem_keys h0]
      cases val <;> simp [asMap, GoMap.keys]
  · intro hch hcs
    subst hresp
    show chans = []
    unfold channelsBranch at h2
    unfold channelBranch at h0
    simp only [hcs, Except.ok.injEq] at h2
    simp only [hch, Except.ok.injEq] at h0
    rw [← h2, ← h0]

/-- C28 on `{"payload":{"channel":"ch","ttl":5,"auths":{"k1":{"r":1}},
"channels":{"ch":{"r":1},"c2":{"w":1}}}}`: the keys are `ch` and `c2`, and the entry of `ch`
is the one built from `payload.channels`, with `r` set and no auth key. -/
theorem channels_keys_witness :
    @newGrantResponse Unit String (.ok overlapBody) [] () = .ok (some overlapResponse, (), none) ∧
    GoMap.get? (asMap overlapBody) "payload" = some (.obj overlapPayload) ∧
    (∀ c, c ∈ GoMap.keys overlapResponse.Channels ↔
      GoMap.get? overlapPayload "channel" = some (.str c) ∨
        ∃ cm, GoMap.get? overlapPayload "channels" = some (.obj cm) ∧ c ∈ GoMap.keys cm) ∧
    (∃ e, fetchChannel "ch" (.obj [("r", .num 1)]) overlapPayload = .ok e ∧
      GoMap.get? overlapResponse.Channels "ch" = some e) ∧
    GoMap.get? overlapResponse.Channels "ch"
      = some { Name := "ch", ReadEnabled := true, TTL := 5 } :=
  have h := @channels_keys Unit String overlapBody [] () overlapResponse overlapPayload rfl rfl
  ⟨rfl, rfl, h.1,
    h.2.2.1 [("ch", .obj [("r", .num 1)]), ("c2", .obj [("w", .num 1)])] "ch"
      (.obj [("r", .num 1)]) rfl (by decide) (List.mem_cons_self _ _),
    rfl⟩

/-- C29: when the decoder returns a response for a body whose payload is the object `p` with
`p["channel-groups"]` the object `gm`, there is one entity to which every group name of `gm`
is bound in `resp.ChannelGroups`, so any two entries have equal `ReadEnabled`,
`WriteEnabled`, `ManageEnabled`, `TTL` and `AuthKeys`; and the keys of its `AuthKeys` are
the auth keys of all the groups of `gm` together. -/
theorem channelGroups_one_entity {σ ε : Type} (value : JSON) (jsonBytes : List UInt8)
    (status : σ) (resp : GrantResponse) (p gm : GoMap JSON)
    (hret : @newGrantResponse σ ε (.ok value) jsonBytes status = .ok (some resp, status, none))
    (hp : GoMap.get? (asMap value) "payload" = some (.obj p))
    (hcg : p.get? "channel-groups" = some (.obj gm)) :
    ∃ e,
      (∀ g e', resp.ChannelGroups.get? g = some e' → e' = e) ∧
      (∀ g, g ∈ GoMap.keys gm → resp.ChannelGroups.get? g = some e) ∧
      (gm ≠ [] → ∀ k, k ∈ GoMap.keys e.AuthKeys ↔
        ∃ g v, (g, v) ∈ gm ∧ k ∈ GoMap.keys (asMap (index (asMap v) "auths"))) := by
  obtain ⟨p', ch0, groups, chans, hp', -, h1, -, hresp⟩ := decodeGrant_ok (newGrantResponse_ok hret)
  rw [hp] at hp'
  cases hp'
  subst hresp
  obtain ⟨s, hl, hgroups⟩ := channelGroupsBranch_of_obj h1 hcg
  refine ⟨s.entity, ?_, ?_, ?_⟩
  · intro g e' hget
    simp only [hgroups, GroupsState.get?_resolve] at hget
    split_ifs at hget
    cases hget
    rfl
  · intro g hg
    simp only [hgroups, GroupsState.get?_resolve]
    rw [if_pos]
    rw [groupsLoop_mem_keys hl]
    exact Or.inr hg
  · intro hgm k
    rw [GroupsState.keys_entity_authKeys s (groupsLoop_assigned hl hgm),
      groupsLoop_mem_authKeys hl k]
    simp [GoMap.keys]

/-- C29 on `twoGroupAuthsBody`, where `g1` lists the auth key `k1` and `g2` lists `k2`: both
groups are bound to the same entity, whose `AuthKeys` has `k1` and `k2`. -/
theorem channelGroups_one_entity_witness :
    @newGrantResponse Unit String (.ok twoGroupAuthsBody) [] ()
      = .ok (some twoGroupAuthsResponse, (), none) ∧
    GoMap.get? (asMap twoGroupAuthsBody) "payload"
      = some (.obj [("channel-groups", .obj twoGroupAuthsMap)]) ∧
    twoGroupAuthsMap ≠ [] ∧
    ∃ e, GoMap.get? twoGroupAuthsResponse.ChannelGroups "g1" = some e ∧
      GoMap.get? twoGroupAuthsResponse.ChannelGroups "g2" = some e ∧
      e = twoGroupAuthsEntity ∧
      ∀ k, k ∈ GoMap.keys e.AuthKeys ↔
        ∃ g v, (g, v) ∈ twoGroupAuthsMap ∧ k ∈ GoMap.keys (asMap (index (asMap v) "auths")) := by
  have hne : twoGroupAuthsMap ≠ [] := by simp [twoGroupAuthsMap]
  obtain ⟨e, h1, h2, h3⟩ := @channelGroups_one_entity Unit String twoGroupAuthsBody [] ()
    twoGroupAuthsResponse [("channel-groups", .obj twoGroupAuthsMap)] twoGroupAuthsMap rfl rfl rfl
  exact ⟨rfl, rfl, hne, e, h2 "g1" (by decide), h2 "g2" (by decide),
    (h1 "g1" twoGroupAuthsEntity rfl).symm, h3 hne⟩

/-- C31 (defect of the code): the decoded object `channel-groups` with the members `g1`
(`r = 1`) and `g2` (`r = 0`) gives different responses in its two iteration orders: visiting
`g1` first leaves `ReadEnabled` false in the entries of both groups, visiting `g2` first
leaves it true in both. -/
theorem response_depends_on_order :
    List.Perm [("g1", JSON.obj [("r", .num 1)]), ("g2", JSON.obj [("r", .num 0)])]
      [("g2", JSON.obj [("r", .num 0)]), ("g1", JSON.obj [("r", .num 1)])] ∧
    twoGroupsBody = .obj [("payload", .obj [("channel-groups",
      .obj [("g1", JSON.obj [("r", .num 1)]), ("g2", JSON.obj [("r", .num 0)])])])] ∧
    twoGroupsBodyRev = .obj [("payload", .obj [("channel-groups",
      .obj [("g2", JSON.obj [("r", .num 0)]), ("g1", JSON.obj [("r", .num 1)])])])] ∧
    ((returnedResponse (@newGrantResponse Unit String (.ok twoGroupsBody) [] ())).bind
        fun resp => (resp.ChannelGroups.get? "g1").map fun e => e.ReadEnabled) = some false ∧
    ((returnedResponse (@newGrantResponse Unit String (.ok twoGroupsBodyRev) [] ())).bind
        fun resp => (resp.ChannelGroups.get? "g1").map fun e => e.ReadEnabled) = some true ∧
    ((returnedResponse (@newGrantResponse Unit String (.ok twoGroupsBody) [] ())).bind
        fun resp => (resp.ChannelGroups.get? "g1").map fun e => e.ReadEnabled) ≠
      ((returnedResponse (@newGrantResponse Unit String (.ok twoGroupsBodyRev) [] ())).bind
        fun resp => (resp.ChannelGroups.get? "g1").map fun e => e.ReadEnabled) := by
  refine ⟨List.Perm.swap _ _ _, rfl, rfl, rfl, rfl, ?_⟩
  decide

/-- C32: the decoder returns a response, a nil error and the status it was given for every
body whose member `payload` is the object `p`, in which `p.channel`, if present, is a string
and then every member of `p.auths` (if an object) is an object; every member of
`p["channel-groups"]` (if an object) is an object; and for every member of `p.channels` that
is an object, its `auths`, if present, is an object whose members are all objects. -/
theorem decoder_succeeds_on_grant_shape {σ ε : Type} (value : JSON) (jsonBytes : List UInt8)
    (status : σ) (p : GoMap JSON)
    (hp : GoMap.get? (asMap value) "payload" = some (.obj p))
    (hch : ∀ v, p.get? "channel" = some v → (∃ n, v = JSON.str n) ∧
      ∀ am, p.get? "auths" = some (.obj am) → ∀ kv ∈ am, ∃ m, kv.2 = JSON.obj m)
    (hcg : ∀ gm, p.get? "channel-groups" = some (.obj gm) → ∀ kv ∈ gm, ∃ m, kv.2 = JSON.obj m)
    (hcs : ∀ cm, p.get? "channels" = some (.obj cm) → ∀ c vm a, (c, JSON.obj vm) ∈ cm →
      GoMap.get? vm "auths" = some a →
      ∃ am, a = JSON.obj am ∧ ∀ kv ∈ am, ∃ m, kv.2 = JSON.obj m) :
    ∃ resp, @newGrantResponse σ ε (.ok value) jsonBytes status
      = .ok (some resp, status, none) := by
  have hshape : grantShape value = true := by
    unfold grantShape
    simp only [hp, Bool.and_eq_true]
    exact ⟨⟨channelShape_of hch, groupsShape_of hcg⟩, channelsShape_of hcs⟩
  obtain ⟨resp, hd⟩ := decodeGrant_returns hshape
  exact ⟨resp, newGrantResponse_of_decodeGrant jsonBytes status hd⟩

/-- C32 on `sampleBody`, which has no `channel`, the group `cg1` and the channels `ch1` (with
two auth keys) and `ch2`. -/
theorem decoder_succeeds_on_grant_shape_witness :
    GoMap.get? (asMap sampleBody) "payload" = some (.obj samplePayload) ∧
    GoMap.get? samplePayload "channel" = none ∧
    GoMap.get? samplePayload "channel-groups" = some (.obj [("cg1", .obj [("r", .num 1)])]) ∧
    GoMap.get? samplePayload "channels" = some (.obj sampleChannels) ∧
    ∃ resp, @newGrantResponse Unit String (.ok sampleBody) [] () = .ok (some resp, (), none) := by
  refine ⟨rfl, rfl, rfl, rfl, ?_⟩
  refine @decoder_succeeds_on_grant_shape Unit String sampleBody [] () samplePayload rfl ?_ ?_ ?_
  · intro v hv
    have hq : GoMap.get? samplePayload "channel" = none := rfl
    rw [hq] at hv
    exact absurd hv (by simp)
  · intro gm hgm
    have hq : GoMap.get? samplePayload "channel-groups"
        = some (.obj [("cg1", .obj [("r", .num 1)])]) := rfl
    rw [hq] at hgm
    simp only [Option.some.injEq, JSON.obj.injEq] at hgm
    subst hgm
    simp
  · intro cm hcm c vm a hc ha
    have hq : GoMap.get? samplePayload "channels" = some (.obj sampleChannels) := rfl
    rw [hq] at hcm
    simp only [Option.some.injEq, JSON.obj.injEq] at hcm
    subst hcm
    simp only [sampleChannels, List.mem_cons, Prod.mk.injEq, JSON.obj.injEq, List.mem_singleton,
      List.not_mem_nil, or_false] at hc
    rcases hc with ⟨-, hvm⟩ | ⟨-, hvm⟩
    · subst hvm
      simp [GoMap.get?] at ha
      subst ha
      exact ⟨_, rfl, by simp⟩
    · subst hvm
      simp [GoMap.get?] at ha

/-- C35: when the decoder returns a response for a body whose payload is the object `p` with
`p["channel-groups"]` the string `s`, the one entry of `resp.ChannelGroups` has `TTL = 0`,
whatever `p.ttl` and the `ttl` members of the auth entries are. -/
theorem string_group_ttl {σ ε : Type} (value : JSON) (jsonBytes : List UInt8)
    (status : σ) (resp : GrantResponse) (p : GoMap JSON) (s : String)
    (hret : @newGrantResponse σ ε (.ok value) jsonBytes status = .ok (some resp, status, none))
    (hp : GoMap.get? (asMap value) "payload" = some (.obj p))
    (hcg : p.get? "channel-groups" = some (.str s)) :
    ∃ e, resp.ChannelGroups = [(s, e)] ∧ e.TTL = 0 := by
  obtain ⟨p', ch0, groups, chans, hp', -, h1, -, hresp⟩ := decodeGrant_ok (newGrantResponse_ok hret)
  rw [hp] at hp'
  cases hp'
  subst hresp
  exact ⟨_, channelGroupsBranch_of_str h1 hcg,
    (stringGroupLoop_entity (asMap (index p "auths")) { Name := s } []).2.2.2.2 rfl⟩

/-- C35 on `ttlBody`, whose payload has `ttl = 5`, an auth entry with `ttl = 7`, the group
`cg` as a string and the single channel `ch`: the group entry has `TTL = 0`, the channel
entry `TTL = 5`. -/
theorem string_group_ttl_witness :
    @newGrantResponse Unit String (.ok ttlBody) [] () = .ok (some ttlResponse, (), none) ∧
    GoMap.get? (asMap ttlBody) "payload" = some (.obj ttlPayload) ∧
    GoMap.get? ttlPayload "channel-groups" = some (.str "cg") ∧
    GoMap.get? ttlPayload "ttl" = some (.num 5) ∧
    (∃ e, ttlResponse.ChannelGroups = [("cg", e)] ∧ e.TTL = 0) ∧
    (GoMap.get? ttlResponse.Channels "ch").map (fun e => e.TTL) = some 5 :=
  ⟨rfl, rfl, rfl, rfl,
    @string_group_ttl Unit String ttlBody [] () ttlResponse ttlPayload "cg" rfl rfl rfl,
    by decide⟩

/-- C36: `validate` reports the first missing key in the order publish key, subscribe key,
secret key: the missing-publish-key error whenever `PublishKey` is empty, the
missing-subscribe-key error when `PublishKey` is non-empty and `SubscribeKey` is empty, and
the missing-secret-key error when only `SecretKey` is empty. -/
theorem validate_order {τ E : Type} (kit : ValidationKit τ E) (o : grantOpts τ) :
    (o.pubnub.Config.PublishKey = "" →
      o.validate kit = some (kit.newValidationError o kit.StrMissingPubKey)) ∧
    (o.pubnub.Config.PublishKey ≠ "" → o.pubnub.Config.SubscribeKey = "" →
      o.validate kit = some (kit.newValidationError o kit.StrMissingSubKey)) ∧
    (o.pubnub.Config.PublishKey ≠ "" → o.pubnub.Config.SubscribeKey ≠ "" →
      o.pubnub.Config.SecretKey = "" →
      o.validate kit = some (kit.newValidationError o kit.StrMissingSecretKey)) := by
  refine ⟨?_, ?_, ?_⟩
  · intro h1
    simp [grantOpts.validate, grantOpts.config, h1]
  · intro h1 h2
    simp [grantOpts.validate, grantOpts.config, h1, h2]
  · intro h1 h2 h3
    simp [grantOpts.validate, grantOpts.config, h1, h2, h3]

/-- C36 on clients with no key at all, with a publish key only, and with no secret key. -/
theorem validate_order_witness :
    (newGrantBuilder ({ Config := {}, telemetryManager := () } : PubNub Unit)).opts.validate
      sampleKit = some "Missing Publish Key" ∧
    (newGrantBuilder ({ Config := { PublishKey := "pub-key" }, telemetryManager := () } :
      PubNub Unit)).opts.validate sampleKit = some "Missing Subscribe Key" ∧
    (newGrantBuilder noSecretPubNub).opts.validate sampleKit = some "Missing Secret Key" :=
  ⟨(validate_order sampleKit
      (newGrantBuilder ({ Config := {}, telemetryManager := () } : PubNub Unit)).opts).1 rfl,
    (validate_order sampleKit
      (newGrantBuilder ({ Config := { PublishKey := "pub-key" }, telemetryManager := () } :
        PubNub Unit)).opts).2.1 (by decide) rfl,
    (validate_order sampleKit (newGrantBuilder noSecretPubNub).opts).2.2 (by decide)
      (by decide) rfl⟩

/-- C33, the defect: the bodies `{"status":403,"payload":{"channel":5}}` and
`{"payload":{"channel":5}}` are JSON objects with the same object as payload, and the decoder
succeeds on neither: the unchecked assertion `val.(string)` at line 294 panics on both.  The
same read at line 341 uses the comma-ok form. -/
theorem payload_only_panics :
    index (asMap deniedBody) "payload" = index (asMap bareBody) "payload" ∧
    index (asMap deniedBody) "payload" = JSON.obj [("channel", .num 5)] ∧
    @newGrantResponse Unit String (.ok deniedBody) [] () = .error conversionPanic ∧
    @newGrantResponse Unit String (.ok bareBody) [] () = .error conversionPanic :=
  ⟨rfl, rfl, rfl, rfl⟩

/-- Only the payload is read: two bodies with equal values of the member `payload` give the
same result of the decoder for the same status, whatever their other top-level members and
bytes are: the same panic or the same returned triple; and when one of them has the grant
shape both return the same response with a nil error. -/
theorem response_depends_on_payload {σ ε : Type} (v₁ v₂ : JSON) (b₁ b₂ : List UInt8)
    (status : σ) (heq : index (asMap v₁) "payload" = index (asMap v₂) "payload") :
    @newGrantResponse σ ε (.ok v₁) b₁ status = @newGrantResponse σ ε (.ok v₂) b₂ status ∧
    (grantShape v₁ = true →
      ∃ resp, @newGrantResponse σ ε (.ok v₁) b₁ status = .ok (some resp, status, none) ∧
        @newGrantResponse σ ε (.ok v₂) b₂ status = .ok (some resp, status, none)) := by
  have hd := decodeGrant_congr heq
  have hsame : @newGrantResponse σ ε (.ok v₁) b₁ status
      = @newGrantResponse σ ε (.ok v₂) b₂ status := by
    simp only [newGrantResponse, hd]
  refine ⟨hsame, fun hshape => ?_⟩
  obtain ⟨resp, hresp⟩ := decodeGrant_returns hshape
  have h1 := @newGrantResponse_of_decodeGrant σ ε v₁ b₁ status resp hresp
  exact ⟨resp, h1, hsame ▸ h1⟩

/-- Only the payload is read, on `ttlBody`, which carries `"status":403` and `"error":true`,
and the body that has its payload alone: both give `ttlResponse` with a nil error. -/
theorem response_depends_on_payload_witness :
    index (asMap ttlBody) "payload" = index (asMap (JSON.obj [("payload", .obj ttlPayload)]))
      "payload" ∧
    grantShape ttlBody = true ∧
    @newGrantResponse Unit String (.ok ttlBody) [1] ()
      = @newGrantResponse Unit String (.ok (JSON.obj [("payload", .obj ttlPayload)])) [2] () ∧
    @newGrantResponse Unit String (.ok ttlBody) [1] () = .ok (some ttlResponse, (), none) ∧
    ∃ resp, @newGrantResponse Unit String (.ok ttlBody) [1] () = .ok (some resp, (), none) ∧
      @newGrantResponse Unit String (.ok (JSON.obj [("payload", .obj ttlPayload)])) [2] ()
        = .ok (some resp, (), none) :=
  have h := @response_depends_on_payload Unit String ttlBody
    (JSON.obj [("payload", .obj ttlPayload)]) [1] [2] () rfl
  ⟨rfl, by decide, h.1, rfl, h.2 (by decide)⟩

/-- C34: in every response the decoder returns, every key data under every entry of
`Channels` and of `ChannelGroups` has `TTL = 0`. -/
theorem keyData_ttl_zero {σ ε : Type} (value : JSON) (jsonBytes : List UInt8) (status : σ)
    (resp : GrantResponse)
    (hret : @newGrantResponse σ ε (.ok value) jsonBytes status
      = .ok (some resp, status, none)) :
    (∀ c e k kd, resp.Channels.get? c = some e → e.AuthKeys.get? k = some kd → kd.TTL = 0) ∧
    (∀ g e k kd, resp.ChannelGroups.get? g = some e → e.AuthKeys.get? k = some kd →
      kd.TTL = 0) := by
  obtain ⟨p, ch0, groups, chans, -, h0, h1, h2, hresp⟩ := decodeGrant_ok (newGrantResponse_ok hret)
  subst hresp
  have hch : ∀ c e, chans.get? c = some e → KeyTTLZero e.AuthKeys := by
    unfold channelsBranch at h2
    cases hcs : GoMap.get? p "channels" with
    | none =>
      simp only [hcs, Except.ok.injEq] at h2
      subst h2
      exact fun c e hget => channelBranch_ttl h0 hget
    | some val =>
      simp only [hcs] at h2
      exact channelsLoop_forall (fun e => KeyTTLZero e.AuthKeys) h2
        (fun c e hget => channelBranch_ttl h0 hget) (fun c v e _ hf => fetchChannel_ttl hf)
  have hgr : ∀ g e, groups.get? g = some e → KeyTTLZero e.AuthKeys :=
    fun g e hget => channelGroupsBranch_ttl h1 hget
  exact ⟨fun c e k kd hc hk => (hch c e hc).get? hk, fun g e k kd hg hk => (hgr g e hg).get? hk⟩

/-- C34 on `ttlBody`, whose payload has `ttl = 5` and whose auth entry `k1` has `ttl = 7`: the
key data of `k1` has `TTL = 0` under the channel and under the group. -/
theorem keyData_ttl_zero_witness :
    @newGrantResponse Unit String (.ok ttlBody) [] () = .ok (some ttlResponse, (), none) ∧
    GoMap.get? ttlPayload "ttl" = some (.num 5) ∧
    (∀ e kd, GoMap.get? ttlResponse.Channels "ch" = some e → e.AuthKeys.get? "k1" = some kd →
      kd.TTL = 0) ∧
    (∀ e kd, GoMap.get? ttlResponse.ChannelGroups "cg" = some e →
      e.AuthKeys.get? "k1" = some kd → kd.TTL = 0) ∧
    ((GoMap.get? ttlResponse.Channels "ch").bind fun e => GoMap.get? e.AuthKeys "k1")
      = some { ReadEnabled := true, TTL := 0 } :=
  have h := @keyData_ttl_zero Unit String ttlBody [] () ttlResponse rfl
  ⟨rfl, rfl, fun e kd => h.1 "ch" e "k1" kd, fun e kd => h.2 "cg" e "k1" kd, by decide⟩

/-- C37: each of the setters `Read`, `Write`, `Manage`, `AuthKeys`, `Channels`,
`ChannelGroups` writes its argument to its own field of `grantOpts` and leaves every other
field as it was; `TTL(t)` writes `TTL` and sets `setTTL`, and leaves the other fields; two
different setters give the same builder in either order; and of two calls of the same setter
the later one decides. -/
theorem setters_frame {τ : Type} (b : grantBuilder τ) (r r' w w' m m' : Bool) (t t' : Int)
    (ak ak' ch ch' cg cg' : List String) :
    (b.Read r).opts.pubnub = b.opts.pubnub ∧
    (b.Read r).opts.AuthKeys = b.opts.AuthKeys ∧
    (b.Read r).opts.Channels = b.opts.Channels ∧
    (b.Read r).opts.ChannelGroups = b.opts.ChannelGroups ∧
    (b.Read r).opts.Read = r ∧
    (b.Read r).opts.Write = b.opts.Write ∧
    (b.Read r).opts.Manage = b.opts.Manage ∧
    (b.Read r).opts.TTL = b.opts.TTL ∧
    (b.Read r).opts.setTTL = b.opts.setTTL ∧
    (b.Write w).opts.pubnub = b.opts.pubnub ∧
    (b.Write w).opts.AuthKeys = b.opts.AuthKeys ∧
    (b.Write w).opts.Channels = b.opts.Channels ∧
    (b.Write w).opts.ChannelGroups = b.opts.ChannelGroups ∧
    (b.Write w).opts.Read = b.opts.Read ∧
    (b.Write w).opts.Write = w ∧
    (b.Write w).opts.Manage = b.opts.Manage ∧
    (b.Write w).opts.TTL = b.opts.TTL ∧
    (b.Write w).opts.setTTL = b.opts.setTTL ∧
    (b.Manage m).opts.pubnub = b.opts.pubnub ∧
    (b.Manage m).opts.AuthKeys = b.opts.AuthKeys ∧
    (b.Manage m).opts.Channels = b.opts.Channels ∧
    (b.Manage m).opts.ChannelGroups = b.opts.ChannelGroups ∧
    (b.Manage m).opts.Read = b.opts.Read ∧
    (b.Manage m).opts.Write = b.opts.Write ∧
    (b.Manage m).opts.Manage = m ∧
    (b.Manage m).opts.TTL = b.opts.TTL ∧
    (b.Manage m).opts.setTTL = b.opts.setTTL ∧
    (b.TTL t).opts.pubnub = b.opts.pubnub ∧
    (b.TTL t).opts.AuthKeys = b.opts.AuthKeys ∧
    (b.TTL t).opts.Channels = b.opts.Channels ∧
    (b.TTL t).opts.ChannelGroups = b.opts.ChannelGroups ∧
    (b.TTL t).opts.Read = b.opts.Read ∧
    (b.TTL t).opts.Write = b.opts.Write ∧
    (b.TTL t).opts.Manage = b.opts.Manage ∧
    (b.TTL t).opts.TTL = t ∧
    (b.TTL t).opts.setTTL = true ∧
    (b.AuthKeys ak).opts.pubnub = b.opts.pubnub ∧
    (b.AuthKeys ak).opts.AuthKeys = ak ∧
    (b.AuthKeys ak).opts.Channels = b.opts.Channels ∧
    (b.AuthKeys ak).opts.ChannelGroups = b.opts.ChannelGroups ∧
    (b.AuthKeys ak).opts.Read = b.opts.Read ∧
    (b.AuthKeys ak).opts.Write = b.opts.Write ∧
    (b.AuthKeys ak).opts.Manage = b.opts.Manage ∧
    (b.AuthKeys ak).opts.TTL = b.opts.TTL ∧
    (b.AuthKeys ak).opts.setTTL = b.opts.setTTL ∧
    (b.Channels ch).opts.pubnub = b.opts.pubnub ∧
    (b.Channels ch).opts.AuthKeys = b.opts.AuthKeys ∧
    (b.Channels ch).opts.Channels = ch ∧
    (b.Channels ch).opts.ChannelGroups = b.opts.ChannelGroups ∧
    (b.Channels ch).opts.Read = b.opts.Read ∧
    (b.Channels ch).opts.Write = b.opts.Write ∧
    (b.Channels ch).opts.Manage = b.opts.Manage ∧
    (b.Channels ch).opts.TTL = b.opts.TTL ∧
    (b.Channels ch).opts.setTTL = b.opts.setTTL ∧
    (b.ChannelGroups cg).opts.pubnub = b.opts.pubnub ∧
    (b.ChannelGroups cg).opts.AuthKeys = b.opts.AuthKeys ∧
    (b.ChannelGroups cg).opts.Channels = b.opts.Channels ∧
    (b.ChannelGroups cg).opts.ChannelGroups = cg ∧
    (b.ChannelGroups cg).opts.Read = b.opts.Read ∧
    (b.ChannelGroups cg).opts.Write = b.opts.Write ∧
    (b.ChannelGroups cg).opts.Manage = b.opts.Manage ∧
    (b.ChannelGroups cg).opts.TTL = b.opts.TTL ∧
    (b.ChannelGroups cg).opts.setTTL = b.opts.setTTL ∧
    (b.Read r).Write w = (b.Write w).Read r ∧
    (b.Read r).Manage m = (b.Manage m).Read r ∧
    (b.Read r).TTL t = (b.TTL t).Read r ∧
    (b.Read r).AuthKeys ak = (b.AuthKeys ak).Read r ∧
    (b.Read r).Channels ch = (b.Channels ch).Read r ∧
    (b.Read r).ChannelGroups cg = (b.ChannelGroups cg).Read r ∧
    (b.Write w).Manage m = (b.Manage m).Write w ∧
    (b.Write w).TTL t = (b.TTL t).Write w ∧
    (b.Write w).AuthKeys ak = (b.AuthKeys ak).Write w ∧
    (b.Write w).Channels ch = (b.Channels ch).Write w ∧
    (b.Write w).ChannelGroups cg = (b.ChannelGroups cg).Write w ∧
    (b.Manage m).TTL t = (b.TTL t).Manage m ∧
    (b.Manage m).AuthKeys ak = (b.AuthKeys ak).Manage m ∧
    (b.Manage m).Channels ch = (b.Channels ch).Manage m ∧
    (b.Manage m).ChannelGroups cg = (b.ChannelGroups cg).Manage m ∧
    (b.TTL t).AuthKeys ak = (b.AuthKeys ak).TTL t ∧
    (b.TTL t).Channels ch = (b.Channels ch).TTL t ∧
    (b.TTL t).ChannelGroups cg = (b.ChannelGroups cg).TTL t ∧
    (b.AuthKeys ak).Channels ch = (b.Channels ch).AuthKeys ak ∧
    (b.AuthKeys ak).ChannelGroups cg = (b.ChannelGroups cg).AuthKeys ak ∧
    (b.Channels ch).ChannelGroups cg = (b.ChannelGroups cg).Channels ch ∧
    (b.Read r).Read r' = b.Read r' ∧
    (b.Write w).Write w' = b.Write w' ∧
    (b.Manage m).Manage m' = b.Manage m' ∧
    (b.TTL t).TTL t' = b.TTL t' ∧
    (b.AuthKeys ak).AuthKeys ak' = b.AuthKeys ak' ∧
    (b.Channels ch).Channels ch' = b.Channels ch' ∧
    (b.ChannelGroups cg).ChannelGroups cg' = b.ChannelGroups cg' := by
  repeat' constructor

end Pubnub
